import Mathlib

/-!
# Parsers for the SCTP tables under /proc/net/sctp

A shallow embedding of `ParseAssocs` (assocs.go), `ParseEPS` (eps.go) and
`ParseRemaddr` (remaddr.go).

Modelling conventions.

* A Go `string` is a Lean `String`; the byte-level library routines are
  written over its characters (`String.data`).  A character outside ASCII is
  encoded by bytes that are all at least `0x80`, and the routines below treat
  such a character exactly as they treat each of those bytes.
* The `*bufio.Scanner` is the list of lines it yields, in order.
* `uint64` values are `Nat`, `int64` values are `Int`; the range checks of
  `strconv` are explicit.
* `lineNum` is a Go `int`; it is a `Nat` here (an input needs `2^63` lines
  before the two differ).
* A Go call either returns its pair `(records, err)` or panics on an index
  out of range; both are outcomes of the model.
-/

set_option linter.dupNamespace false

namespace SctpProc

/-! ## Library routines (Go standard library) -/

/-- White space in the sense of Go `unicode.IsSpace`, which `strings.TrimSpace` uses. -/
def isSpace (c : Char) : Bool :=
  let n := c.toNat
  n == 0x09 || n == 0x0A || n == 0x0B || n == 0x0C || n == 0x0D || n == 0x20 ||
  n == 0x85 || n == 0xA0 || n == 0x1680 || (0x2000 ≤ n && n ≤ 0x200A) ||
  n == 0x2028 || n == 0x2029 || n == 0x202F || n == 0x205F || n == 0x3000

/-- Go `strings.TrimSpace`: drop leading and trailing white space. -/
def TrimSpace (s : String) : String :=
  String.mk ((s.data.dropWhile isSpace).reverse.dropWhile isSpace).reverse

/-- Go `strings.Trim s cutset`: drop the leading and trailing characters that occur in `cutset`. -/
def Trim (s cutset : String) : String :=
  String.mk ((s.data.dropWhile (fun c => cutset.data.contains c)).reverse.dropWhile
    (fun c => cutset.data.contains c)).reverse

/-- The character class `\s` of Go regular expressions: tab, newline, form feed, carriage return, space. -/
def reSpace (c : Char) : Bool :=
  let n := c.toNat
  n == 0x09 || n == 0x0A || n == 0x0C || n == 0x0D || n == 0x20

/-- Loop of `Regexp.Split` for a pattern matching maximal non-empty runs of `reSpace`:
`cur` is the piece being read (reversed), `inRun` tells that the previous character
belonged to a match. -/
def splitRuns : List Char → Bool → List Char → List String
  | [], _, cur => [String.mk cur.reverse]
  | c :: cs, inRun, cur =>
    if reSpace c then
      if inRun then splitRuns cs true cur
      else String.mk cur.reverse :: splitRuns cs true []
    else splitRuns cs false (c :: cur)

/-- Modelled from the spec: the package variable `spacesRe` is declared outside the files at
hand; the spec says a line is split "on runs of whitespace", so `spacesRe` is taken to be the
regular expression `\s+`, and this is `spacesRe.Split(s, -1)` (Go returns the single piece
`""` for the empty string). -/
def spacesReSplit (s : String) : List String :=
  splitRuns s.data false []

/-- The two failures of `strconv`. -/
inductive NumError where
  | ErrSyntax
  | ErrRange
  deriving DecidableEq

/-- Go `lower`: `c | ('x' - 'X')`. -/
def lower (c : Nat) : Nat := c ||| 0x20

/-- Digit value of one byte in `strconv.ParseUint`, before the comparison with the base. -/
def digitVal (c : Nat) : Option Nat :=
  if 48 ≤ c ∧ c ≤ 57 then some (c - 48)
  else if 97 ≤ lower c ∧ lower c ≤ 122 then some (lower c - 97 + 10)
  else none

/-- The digit loop of `strconv.ParseUint` (no underscores: the base is never 0 here). -/
def parseUintLoop (base cutoff maxVal : Nat) : List Char → Nat → Except NumError Nat
  | [], n => .ok n
  | c :: cs, n =>
    match digitVal c.toNat with
    | none => .error .ErrSyntax
    | some d =>
      if d ≥ base then .error .ErrSyntax
      else if n ≥ cutoff then .error .ErrRange
      else
        let m := (n * base) % 2 ^ 64
        let n1 := (m + d) % 2 ^ 64
        if n1 < m ∨ n1 > maxVal then .error .ErrRange
        else parseUintLoop base cutoff maxVal cs n1

/-- Go `strconv.ParseUint s base bitSize` for `2 ≤ base ≤ 36` and `1 ≤ bitSize ≤ 64`. -/
def ParseUint (s : String) (base bitSize : Nat) : Except NumError Nat :=
  if s = "" then .error .ErrSyntax
  else parseUintLoop base ((2 ^ 64 - 1) / base + 1) (2 ^ bitSize - 1) s.data 0

/-- Go `strconv.ParseInt s base bitSize` for `2 ≤ base ≤ 36` and `1 ≤ bitSize ≤ 64`. -/
def ParseInt (s : String) (base bitSize : Nat) : Except NumError Int :=
  match s.data with
  | [] => .error .ErrSyntax
  | c :: cs =>
    let neg := c == '-'
    let rest := if c == '+' ∨ c == '-' then String.mk cs else s
    match ParseUint rest base bitSize with
    | .error .ErrSyntax => .error .ErrSyntax
    | r =>
      let un : Nat := match r with
        | .ok v => v
        | .error _ => 2 ^ bitSize - 1
      let cutoff := 2 ^ (bitSize - 1)
      if !neg ∧ un ≥ cutoff then .error .ErrRange
      else if neg ∧ un > cutoff then .error .ErrRange
      else .ok (if neg then -(un : Int) else (un : Int))

/-! ## Errors -/

/-- The six error values declared with `errors.New`. -/
inductive Sentinel where
  | ErrInsufficientNumberOfAssocItems
  | ErrInvalidAssocsFormat
  | ErrInsufficientNumberOfEPSItems
  | ErrInvalidEPSFormat
  | ErrInsufficientNumberOfRemaddrItems
  | ErrInvalidRemaddrFormat
  deriving DecidableEq

open Sentinel

/-- The message given to `errors.New`. -/
def Sentinel.Error : Sentinel → String
  | ErrInsufficientNumberOfAssocItems => "insufficient number of assoc items on a line"
  | ErrInvalidAssocsFormat => "invalid assocs format"
  | ErrInsufficientNumberOfEPSItems => "insufficient number of EPS items on a line"
  | ErrInvalidEPSFormat => "invalid EPS format"
  | ErrInsufficientNumberOfRemaddrItems => "insufficient number of remaddr items on a line"
  | ErrInvalidRemaddrFormat => "invalid Remaddr format"

/-- An error built by `fmt.Errorf` with one `%w` verb: its message and the value it wraps. -/
structure WrapError where
  msg : String
  wrapped : Sentinel
  deriving DecidableEq

/-- Go `errors.Is err target` for a target among the six values above. -/
def WrapError.Is (e : WrapError) (target : Sentinel) : Prop := e.wrapped = target

instance (e : WrapError) (t : Sentinel) : Decidable (e.Is t) := by
  unfold WrapError.Is; infer_instance

/-- Go `strings.Contains s sub`. -/
def Contains (s sub : String) : Prop := sub.data <:+: s.data

instance (s sub : String) : Decidable (Contains s sub) := by
  unfold Contains; infer_instance

/-- Go `strings.HasPrefix s pre`. -/
def StartsWith (s pre : String) : Prop := pre.data <+: s.data

instance (s pre : String) : Decidable (StartsWith s pre) := by
  unfold StartsWith; infer_instance

/-- The calls `fmt.Errorf("<col>at line #%d: %w", lineNum, target)`; `col` is the text of the
format string before `at line`, such as `"ASSOC "`, or `""`. -/
def errorfAtLine (col : String) (lineNum : Nat) (target : Sentinel) : WrapError :=
  { msg := col ++ "at line #" ++ toString lineNum ++ ": " ++ target.Error, wrapped := target }

/-- The call `fmt.Errorf("<text>: %w", target)`, with no line number. -/
def errorfPlain (text : String) (target : Sentinel) : WrapError :=
  { msg := text ++ ": " ++ target.Error, wrapped := target }

instance {ε α : Type} [DecidableEq ε] [DecidableEq α] : DecidableEq (Except ε α)
  | .ok a, .ok b => if h : a = b then isTrue (by rw [h]) else isFalse (fun h2 => h (by cases h2; rfl))
  | .error a, .error b =>
    if h : a = b then isTrue (by rw [h]) else isFalse (fun h2 => h (by cases h2; rfl))
  | .ok _, .error _ => isFalse (fun h => by cases h)
  | .error _, .ok _ => isFalse (fun h => by cases h)

/-- How the decoding of one line can stop early. -/
inductive Fault where
  | indexOutOfRange
  | outOfFuel
  | err (e : WrapError)
  deriving DecidableEq

/-- What a call does: it panics, a loop of the model exhausts its iteration budget, or it
returns the pair `(records, err)`, where `none` is Go `nil`. -/
inductive Outcome (α : Type) where
  | panicked
  | diverged
  | returned (records : Option (List α)) (err : Option WrapError)
  deriving DecidableEq


/-- Read `leaves[i]`. -/
def index (leaves : List String) (i : Nat) : Except Fault String :=
  match leaves[i]? with
  | some leaf => .ok leaf
  | none => .error .indexOutOfRange

/-- Read the slice `leaves[i:]`. -/
def sliceFrom (leaves : List String) (i : Nat) : Except Fault (List String) :=
  if i > leaves.length then .error .indexOutOfRange else .ok (leaves.drop i)

/-- The pattern `v, err := strconv.Parse...; if err != nil { return nil, e }`. -/
def orErr {α : Type} (r : Except NumError α) (e : WrapError) : Except Fault α :=
  match r with
  | .ok v => .ok v
  | .error _ => .error (.err e)

/-! ## assocs.go -/

/-- Go struct `Assoc`. -/
structure Assoc where
  Assoc : Nat
  Sock : Nat
  Sty : Int
  Sst : Int
  St : Int
  Hbkt : Int
  AssocId : Int
  TxQueue : Int
  RxQueue : Int
  Uid : Nat
  Inode : Nat
  LPort : Int
  RPort : Int
  LAddrs : List String
  RAddrs : List String
  Hbint : Nat
  Ins : Int
  Outs : Int
  Maxrt : Int
  T1x : Int
  T2x : Int
  Rtxc : Int
  Wmema : Int
  Wmemq : Int
  Sndbuf : Int
  Rcvbuf : Int
  deriving DecidableEq

/-- The first address loop of `ParseAssocs` (assocs.go 136-148); the result is the cursor
after the separator and the local addresses. -/
def scanLaddrs (leaves : List String) (leavesLen : Nat) :
    Nat → Nat → List String → Except Fault (Nat × List String)
  | 0, _, _ => .error .outOfFuel
  | fuel + 1, cur, laddrs =>
    if cur ≥ leavesLen then
      .error (.err (errorfPlain "there is no separater ('<->') for laddr and raddr"
        ErrInvalidAssocsFormat))
    else
      match index leaves cur with
      | .error f => .error f
      | .ok leaf =>
        if leaf = "<->" then .ok (cur + 1, laddrs)
        else scanLaddrs leaves leavesLen fuel (cur + 1) (laddrs ++ [leaf])

/-- The second address loop of `ParseAssocs` (assocs.go 152-158). -/
def scanRaddrs (leaves : List String) (endCursorForRaddrs : Nat) :
    Nat → Nat → List String → Except Fault (List String)
  | 0, _, _ => .error .outOfFuel
  | fuel + 1, cur, raddrs =>
    if cur ≥ endCursorForRaddrs then .ok raddrs
    else
      match index leaves cur with
      | .error f => .error f
      | .ok leaf => scanRaddrs leaves endCursorForRaddrs fuel (cur + 1) (raddrs ++ [Trim leaf "*"])

/-- The body of the loop of `ParseAssocs` from the length check on (assocs.go 76-233), for
the tokens `leaves` of a line. -/
def assocOfLeaves (leaves : List String) (lineNum : Nat) : Except Fault Assoc :=
  let leavesLen := leaves.length
  if leavesLen < 27 then
    .error (.err (errorfAtLine "" lineNum ErrInsufficientNumberOfAssocItems))
  else do
  let e := fun col => errorfAtLine col lineNum ErrInvalidAssocsFormat
  let assoc ← orErr (ParseUint (← index leaves 0) 16 64) (e "ASSOC ")
  let sock ← orErr (ParseUint (← index leaves 1) 16 64) (e "SOCK ")
  let sty ← orErr (ParseInt (← index leaves 2) 10 64) (e "STY ")
  let sst ← orErr (ParseInt (← index leaves 3) 10 64) (e "SST ")
  let st ← orErr (ParseInt (← index leaves 4) 10 64) (e "ST ")
  let hbkt ← orErr (ParseInt (← index leaves 5) 10 64) (e "HBKT ")
  let assocId ← orErr (ParseInt (← index leaves 6) 10 64) (e "ASSOC-ID ")
  let txQueue ← orErr (ParseInt (← index leaves 7) 10 64) (e "TX_QUEUE ")
  let rxQueue ← orErr (ParseInt (← index leaves 8) 10 64) (e "RX_QUEUE ")
  let uid ← orErr (ParseUint (← index leaves 9) 10 64) (e "UID ")
  let inode ← orErr (ParseUint (← index leaves 10) 10 64) (e "INODE ")
  let lport ← orErr (ParseInt (← index leaves 11) 10 64) (e "LPORT ")
  let rport ← orErr (ParseInt (← index leaves 12) 10 64) (e "RPORT ")
  let (cur, laddrs) ← scanLaddrs leaves leavesLen (leavesLen + 1) 13 []
  let endCursorForRaddrs := leavesLen - 11
  let raddrs ← scanRaddrs leaves endCursorForRaddrs (leavesLen + 1) cur []
  let hbint ← orErr (ParseUint (← index leaves (leavesLen - 11)) 10 64) (e "HBINT ")
  let ins ← orErr (ParseInt (← index leaves (leavesLen - 10)) 10 64) (e "INS ")
  let outs ← orErr (ParseInt (← index leaves (leavesLen - 9)) 10 64) (e "OUTS ")
  let maxrt ← orErr (ParseInt (← index leaves (leavesLen - 8)) 10 64) (e "MAXRT ")
  let t1x ← orErr (ParseInt (← index leaves (leavesLen - 7)) 10 64) (e "T1X ")
  let t2x ← orErr (ParseInt (← index leaves (leavesLen - 6)) 10 64) (e "T2X ")
  let rtxc ← orErr (ParseInt (← index leaves (leavesLen - 5)) 10 64) (e "RTXC ")
  let wmema ← orErr (ParseInt (← index leaves (leavesLen - 4)) 10 64) (e "wmema ")
  let wmemq ← orErr (ParseInt (← index leaves (leavesLen - 3)) 10 64) (e "wmemq ")
  let sndbuf ← orErr (ParseInt (← index leaves (leavesLen - 2)) 10 64) (e "sndbuf ")
  let rcvbuf ← orErr (ParseInt (← index leaves (leavesLen - 1)) 10 64) (e "rcvbuf ")
  pure {
    Assoc := assoc, Sock := sock, Sty := sty, Sst := sst, St := st, Hbkt := hbkt,
    AssocId := assocId, TxQueue := txQueue, RxQueue := rxQueue, Uid := uid, Inode := inode,
    LPort := lport, RPort := rport, LAddrs := laddrs, RAddrs := raddrs, Hbint := hbint,
    Ins := ins, Outs := outs, Maxrt := maxrt, T1x := t1x, T2x := t2x, Rtxc := rtxc,
    Wmema := wmema, Wmemq := wmemq, Sndbuf := sndbuf, Rcvbuf := rcvbuf }

/-- Tokens of a line: `spacesRe.Split(strings.TrimSpace(input.Text()), -1)`. -/
def leavesOf (text : String) : List String :=
  spacesReSplit (TrimSpace text)

/-- The body of the loop of `ParseAssocs` for a non-empty line (assocs.go 75-233). -/
def assocOfLine (text : String) (lineNum : Nat) : Except Fault Assoc :=
  assocOfLeaves (leavesOf text) lineNum

/-! ## The reading loop shared by the three parsers -/

/-- The loop `for input.Scan() { ... }`, which the three parsers have in common
(assocs.go 69-234, eps.go 52-109, remaddr.go 53-105): an empty line is counted and skipped,
any other line goes through `body`; a failure returns `nil` and the error, a record is
appended and the line is counted. -/
def scanLoop {α : Type} (body : String → Nat → Except Fault α) :
    List String → Nat → List α → Outcome α
  | [], _, records => .returned (some records) none
  | text :: rest, lineNum, records =>
    if text = "" then scanLoop body rest (lineNum + 1) records
    else
      match body text lineNum with
      | .error .indexOutOfRange => .panicked
      | .error .outOfFuel => .diverged
      | .error (.err e) => .returned none (some e)
      | .ok r => scanLoop body rest (lineNum + 1) (records ++ [r])

/-- The test `len(noHeader) <= 0 || !noHeader[0]` on the variadic argument. -/
def skipsHeader (noHeader : List Bool) : Bool :=
  match noHeader with
  | [] => true
  | b :: _ => !b

/-- The frame of the three parsers: the optional `input.Scan()` that skips the header
and counts it, then the loop from an empty slice. -/
def parseTable {α : Type} (body : String → Nat → Except Fault α)
    (input : List String) (noHeader : List Bool) : Outcome α :=
  if skipsHeader noHeader then scanLoop body (input.drop 1) 2 []
  else scanLoop body input 1 []

/-- Go `ParseAssocs`. -/
def ParseAssocs (input : List String) (noHeader : List Bool) : Outcome Assoc :=
  parseTable assocOfLine input noHeader

/-! ## eps.go -/

/-- Go struct `EPS`. -/
structure EPS where
  Endpt : Nat
  Sock : Nat
  Sty : Int
  Sst : Int
  Hbkt : Int
  LPort : Int
  Uid : Nat
  Inode : Nat
  LAddrs : List String
  deriving DecidableEq

/-- The body of the loop of `ParseEPS` from the length check on (eps.go 59-108). -/
def epsOfLeaves (leaves : List String) (lineNum : Nat) : Except Fault EPS :=
  if leaves.length < 9 then
    .error (.err (errorfAtLine "" lineNum ErrInsufficientNumberOfEPSItems))
  else do
  let e := fun col => errorfAtLine col lineNum ErrInvalidEPSFormat
  let endpt ← orErr (ParseUint (← index leaves 0) 16 64) (e "ENDPT ")
  let sock ← orErr (ParseUint (← index leaves 1) 16 64) (e "SOCK ")
  let sty ← orErr (ParseInt (← index leaves 2) 10 64) (e "STY ")
  let sst ← orErr (ParseInt (← index leaves 3) 10 64) (e "SST ")
  let hbkt ← orErr (ParseInt (← index leaves 4) 10 64) (e "HBKT ")
  let lport ← orErr (ParseInt (← index leaves 5) 10 64) (e "LPORT ")
  let uid ← orErr (ParseUint (← index leaves 6) 10 64) (e "UID ")
  let inode ← orErr (ParseUint (← index leaves 7) 10 64) (e "INODE ")
  let laddrs ← sliceFrom leaves 8
  pure {
    Endpt := endpt, Sock := sock, Sty := sty, Sst := sst, Hbkt := hbkt, LPort := lport,
    Uid := uid, Inode := inode, LAddrs := laddrs }

/-- The body of the loop of `ParseEPS` for a non-empty line (eps.go 58-108). -/
def epsOfLine (text : String) (lineNum : Nat) : Except Fault EPS :=
  epsOfLeaves (leavesOf text) lineNum

/-- Go `ParseEPS`. -/
def ParseEPS (input : List String) (noHeader : List Bool) : Outcome EPS :=
  parseTable epsOfLine input noHeader

/-! ## remaddr.go -/

/-- Go struct `Remaddr`. -/
structure Remaddr where
  Addr : String
  AssocID : Int
  HbAct : Int
  RTO : Nat
  MaxPathRtx : Int
  RemAddrRtx : Int
  Start : Int
  State : Int
  deriving DecidableEq

/-- The body of the loop of `ParseRemaddr` from the length check on (remaddr.go 60-104). -/
def remaddrOfLeaves (leaves : List String) (lineNum : Nat) : Except Fault Remaddr :=
  if leaves.length < 8 then
    .error (.err (errorfAtLine "" lineNum ErrInsufficientNumberOfRemaddrItems))
  else do
  let e := fun col => errorfAtLine col lineNum ErrInvalidRemaddrFormat
  let addr ← index leaves 0
  let assocID ← orErr (ParseInt (← index leaves 1) 10 64) (e "ASSOC_ID ")
  let hbAct ← orErr (ParseInt (← index leaves 2) 10 64) (e "HB_ACT ")
  let rto ← orErr (ParseUint (← index leaves 3) 10 64) (e "RTO ")
  let maxPathRtx ← orErr (ParseInt (← index leaves 4) 10 64) (e "MAX_PATH_RTX ")
  let remAddrRtx ← orErr (ParseInt (← index leaves 5) 10 64) (e "REM_ADDR_RTX ")
  let start ← orErr (ParseInt (← index leaves 6) 10 64) (e "START ")
  let state ← orErr (ParseInt (← index leaves 7) 10 64) (e "STATE ")
  pure {
    Addr := addr, AssocID := assocID, HbAct := hbAct, RTO := rto, MaxPathRtx := maxPathRtx,
    RemAddrRtx := remAddrRtx, Start := start, State := state }

/-- The body of the loop of `ParseRemaddr` for a non-empty line (remaddr.go 59-104). -/
def remaddrOfLine (text : String) (lineNum : Nat) : Except Fault Remaddr :=
  remaddrOfLeaves (leavesOf text) lineNum

/-- Go `ParseRemaddr`. -/
def ParseRemaddr (input : List String) (noHeader : List Bool) : Outcome Remaddr :=
  parseTable remaddrOfLine input noHeader

/-! ## Vocabulary of the statements -/

/-- Token `i` of `leaves` exists and `strconv.ParseUint` turns it into `v`. -/
def UintAt (leaves : List String) (i base : Nat) (v : Nat) : Prop :=
  ∃ t, leaves[i]? = some t ∧ ParseUint t base 64 = Except.ok v

/-- Token `i` of `leaves` exists and `strconv.ParseInt` turns it into `v`. -/
def IntAt (leaves : List String) (i base : Nat) (v : Int) : Prop :=
  ∃ t, leaves[i]? = some t ∧ ParseInt t base 64 = Except.ok v

/-- The conversion applied to a numeric column: `ParseUint` or `ParseInt` in a base, 64 bits. -/
inductive Conv where
  | uint (base : Nat)
  | int (base : Nat)
  deriving DecidableEq

/-- The conversion returns no error on the token. -/
def Conv.accepts : Conv → String → Bool
  | .uint b, t => (ParseUint t b 64).isOk
  | .int b, t => (ParseInt t b 64).isOk

/-- The 13 leading columns of an assocs line in the order assocs.go 81-132 converts them:
the name used in the error message and the conversion. -/
def assocHeadColumns : List (String × Conv) :=
  [("ASSOC", .uint 16), ("SOCK", .uint 16), ("STY", .int 10), ("SST", .int 10), ("ST", .int 10),
   ("HBKT", .int 10), ("ASSOC-ID", .int 10), ("TX_QUEUE", .int 10), ("RX_QUEUE", .int 10),
   ("UID", .uint 10), ("INODE", .uint 10), ("LPORT", .int 10), ("RPORT", .int 10)]

/-- The 11 trailing columns of an assocs line in the order assocs.go 160-203 converts them. -/
def assocTailColumns : List (String × Conv) :=
  [("HBINT", .uint 10), ("INS", .int 10), ("OUTS", .int 10), ("MAXRT", .int 10), ("T1X", .int 10),
   ("T2X", .int 10), ("RTXC", .int 10), ("wmema", .int 10), ("wmemq", .int 10),
   ("sndbuf", .int 10), ("rcvbuf", .int 10)]

/-- Column `i` of the table `cols` accepts the token at index `off + i`. -/
def accepted (cols : List (String × Conv)) (leaves : List String) (off i : Nat) : Bool :=
  match cols[i]?, leaves[off + i]? with
  | some (_, c), some t => c.accepts t
  | _, _ => false

/-- Every line of `lines`, read as lines `lineNum`, `lineNum + 1`, ..., is either empty or
decoded by `body` without failure. -/
def passes {α : Type} (body : String → Nat → Except Fault α) : List String → Nat → Bool
  | [], _ => true
  | text :: rest, lineNum =>
    (text == "" || (body text lineNum).isOk) && passes body rest (lineNum + 1)

/-- The records that `body` gives for the non-empty lines of `lines`, in order. -/
def recordsOf {α : Type} (body : String → Nat → Except Fault α) : List String → Nat → List α
  | [], _ => []
  | text :: rest, lineNum =>
    if text = "" then recordsOf body rest (lineNum + 1)
    else
      match body text lineNum with
      | .ok r => r :: recordsOf body rest (lineNum + 1)
      | .error _ => recordsOf body rest (lineNum + 1)

/-! ## Inputs of the test files and further sample lines -/

/-- The header line of the assocs table (assocs_test.go 14). -/
def assocsHeader : String :=
  "ASSOC     SOCK   STY SST ST HBKT ASSOC-ID TX_QUEUE RX_QUEUE UID INODE LPORT RPORT LADDRS <-> RADDRS HBINT INS OUTS MAXRT T1X T2X RTXC wmema wmemq sndbuf rcvbuf"

/-- First data line of `Test_ParseAssocs` (assocs_test.go 15). -/
def assocsLine1 : String :=
  "     0        0 2   1   3  0      60        0      496       0 188897 12345 54321  127.0.0.1 <-> *127.0.0.2     30000 65535 65535   10    0    0        0        1        0   212992   212992"

/-- Second data line of `Test_ParseAssocs` (assocs_test.go 16). -/
def assocsLine2 : String :=
  "     0        0 2   1   3  0      59        0        0       0 189472 54321 12345  127.0.0.2 <-> *127.0.0.1     30000 65535 65535   10    0    0        0        1        0   212992   212992"

/-- The record expected for `assocsLine1` (assocs_test.go 21-48). -/
def assocsRecord1 : Assoc :=
  { Assoc := 0, Sock := 0, Sty := 2, Sst := 1, St := 3, Hbkt := 0, AssocId := 60, TxQueue := 0,
    RxQueue := 496, Uid := 0, Inode := 188897, LPort := 12345, RPort := 54321,
    LAddrs := ["127.0.0.1"], RAddrs := ["127.0.0.2"], Hbint := 30000, Ins := 65535,
    Outs := 65535, Maxrt := 10, T1x := 0, T2x := 0, Rtxc := 0, Wmema := 1, Wmemq := 0,
    Sndbuf := 212992, Rcvbuf := 212992 }

/-- The record expected for `assocsLine2` (assocs_test.go 49-76). -/
def assocsRecord2 : Assoc :=
  { Assoc := 0, Sock := 0, Sty := 2, Sst := 1, St := 3, Hbkt := 0, AssocId := 59, TxQueue := 0,
    RxQueue := 0, Uid := 0, Inode := 189472, LPort := 54321, RPort := 12345,
    LAddrs := ["127.0.0.2"], RAddrs := ["127.0.0.1"], Hbint := 30000, Ins := 65535,
    Outs := 65535, Maxrt := 10, T1x := 0, T2x := 0, Rtxc := 0, Wmema := 1, Wmemq := 0,
    Sndbuf := 212992, Rcvbuf := 212992 }

/-- First data line of `Test_ParseAssocsWithMultiple` (assocs_test.go 81); it starts with a tab. -/
def assocsLineMultiple : String :=
  "\t0        0 2   1   3  0      62        0        0       0 212110 54321 12345  127.0.0.10 127.0.0.20 <-> *127.0.0.1 127.0.0.2    30000 65535 65535   10    0    0        0        1        0   212992   212992"

/-- The record expected for `assocsLineMultiple` (assocs_test.go 86-111). -/
def assocsRecordMultiple : Assoc :=
  { Assoc := 0, Sock := 0, Sty := 2, Sst := 1, St := 3, Hbkt := 0, AssocId := 62, TxQueue := 0,
    RxQueue := 0, Uid := 0, Inode := 212110, LPort := 54321, RPort := 12345,
    LAddrs := ["127.0.0.10", "127.0.0.20"], RAddrs := ["127.0.0.1", "127.0.0.2"], Hbint := 30000, Ins := 65535,
    Outs := 65535, Maxrt := 10, T1x := 0, T2x := 0, Rtxc := 0, Wmema := 1, Wmemq := 0,
    Sndbuf := 212992, Rcvbuf := 212992 }

/-- The data line of `Test_ParseInsufficientItems` (assocs_test.go 153): 26 tokens. -/
def assocsLineShort : String :=
  "     0        0 2   1   3  0      60        0      496       0 188897 12345 54321  127.0.0.1 <-> *127.0.0.2     30000 65535 65535   10    0    0        0        1        0   212992"

/-- The data line of `TestParseEPS_WithInsufficientItems` (eps_test.go 86): 8 tokens. -/
def epsLineShort : String := "0        0 2   10  24   12345     0 227065"

/-- The data line of `TestParseRemaddr_WithInsufficientItems` (remaddr_test.go 75): 7 tokens. -/
def remaddrLineShort : String := "127.0.0.10  69 1 1000 5 0 0"

/-- A line of 27 tokens whose separator is token 13: no local address. -/
def assocsLineNoLocal : String :=
  "0 0 2 1 3 0 60 0 496 0 188897 12345 54321 <-> *127.0.0.2 127.0.0.3 30000 65535 65535 10 0 0 0 1 0 212992 212992"

/-- A line of 27 tokens whose separator is token 15, right before the last 11: no remote address. -/
def assocsLineNoRemote : String :=
  "0 0 2 1 3 0 60 0 496 0 188897 12345 54321 127.0.0.1 127.0.0.9 <-> 30000 65535 65535 10 0 0 0 1 0 212992 212992"

/-- A line whose remote address token has a `*` in the middle and a `*` in front. -/
def assocsLineInnerStar : String :=
  "0 0 2 1 3 0 60 0 496 0 188897 12345 54321 127.0.0.1 <-> *127*0.0.2 30000 65535 65535 10 0 0 0 1 0 212992 212992"

/-- A line of 27 tokens, all numeric columns well formed, with no `<->` token. -/
def assocsLineNoSeparator : String :=
  "0 0 2 1 3 0 60 0 496 0 188897 12345 54321 127.0.0.1 127.0.0.2 127.0.0.3 30000 65535 65535 10 0 0 0 1 0 212992 212992"

/-- A line of 27 tokens whose columns SST and LPORT are malformed and which has no separator. -/
def assocsLineBadSst : String :=
  "0 0 2 x 3 0 60 0 496 0 188897 y 54321 127.0.0.1 127.0.0.2 127.0.0.3 30000 65535 65535 10 0 0 0 1 0 212992 212992"

/-- A line of 27 tokens whose columns MAXRT and sndbuf are malformed. -/
def assocsLineBadMaxrt : String :=
  "0 0 2 1 3 0 60 0 496 0 188897 12345 54321 127.0.0.1 <-> *127.0.0.2 30000 65535 65535 ten 0 0 0 1 0 x 212992"

/-- The numeric fields of `r` are the conversions of the tokens at fixed positions of
`leaves`: the 13 leading fields come from the tokens 0..12, the 11 trailing fields from the
last 11 tokens, in the bases and with the signedness of assocs.go. -/
def FixedFields (leaves : List String) (r : Assoc) : Prop :=
  (UintAt leaves 0 16 r.Assoc ∧ UintAt leaves 1 16 r.Sock ∧ IntAt leaves 2 10 r.Sty ∧
    IntAt leaves 3 10 r.Sst ∧ IntAt leaves 4 10 r.St ∧ IntAt leaves 5 10 r.Hbkt ∧
    IntAt leaves 6 10 r.AssocId ∧ IntAt leaves 7 10 r.TxQueue ∧ IntAt leaves 8 10 r.RxQueue ∧
    UintAt leaves 9 10 r.Uid ∧ UintAt leaves 10 10 r.Inode ∧ IntAt leaves 11 10 r.LPort ∧
    IntAt leaves 12 10 r.RPort) ∧
  (UintAt leaves (leaves.length - 11) 10 r.Hbint ∧ IntAt leaves (leaves.length - 10) 10 r.Ins ∧
    IntAt leaves (leaves.length - 9) 10 r.Outs ∧ IntAt leaves (leaves.length - 8) 10 r.Maxrt ∧
    IntAt leaves (leaves.length - 7) 10 r.T1x ∧ IntAt leaves (leaves.length - 6) 10 r.T2x ∧
    IntAt leaves (leaves.length - 5) 10 r.Rtxc ∧ IntAt leaves (leaves.length - 4) 10 r.Wmema ∧
    IntAt leaves (leaves.length - 3) 10 r.Wmemq ∧ IntAt leaves (leaves.length - 2) 10 r.Sndbuf ∧
    IntAt leaves (leaves.length - 1) 10 r.Rcvbuf)

/-! ## Vocabulary and sample inputs of the later claims -/

/-- The 8 leading columns of an eps line in the order eps.go 63-94 converts them. -/
def epsColumns : List (String × Conv) :=
  [("ENDPT", .uint 16), ("SOCK", .uint 16), ("STY", .int 10), ("SST", .int 10),
   ("HBKT", .int 10), ("LPORT", .int 10), ("UID", .uint 10), ("INODE", .uint 10)]

/-- The 7 numeric columns of a remaddr line, tokens 1..7, in the order remaddr.go 65-92
converts them. -/
def remaddrColumns : List (String × Conv) :=
  [("ASSOC_ID", .int 10), ("HB_ACT", .int 10), ("RTO", .uint 10), ("MAX_PATH_RTX", .int 10),
   ("REM_ADDR_RTX", .int 10), ("START", .int 10), ("STATE", .int 10)]

/-- The value a conversion gives for a token, when it returns no error. -/
def Conv.value : Conv → String → Option Int
  | .uint b, t =>
    match ParseUint t b 64 with
    | .ok v => some (v : Int)
    | .error _ => none
  | .int b, t =>
    match ParseInt t b 64 with
    | .ok v => some v
    | .error _ => none

/-- The values stored for the 13 leading columns of an assocs record, in column order. -/
def assocHeadValues (r : Assoc) : List Int :=
  [r.Assoc, r.Sock, r.Sty, r.Sst, r.St, r.Hbkt, r.AssocId, r.TxQueue, r.RxQueue, r.Uid, r.Inode,
   r.LPort, r.RPort]

/-- The values stored for the 11 trailing columns of an assocs record, in column order. -/
def assocTailValues (r : Assoc) : List Int :=
  [r.Hbint, r.Ins, r.Outs, r.Maxrt, r.T1x, r.T2x, r.Rtxc, r.Wmema, r.Wmemq, r.Sndbuf, r.Rcvbuf]

/-- The values stored for the 8 numeric columns of an eps record, in column order. -/
def epsValues (r : EPS) : List Int :=
  [r.Endpt, r.Sock, r.Sty, r.Sst, r.Hbkt, r.LPort, r.Uid, r.Inode]

/-- The values stored for the 7 numeric columns of a remaddr record, in column order. -/
def remaddrValues (r : Remaddr) : List Int :=
  [r.AssocID, r.HbAct, r.RTO, r.MaxPathRtx, r.RemAddrRtx, r.Start, r.State]

/-- The value of a string of digits in a base, read from the left, continuing from `a`. -/
def digitsValue (base a : Nat) (ds : List Char) : Nat :=
  ds.foldl (fun n c => n * base + (digitVal c.toNat).getD 0) a

/-- A non-empty string all of whose characters are digits of the base (for base 16 the
digits `0-9`, `a-f` and `A-F`, for base 10 the digits `0-9`). -/
def IsDigits (base : Nat) (ds : List Char) : Prop :=
  ds ≠ [] ∧ ∀ c ∈ ds, ∃ d, digitVal c.toNat = some d ∧ d < base

/-- Go `strconv.FormatUint v base` for a base up to 16: the digits of `v`, most
significant first, with lower-case letters, and `0` for zero. -/
def FormatUint (v base : Nat) : String :=
  String.mk (Nat.toDigits base v)

/-- Go `strconv.FormatInt v base` for a base up to 16: a `-` and the digits of the absolute
value for a negative number. -/
def FormatInt (v : Int) (base : Nat) : String :=
  if v < 0 then String.mk ('-' :: Nat.toDigits base v.natAbs)
  else String.mk (Nat.toDigits base v.toNat)

/-- Go `strings.Join tokens " "`. -/
def joinSpaces (tokens : List String) : String :=
  String.mk (List.intercalate [' '] (tokens.map String.data))

/-- The writing side of the round trip, which follows the words of the specification (the
source has no function that writes a record). The 13 leading fields of an assocs record
written as tokens: the two handles in base 16, the other numbers in base 10. -/
def assocHeadTokens (r : Assoc) : List String :=
  [FormatUint r.Assoc 16, FormatUint r.Sock 16, FormatInt r.Sty 10, FormatInt r.Sst 10,
   FormatInt r.St 10, FormatInt r.Hbkt 10, FormatInt r.AssocId 10, FormatInt r.TxQueue 10,
   FormatInt r.RxQueue 10, FormatUint r.Uid 10, FormatUint r.Inode 10, FormatInt r.LPort 10,
   FormatInt r.RPort 10]

/-- The 11 trailing fields of an assocs record written as tokens, in base 10. -/
def assocTailTokens (r : Assoc) : List String :=
  [FormatUint r.Hbint 10, FormatInt r.Ins 10, FormatInt r.Outs 10, FormatInt r.Maxrt 10,
   FormatInt r.T1x 10, FormatInt r.T2x 10, FormatInt r.Rtxc 10, FormatInt r.Wmema 10,
   FormatInt r.Wmemq 10, FormatInt r.Sndbuf 10, FormatInt r.Rcvbuf 10]

/-- The fields of an assocs record written in column order: the 13 leading numbers, the local
addresses, the separator, the remote addresses, and the 11 trailing numbers. -/
def assocTokens (r : Assoc) : List String :=
  assocHeadTokens r ++ (r.LAddrs ++ ("<->" :: (r.RAddrs ++ assocTailTokens r)))

/-- The line written from an assocs record, following the words of the specification: its
fields in column order, joined by single spaces. -/
def formatAssoc (r : Assoc) : String :=
  joinSpaces (assocTokens r)

/-- The lines that the loop of a parser reads: the input without its first line when a header
is expected. -/
def dataLines (input : List String) (noHeader : List Bool) : List String :=
  if skipsHeader noHeader then input.drop 1 else input

/-- The line number of the first line that the loop reads. -/
def firstDataLine (noHeader : List Bool) : Nat :=
  if skipsHeader noHeader then 2 else 1

/-- The header line of the eps table (eps_test.go 14). -/
def epsHeader : String := "ENDPT     SOCK   STY SST HBKT LPORT   UID INODE LADDRS"

/-- The header line of the remaddr table (remaddr_test.go 14). -/
def remaddrHeader : String := "ADDR ASSOC_ID HB_ACT RTO MAX_PATH_RTX REM_ADDR_RTX START STATE"

/-- The input of `TestParseRemaddr` (remaddr_test.go 14-18), line by line. -/
def remaddrInput : List String :=
  [remaddrHeader, "127.0.0.10  69 1 1000 5 0 0 2", "127.0.0.20  69 1 3000 5 0 0 3",
   "127.0.0.1  68 1 1000 5 0 0 2", "127.0.0.2  68 1 3000 5 0 0 2"]

/-- The records expected by `TestParseRemaddr` (remaddr_test.go 21-61). -/
def remaddrRecords : List Remaddr :=
  [{ Addr := "127.0.0.10", AssocID := 69, HbAct := 1, RTO := 1000, MaxPathRtx := 5,
     RemAddrRtx := 0, Start := 0, State := 2 },
   { Addr := "127.0.0.20", AssocID := 69, HbAct := 1, RTO := 3000, MaxPathRtx := 5,
     RemAddrRtx := 0, Start := 0, State := 3 },
   { Addr := "127.0.0.1", AssocID := 68, HbAct := 1, RTO := 1000, MaxPathRtx := 5,
     RemAddrRtx := 0, Start := 0, State := 2 },
   { Addr := "127.0.0.2", AssocID := 68, HbAct := 1, RTO := 3000, MaxPathRtx := 5,
     RemAddrRtx := 0, Start := 0, State := 2 }]

/-- First data line of `TestParseEPS_MultipleLAddress` (eps_test.go 46). -/
def epsLineMultiple : String :=
  "0        0 2   10  24   12345     0 227065 127.0.0.1 127.0.0.2"

/-- The record expected for `epsLineMultiple` (eps_test.go 51-61). -/
def epsRecordMultiple : EPS :=
  { Endpt := 0, Sock := 0, Sty := 2, Sst := 10, Hbkt := 24, LPort := 12345, Uid := 0,
    Inode := 227065, LAddrs := ["127.0.0.1", "127.0.0.2"] }

/-- A line of 28 tokens whose first remote-address token is a lone `*`. -/
def assocsLineStarOnly : String :=
  "0 0 2 1 3 0 60 0 496 0 188897 12345 54321 127.0.0.1 <-> * 127.0.0.2 30000 65535 65535 10 0 0 0 1 0 212992 212992"

/-- The record `ParseAssocs` gives for `assocsLineStarOnly`: the lone `*` is trimmed to the
empty string. -/
def assocsRecordStarOnly : Assoc :=
  { Assoc := 0, Sock := 0, Sty := 2, Sst := 1, St := 3, Hbkt := 0, AssocId := 60, TxQueue := 0,
    RxQueue := 496, Uid := 0, Inode := 188897, LPort := 12345, RPort := 54321,
    LAddrs := ["127.0.0.1"], RAddrs := ["", "127.0.0.2"], Hbint := 30000, Ins := 65535,
    Outs := 65535, Maxrt := 10, T1x := 0, T2x := 0, Rtxc := 0, Wmema := 1, Wmemq := 0,
    Sndbuf := 212992, Rcvbuf := 212992 }

/-- The record `ParseAssocs` gives for the line written from `assocsRecordStarOnly`: the
empty remote address is lost. -/
def assocsRecordStarLost : Assoc :=
  { Assoc := 0, Sock := 0, Sty := 2, Sst := 1, St := 3, Hbkt := 0, AssocId := 60, TxQueue := 0,
    RxQueue := 496, Uid := 0, Inode := 188897, LPort := 12345, RPort := 54321,
    LAddrs := ["127.0.0.1"], RAddrs := ["127.0.0.2"], Hbint := 30000, Ins := 65535,
    Outs := 65535, Maxrt := 10, T1x := 0, T2x := 0, Rtxc := 0, Wmema := 1, Wmemq := 0,
    Sndbuf := 212992, Rcvbuf := 212992 }

/-- A line of 27 tokens whose only `<->` is token 16, the first of the last 11 tokens. -/
def assocsLineLateSeparator : String :=
  "0 0 2 1 3 0 60 0 496 0 188897 12345 54321 127.0.0.1 127.0.0.2 127.0.0.3 <-> 65535 65535 10 0 0 0 1 0 212992 212992"

/-- The body `body` decodes the line `text` to the record `r` whatever its line number, and
a call on that single line with `noHeader = true` returns the single record `r` and no
error. -/
def DecodesTo {α : Type} (body : String → Nat → Except Fault α) (text : String) (r : α) :
    Prop :=
  (∀ k, body text k = Except.ok r) ∧
  ∀ rest, parseTable body [text] (true :: rest) = Outcome.returned (some [r]) none

/-- The line `text` fails at the column `name`: read as line `k` the body returns the error
`<name> at line #k: <sentinel>`, and a call that reaches the line (after the header, when
one is expected, and lines that are empty or decode) returns `nil` and that error with the
1-based number of the line. -/
def RejectsColumn {α : Type} (body : String → Nat → Except Fault α) (text name : String)
    (sentinel : Sentinel) : Prop :=
  (∀ k, body text k = Except.error (Fault.err (errorfAtLine (name ++ " ") k sentinel))) ∧
  ∀ (noHeader : List Bool) (hdr pre post : List String),
    hdr.length = (if skipsHeader noHeader = true then 1 else 0) →
    passes body pre (hdr.length + 1) = true →
    parseTable body (hdr ++ pre ++ text :: post) noHeader
      = Outcome.returned none
          (some (errorfAtLine (name ++ " ") (hdr.length + pre.length + 1) sentinel))

/-- The assocs record `r2` is `r` with the value `v` in the leading column `i` and every
other field unchanged. -/
def AssocHeadSet (r r2 : Assoc) (i : Nat) (v : Int) : Prop :=
  assocHeadValues r2 = (assocHeadValues r).set i v ∧ assocTailValues r2 = assocTailValues r ∧
  r2.LAddrs = r.LAddrs ∧ r2.RAddrs = r.RAddrs

/-- The assocs record `r2` is `r` with the value `v` in the trailing column `i` and every
other field unchanged. -/
def AssocTailSet (r r2 : Assoc) (i : Nat) (v : Int) : Prop :=
  assocHeadValues r2 = assocHeadValues r ∧ assocTailValues r2 = (assocTailValues r).set i v ∧
  r2.LAddrs = r.LAddrs ∧ r2.RAddrs = r.RAddrs

/-- The eps record `r2` is `r` with the value `v` in the column `i` and every other field
unchanged. -/
def EpsSet (r r2 : EPS) (i : Nat) (v : Int) : Prop :=
  epsValues r2 = (epsValues r).set i v ∧ r2.LAddrs = r.LAddrs

/-- The remaddr record `r2` is `r` with the value `v` in the numeric column `i` (token
`1 + i`) and every other field unchanged. -/
def RemaddrSet (r r2 : Remaddr) (i : Nat) (v : Int) : Prop :=
  remaddrValues r2 = (remaddrValues r).set i v ∧ r2.Addr = r.Addr

/-- The four groups of numeric columns of the three tables: the 13 leading and the 11
trailing columns of an assocs line, the 8 columns of an eps line, and the 7 numeric columns
of a remaddr line. -/
inductive Group where
  | assocHead
  | assocTail
  | eps
  | remaddr
  deriving DecidableEq

/-- The record type of the table a group of columns belongs to. -/
def Group.Record : Group → Type
  | .assocHead => Assoc
  | .assocTail => Assoc
  | .eps => EPS
  | .remaddr => Remaddr

/-- The columns of a group, in the order the code converts them. -/
def Group.columns : Group → List (String × Conv)
  | .assocHead => assocHeadColumns
  | .assocTail => assocTailColumns
  | .eps => epsColumns
  | .remaddr => remaddrColumns

/-- The index of the token read by the first column of a group, in a line of `n` tokens. -/
def Group.offset (n : Nat) : Group → Nat
  | .assocHead => 0
  | .assocTail => n - 11
  | .eps => 0
  | .remaddr => 1

/-- The error value wrapped by a failed conversion of a column of the group. -/
def Group.sentinel : Group → Sentinel
  | .assocHead => .ErrInvalidAssocsFormat
  | .assocTail => .ErrInvalidAssocsFormat
  | .eps => .ErrInvalidEPSFormat
  | .remaddr => .ErrInvalidRemaddrFormat

/-- The body of the loop of the parser the group belongs to. -/
def Group.body : (g : Group) → String → Nat → Except Fault g.Record
  | .assocHead => assocOfLine
  | .assocTail => assocOfLine
  | .eps => epsOfLine
  | .remaddr => remaddrOfLine

/-- The record `r2` is `r` with the value `v` in column `i` of the group and every other
field unchanged. -/
def Group.Changed : (g : Group) → g.Record → g.Record → Nat → Int → Prop
  | .assocHead => AssocHeadSet
  | .assocTail => AssocTailSet
  | .eps => EpsSet
  | .remaddr => RemaddrSet

/-- The line `text2` is decoded, and its record is `r` with the value `v` in column `i` of
the group and every other field unchanged. -/
def Group.Stores (g : Group) (text2 : String) (r : g.Record) (i : Nat) (v : Int) : Prop :=
  ∃ r2, DecodesTo g.body text2 r2 ∧ g.Changed r r2 i v

/-- The line `text2` fails at the column `name` of the group with the error of its table. -/
def Group.Rejects (g : Group) (text2 name : String) : Prop :=
  RejectsColumn g.body text2 name g.sentinel

/-- The first data line of `Test_ParseAssocs` with the token `ff` as ASSOC. -/
def assocsLineHexHandle : String :=
  "ff 0 2 1 3 0 60 0 496 0 188897 12345 54321 127.0.0.1 <-> *127.0.0.2 30000 65535 65535 10 0 0 0 1 0 212992 212992"

/-- The first data line of `Test_ParseAssocs` with the token `10000000000000000` (17
hexadecimal digits, the value `2 ^ 64`) as ASSOC. -/
def assocsLineWideHandle : String :=
  "10000000000000000 0 2 1 3 0 60 0 496 0 188897 12345 54321 127.0.0.1 <-> *127.0.0.2 30000 65535 65535 10 0 0 0 1 0 212992 212992"

/-- The line of `TestParseEPS_MultipleLAddress` with the token `ff` as STY. -/
def epsLineHexSty : String :=
  "0 0 ff 10 24 12345 0 227065 127.0.0.1 127.0.0.2"

/-- The first data line of `Test_ParseAssocs` with the token `-12345` as LPORT. -/
def assocsLineNegativePort : String :=
  "0 0 2 1 3 0 60 0 496 0 188897 -12345 54321 127.0.0.1 <-> *127.0.0.2 30000 65535 65535 10 0 0 0 1 0 212992 212992"

/-- The second data line of `TestParseRemaddr` with the token `-3000` as RTO. -/
def remaddrLineNegativeRto : String := "127.0.0.20 69 1 -3000 5 0 0 3"

/-! ## Vocabulary and sample inputs of the claims on the frame -/

/-- The outcome `b` is the outcome `a` with the line number of its error, if any, larger by
one: both return the same records and no error, or both return no records and the errors
`<col>at line #j: <kind>` and `<col>at line #(j + 1): <kind>` with the same column and the
same kind. -/
def ShiftedByOne {α : Type} (a b : Outcome α) : Prop :=
  (∃ recs, a = Outcome.returned (some recs) none ∧ b = Outcome.returned (some recs) none) ∨
  (∃ col j s, a = Outcome.returned none (some (errorfAtLine col j s)) ∧
    b = Outcome.returned none (some (errorfAtLine col (j + 1) s)))

/-- The error of assocs.go 138, the only one of `ParseAssocs` built without the line
number. -/
def missingSeparatorError : WrapError :=
  errorfPlain "there is no separater ('<->') for laddr and raddr" ErrInvalidAssocsFormat

/-- The second data line of `TestParseRemaddr` followed by two more tokens. -/
def remaddrLineLong : String := "127.0.0.20  69 1 3000 5 0 0 3 extra 99"

/-- A remaddr line of 10 tokens whose START column is malformed. -/
def remaddrLineLongBadStart : String := "127.0.0.20 69 1 3000 5 0 x 3 extra 99"

/-! ## Auxiliary lemmas -/

/-- A bind in `Except` succeeds exactly when both of its parts do. -/
theorem bind_eq_ok {ε α β : Type} (x : Except ε α) (f : α → Except ε β) (b : β) :
    (x >>= f) = Except.ok b ↔ ∃ a, x = Except.ok a ∧ f a = Except.ok b := by
  cases x <;> simp [bind, Except.bind]

theorem index_eq_ok (leaves : List String) (i : Nat) (t : String) :
    index leaves i = Except.ok t ↔ leaves[i]? = some t := by
  unfold index
  cases leaves[i]? <;> simp

theorem index_of_lt (leaves : List String) (i : Nat) (h : i < leaves.length) :
    index leaves i = Except.ok leaves[i] := by
  simp [index, List.getElem?_eq_getElem h]

theorem orErr_eq_ok {α : Type} (r : Except NumError α) (e : WrapError) (v : α) :
    orErr r e = Except.ok v ↔ r = Except.ok v := by
  cases r <;> simp [orErr]

/-- When the first address loop succeeds it has stopped at the first separator at or after
`cur`, having appended the tokens before it. -/
theorem scanLaddrs_ok (leaves : List String) (fuel : Nat) :
    ∀ (cur : Nat) (acc : List String) (c : Nat) (la : List String),
      scanLaddrs leaves leaves.length fuel cur acc = Except.ok (c, la) →
      ∃ s, cur ≤ s ∧ s < leaves.length ∧ leaves[s]? = some "<->" ∧
        (∀ j, cur ≤ j → j < s → leaves[j]? ≠ some "<->") ∧
        c = s + 1 ∧ la = acc ++ (leaves.drop cur).take (s - cur) := by
  induction fuel with
  | zero => intro cur acc c la h; simp [scanLaddrs] at h
  | succ fuel ih =>
    intro cur acc c la h
    unfold scanLaddrs at h
    by_cases hc : cur ≥ leaves.length
    · simp [hc] at h
    · have hlt : cur < leaves.length := by omega
      rw [if_neg hc, index_of_lt leaves cur hlt] at h
      simp only at h
      by_cases hleaf : leaves[cur] = "<->"
      · rw [if_pos hleaf] at h
        simp only [Except.ok.injEq, Prod.mk.injEq] at h
        refine ⟨cur, le_refl _, hlt, ?_, ?_, h.1.symm, ?_⟩
        · rw [List.getElem?_eq_getElem hlt, hleaf]
        · intro j h1 h2; omega
        · simp [h.2]
      · rw [if_neg hleaf] at h
        obtain ⟨s, h1, h2, h3, h4, h5, h6⟩ := ih (cur + 1) _ c la h
        refine ⟨s, by omega, h2, h3, ?_, h5, ?_⟩
        · intro j hj1 hj2
          by_cases hj : j = cur
          · subst hj
            rw [List.getElem?_eq_getElem hlt]
            simpa using hleaf
          · exact h4 j (by omega) hj2
        · rw [h6, List.drop_eq_getElem_cons hlt]
          have : s - cur = (s - (cur + 1)) + 1 := by omega
          rw [this, List.take_succ_cons]
          simp

/-- With a separator at or after `cur` and enough iterations, the first address loop stops at
the first one. -/
theorem scanLaddrs_found (leaves : List String) (s : Nat) (hs : s < leaves.length)
    (hsep : leaves[s]? = some "<->") :
    ∀ (fuel cur : Nat) (acc : List String), cur ≤ s → s - cur < fuel →
      (∀ j, cur ≤ j → j < s → leaves[j]? ≠ some "<->") →
      scanLaddrs leaves leaves.length fuel cur acc
        = Except.ok (s + 1, acc ++ (leaves.drop cur).take (s - cur)) := by
  intro fuel
  induction fuel with
  | zero => intro cur acc _ h; omega
  | succ fuel ih =>
    intro cur acc hcur hfuel hmin
    have hlt : cur < leaves.length := by omega
    unfold scanLaddrs
    rw [if_neg (by omega), index_of_lt leaves cur hlt]
    simp only
    by_cases hleaf : leaves[cur] = "<->"
    · have : s = cur := by
        by_contra hne
        exact hmin cur (le_refl _) (by omega) (by rw [List.getElem?_eq_getElem hlt, hleaf])
      subst this
      simp [hleaf]
    · have hne : cur ≠ s := by
        intro h; subst h
        rw [List.getElem?_eq_getElem hlt] at hsep
        exact hleaf (by simpa using hsep)
      rw [if_neg hleaf, ih (cur + 1) _ (by omega) (by omega) (fun j h1 h2 => hmin j (by omega) h2)]
      rw [List.drop_eq_getElem_cons hlt]
      have : s - cur = (s - (cur + 1)) + 1 := by omega
      rw [this, List.take_succ_cons]
      simp

/-- With no separator at or after `cur`, the first address loop ends with the error of the
missing separator; it neither reads out of range nor runs out of iterations. -/
theorem scanLaddrs_none (leaves : List String) :
    ∀ (fuel cur : Nat) (acc : List String), leaves.length - cur < fuel →
      (∀ j, cur ≤ j → leaves[j]? ≠ some "<->") →
      scanLaddrs leaves leaves.length fuel cur acc
        = Except.error (Fault.err (errorfPlain "there is no separater ('<->') for laddr and raddr"
            ErrInvalidAssocsFormat)) := by
  intro fuel
  induction fuel with
  | zero => intro cur acc h; omega
  | succ fuel ih =>
    intro cur acc hfuel hno
    unfold scanLaddrs
    by_cases hc : cur ≥ leaves.length
    · rw [if_pos hc]
    · have hlt : cur < leaves.length := by omega
      rw [if_neg hc, index_of_lt leaves cur hlt]
      simp only
      have hleaf : leaves[cur] ≠ "<->" := by
        intro h
        exact hno cur (le_refl _) (by rw [List.getElem?_eq_getElem hlt, h])
      rw [if_neg hleaf]
      exact ih (cur + 1) _ (by omega) (fun j h1 => hno j (by omega))

/-- The second address loop always succeeds, with the trimmed tokens `cur .. e - 1`. -/
theorem scanRaddrs_eq (leaves : List String) (e : Nat) (he : e ≤ leaves.length) :
    ∀ (fuel cur : Nat) (acc : List String), e - cur < fuel →
      scanRaddrs leaves e fuel cur acc
        = Except.ok (acc ++ ((leaves.drop cur).take (e - cur)).map (fun t => Trim t "*")) := by
  intro fuel
  induction fuel with
  | zero => intro cur acc h; omega
  | succ fuel ih =>
    intro cur acc hfuel
    unfold scanRaddrs
    by_cases hc : cur ≥ e
    · rw [if_pos hc]
      have : e - cur = 0 := by omega
      simp [this]
    · have hlt : cur < leaves.length := by omega
      rw [if_neg hc, index_of_lt leaves cur hlt]
      simp only
      rw [ih (cur + 1) _ (by omega), List.drop_eq_getElem_cons hlt]
      have : e - cur = (e - (cur + 1)) + 1 := by omega
      rw [this, List.take_succ_cons]
      simp

theorem sep_not_uint (base : Nat) (v : Nat) : ParseUint "<->" base 64 ≠ Except.ok v := by
  intro h
  have : ParseUint "<->" base 64 = Except.error NumError.ErrSyntax := by
    simp [ParseUint, parseUintLoop, digitVal, lower]
  rw [this] at h
  cases h

theorem sep_not_int (base : Nat) (v : Int) : ParseInt "<->" base 64 ≠ Except.ok v := by
  intro h
  have : ParseInt "<->" base 64 = Except.error NumError.ErrSyntax := by
    simp [ParseInt, ParseUint, parseUintLoop, digitVal, lower]
  rw [this] at h
  cases h

/-- Everything a successful decoding of an assocs line says about the tokens. -/
theorem assocOfLeaves_ok (leaves : List String) (ln : Nat) (r : Assoc)
    (h : assocOfLeaves leaves ln = Except.ok r) :
    27 ≤ leaves.length ∧
    (UintAt leaves 0 16 r.Assoc ∧ UintAt leaves 1 16 r.Sock ∧ IntAt leaves 2 10 r.Sty ∧
      IntAt leaves 3 10 r.Sst ∧ IntAt leaves 4 10 r.St ∧ IntAt leaves 5 10 r.Hbkt ∧
      IntAt leaves 6 10 r.AssocId ∧ IntAt leaves 7 10 r.TxQueue ∧ IntAt leaves 8 10 r.RxQueue ∧
      UintAt leaves 9 10 r.Uid ∧ UintAt leaves 10 10 r.Inode ∧ IntAt leaves 11 10 r.LPort ∧
      IntAt leaves 12 10 r.RPort) ∧
    (UintAt leaves (leaves.length - 11) 10 r.Hbint ∧ IntAt leaves (leaves.length - 10) 10 r.Ins ∧
      IntAt leaves (leaves.length - 9) 10 r.Outs ∧ IntAt leaves (leaves.length - 8) 10 r.Maxrt ∧
      IntAt leaves (leaves.length - 7) 10 r.T1x ∧ IntAt leaves (leaves.length - 6) 10 r.T2x ∧
      IntAt leaves (leaves.length - 5) 10 r.Rtxc ∧ IntAt leaves (leaves.length - 4) 10 r.Wmema ∧
      IntAt leaves (leaves.length - 3) 10 r.Wmemq ∧ IntAt leaves (leaves.length - 2) 10 r.Sndbuf ∧
      IntAt leaves (leaves.length - 1) 10 r.Rcvbuf) ∧
    ∃ s, 13 ≤ s ∧ s + 12 ≤ leaves.length ∧ leaves[s]? = some "<->" ∧
      (∀ j, 13 ≤ j → j < s → leaves[j]? ≠ some "<->") ∧
      r.LAddrs = (leaves.drop 13).take (s - 13) ∧
      r.RAddrs = ((leaves.drop (s + 1)).take (leaves.length - 12 - s)).map (fun t => Trim t "*") := by
  unfold assocOfLeaves at h
  simp only [] at h
  split at h
  · simp at h
  · rename_i hlen
    simp only [bind_eq_ok, index_eq_ok, orErr_eq_ok, pure, Except.pure, Except.ok.injEq] at h
    obtain ⟨t0, ht0, v0, hv0, h⟩ := h
    obtain ⟨t1, ht1, v1, hv1, h⟩ := h
    obtain ⟨t2, ht2, v2, hv2, h⟩ := h
    obtain ⟨t3, ht3, v3, hv3, h⟩ := h
    obtain ⟨t4, ht4, v4, hv4, h⟩ := h
    obtain ⟨t5, ht5, v5, hv5, h⟩ := h
    obtain ⟨t6, ht6, v6, hv6, h⟩ := h
    obtain ⟨t7, ht7, v7, hv7, h⟩ := h
    obtain ⟨t8, ht8, v8, hv8, h⟩ := h
    obtain ⟨t9, ht9, v9, hv9, h⟩ := h
    obtain ⟨t10, ht10, v10, hv10, h⟩ := h
    obtain ⟨t11, ht11, v11, hv11, h⟩ := h
    obtain ⟨t12, ht12, v12, hv12, h⟩ := h
    obtain ⟨⟨c, la⟩, hscan, ra, hra, h⟩ := h
    obtain ⟨u0, hu0, w0, hw0, h⟩ := h
    obtain ⟨u1, hu1, w1, hw1, h⟩ := h
    obtain ⟨u2, hu2, w2, hw2, h⟩ := h
    obtain ⟨u3, hu3, w3, hw3, h⟩ := h
    obtain ⟨u4, hu4, w4, hw4, h⟩ := h
    obtain ⟨u5, hu5, w5, hw5, h⟩ := h
    obtain ⟨u6, hu6, w6, hw6, h⟩ := h
    obtain ⟨u7, hu7, w7, hw7, h⟩ := h
    obtain ⟨u8, hu8, w8, hw8, h⟩ := h
    obtain ⟨u9, hu9, w9, hw9, h⟩ := h
    obtain ⟨u10, hu10, w10, hw10, h⟩ := h
    have hr := h
    subst hr
    obtain ⟨s, hs1, hs2, hs3, hs4, hs5, hs6⟩ := scanLaddrs_ok leaves _ 13 [] c la hscan
    subst hs5
    rw [scanRaddrs_eq leaves (leaves.length - 11) (by omega) _ _ _ (by omega)] at hra
    simp only [Except.ok.injEq, List.nil_append] at hra
    have key : ∀ i, i < 11 → s ≠ leaves.length - 11 + i := by
      intro i hi hk
      interval_cases i
      · have hk2 : s = leaves.length - 11 := by omega
        rw [hk2, hu0] at hs3; cases hs3; exact sep_not_uint _ _ hw0
      · have hk2 : s = leaves.length - 10 := by omega
        rw [hk2, hu1] at hs3; cases hs3; exact sep_not_int _ _ hw1
      · have hk2 : s = leaves.length - 9 := by omega
        rw [hk2, hu2] at hs3; cases hs3; exact sep_not_int _ _ hw2
      · have hk2 : s = leaves.length - 8 := by omega
        rw [hk2, hu3] at hs3; cases hs3; exact sep_not_int _ _ hw3
      · have hk2 : s = leaves.length - 7 := by omega
        rw [hk2, hu4] at hs3; cases hs3; exact sep_not_int _ _ hw4
      · have hk2 : s = leaves.length - 6 := by omega
        rw [hk2, hu5] at hs3; cases hs3; exact sep_not_int _ _ hw5
      · have hk2 : s = leaves.length - 5 := by omega
        rw [hk2, hu6] at hs3; cases hs3; exact sep_not_int _ _ hw6
      · have hk2 : s = leaves.length - 4 := by omega
        rw [hk2, hu7] at hs3; cases hs3; exact sep_not_int _ _ hw7
      · have hk2 : s = leaves.length - 3 := by omega
        rw [hk2, hu8] at hs3; cases hs3; exact sep_not_int _ _ hw8
      · have hk2 : s = leaves.length - 2 := by omega
        rw [hk2, hu9] at hs3; cases hs3; exact sep_not_int _ _ hw9
      · have hk2 : s = leaves.length - 1 := by omega
        rw [hk2, hu10] at hs3; cases hs3; exact sep_not_int _ _ hw10
    have hle : s + 12 ≤ leaves.length := by
      by_contra hcon
      exact key (s - (leaves.length - 11)) (by omega) (by omega)
    refine ⟨by omega, ⟨⟨t0, ht0, hv0⟩, ⟨t1, ht1, hv1⟩, ⟨t2, ht2, hv2⟩, ⟨t3, ht3, hv3⟩,
      ⟨t4, ht4, hv4⟩, ⟨t5, ht5, hv5⟩, ⟨t6, ht6, hv6⟩, ⟨t7, ht7, hv7⟩, ⟨t8, ht8, hv8⟩,
      ⟨t9, ht9, hv9⟩, ⟨t10, ht10, hv10⟩, ⟨t11, ht11, hv11⟩, ⟨t12, ht12, hv12⟩⟩,
      ⟨⟨u0, hu0, hw0⟩, ⟨u1, hu1, hw1⟩, ⟨u2, hu2, hw2⟩, ⟨u3, hu3, hw3⟩, ⟨u4, hu4, hw4⟩,
      ⟨u5, hu5, hw5⟩, ⟨u6, hu6, hw6⟩, ⟨u7, hu7, hw7⟩, ⟨u8, hu8, hw8⟩, ⟨u9, hu9, hw9⟩,
      ⟨u10, hu10, hw10⟩⟩, s, hs1, hle, hs3, hs4, ?_, ?_⟩
    · simpa using hs6
    · have : leaves.length - 11 - (s + 1) = leaves.length - 12 - s := by omega
      rw [← hra, this]

theorem ok_bind {ε α β : Type} (a : α) (f : α → Except ε β) : (Except.ok a >>= f) = f a := rfl
theorem error_bind {ε α β : Type} (e : ε) (f : α → Except ε β) :
    ((Except.error e : Except ε α) >>= f) = Except.error e := rfl

theorem orErr_of_isOk {α : Type} [Inhabited α] (r : Except NumError α) (e : WrapError)
    (h : r.isOk = true) : orErr r e = Except.ok (r.toOption.getD default) := by
  cases r <;> simp_all [orErr, Except.isOk, Except.toBool, Except.toOption]

theorem orErr_of_not_isOk {α : Type} (r : Except NumError α) (e : WrapError)
    (h : r.isOk = false) : orErr r e = Except.error (Fault.err e) := by
  cases r <;> simp_all [orErr, Except.isOk, Except.toBool]

theorem exists_head13 (leaves : List String) (h : 27 ≤ leaves.length) :
    ∃ a0 a1 a2 a3 a4 a5 a6 a7 a8 a9 a10 a11 a12 rest,
      leaves = a0 :: a1 :: a2 :: a3 :: a4 :: a5 :: a6 :: a7 :: a8 :: a9 :: a10 :: a11 :: a12 :: rest := by
  match leaves, h with
  | a0 :: a1 :: a2 :: a3 :: a4 :: a5 :: a6 :: a7 :: a8 :: a9 :: a10 :: a11 :: a12 :: rest, _ =>
    exact ⟨a0, a1, a2, a3, a4, a5, a6, a7, a8, a9, a10, a11, a12, rest, rfl⟩

set_option maxHeartbeats 2000000 in
/-- The first leading column that rejects its token names the error. -/
theorem head_first_failure (leaves : List String) (ln i : Nat) (name : String) (c : Conv)
    (hlen : 27 ≤ leaves.length) (hcol : assocHeadColumns[i]? = some (name, c))
    (hok : ∀ j, j < i → accepted assocHeadColumns leaves 0 j = true)
    (hfail : accepted assocHeadColumns leaves 0 i = false) :
    assocOfLeaves leaves ln
      = Except.error (Fault.err (errorfAtLine (name ++ " ") ln ErrInvalidAssocsFormat)) := by
  have hi : i < 13 := by
    by_contra hcon
    rw [List.getElem?_eq_none (by simp [assocHeadColumns]; omega)] at hcol
    cases hcol
  have hnl : ¬ leaves.length < 27 := by omega
  obtain ⟨a0, a1, a2, a3, a4, a5, a6, a7, a8, a9, a10, a11, a12, rest, rfl⟩ := exists_head13 leaves hlen
  interval_cases i <;>
    (try simp only [Nat.forall_lt_succ, Nat.not_lt_zero, false_implies, implies_true, true_and] at hok) <;>
    (try simp only [accepted, assocHeadColumns, Conv.accepts, List.getElem?_cons_succ,
      List.getElem?_cons_zero, zero_add] at hok) <;>
    simp only [accepted, assocHeadColumns, Conv.accepts, List.getElem?_cons_succ,
      List.getElem?_cons_zero, zero_add, Option.some.injEq, Prod.mk.injEq] at hfail hcol <;>
    obtain ⟨rfl, rfl⟩ := hcol <;>
    simp only [assocOfLeaves, hnl, if_false, index, List.getElem?_cons_succ,
      List.getElem?_cons_zero, ok_bind, error_bind, orErr_of_isOk, orErr_of_not_isOk, hok, hfail] <;>
    rfl

theorem accepted_head_eq (leaves : List String) (j : Nat) (name : String) (c : Conv)
    (hj : j < leaves.length) (hc : assocHeadColumns[j]? = some (name, c)) :
    accepted assocHeadColumns leaves 0 j = c.accepts leaves[j] := by
  simp only [accepted, hc, zero_add, List.getElem?_eq_getElem hj]

theorem getElem?_of_eq (leaves : List String) (a b : Nat) (h : a = b) (hb : b < leaves.length) :
    leaves[a]? = some leaves[b] := by
  subst h
  exact List.getElem?_eq_getElem hb

set_option maxHeartbeats 4000000 in
/-- When the leading columns convert and a separator exists, the first trailing column that
rejects its token names the error. -/
theorem tail_first_failure (leaves : List String) (ln i : Nat) (name : String) (c : Conv)
    (hlen : 27 ≤ leaves.length) (hcol : assocTailColumns[i]? = some (name, c))
    (hhead : ∀ j, j < 13 → accepted assocHeadColumns leaves 0 j = true)
    (hsep : ∃ s, 13 ≤ s ∧ leaves[s]? = some "<->")
    (hok : ∀ j, j < i → accepted assocTailColumns leaves (leaves.length - 11) j = true)
    (hfail : accepted assocTailColumns leaves (leaves.length - 11) i = false) :
    assocOfLeaves leaves ln
      = Except.error (Fault.err (errorfAtLine (name ++ " ") ln ErrInvalidAssocsFormat)) := by
  have hi : i < 11 := by
    by_contra hcon
    rw [List.getElem?_eq_none (by simp [assocTailColumns]; omega)] at hcol
    cases hcol
  have hnl : ¬ leaves.length < 27 := by omega
  classical
  have hs13 := (Nat.find_spec hsep).1
  have hsv := (Nat.find_spec hsep).2
  have hmin : ∀ j, 13 ≤ j → j < Nat.find hsep → leaves[j]? ≠ some "<->" :=
    fun j h1 h2 h3 => Nat.find_min hsep h2 ⟨h1, h3⟩
  have hslt : Nat.find hsep < leaves.length := by
    by_contra hcon
    rw [List.getElem?_eq_none (by omega)] at hsv
    cases hsv
  have hscan := scanLaddrs_found leaves (Nat.find hsep) hslt hsv (leaves.length + 1) 13 []
    hs13 (by omega) hmin
  have hscanR := scanRaddrs_eq leaves (leaves.length - 11) (by omega) (leaves.length + 1)
    (Nat.find hsep + 1) [] (by omega)
  have i0 := index_of_lt leaves 0 (by omega)
  have a0 := hhead 0 (by omega)
  rw [accepted_head_eq leaves 0 _ _ (by omega) (by rfl)] at a0
  have i1 := index_of_lt leaves 1 (by omega)
  have a1 := hhead 1 (by omega)
  rw [accepted_head_eq leaves 1 _ _ (by omega) (by rfl)] at a1
  have i2 := index_of_lt leaves 2 (by omega)
  have a2 := hhead 2 (by omega)
  rw [accepted_head_eq leaves 2 _ _ (by omega) (by rfl)] at a2
  have i3 := index_of_lt leaves 3 (by omega)
  have a3 := hhead 3 (by omega)
  rw [accepted_head_eq leaves 3 _ _ (by omega) (by rfl)] at a3
  have i4 := index_of_lt leaves 4 (by omega)
  have a4 := hhead 4 (by omega)
  rw [accepted_head_eq leaves 4 _ _ (by omega) (by rfl)] at a4
  have i5 := index_of_lt leaves 5 (by omega)
  have a5 := hhead 5 (by omega)
  rw [accepted_head_eq leaves 5 _ _ (by omega) (by rfl)] at a5
  have i6 := index_of_lt leaves 6 (by omega)
  have a6 := hhead 6 (by omega)
  rw [accepted_head_eq leaves 6 _ _ (by omega) (by rfl)] at a6
  have i7 := index_of_lt leaves 7 (by omega)
  have a7 := hhead 7 (by omega)
  rw [accepted_head_eq leaves 7 _ _ (by omega) (by rfl)] at a7
  have i8 := index_of_lt leaves 8 (by omega)
  have a8 := hhead 8 (by omega)
  rw [accepted_head_eq leaves 8 _ _ (by omega) (by rfl)] at a8
  have i9 := index_of_lt leaves 9 (by omega)
  have a9 := hhead 9 (by omega)
  rw [accepted_head_eq leaves 9 _ _ (by omega) (by rfl)] at a9
  have i10 := index_of_lt leaves 10 (by omega)
  have a10 := hhead 10 (by omega)
  rw [accepted_head_eq leaves 10 _ _ (by omega) (by rfl)] at a10
  have i11 := index_of_lt leaves 11 (by omega)
  have a11 := hhead 11 (by omega)
  rw [accepted_head_eq leaves 11 _ _ (by omega) (by rfl)] at a11
  have i12 := index_of_lt leaves 12 (by omega)
  have a12 := hhead 12 (by omega)
  rw [accepted_head_eq leaves 12 _ _ (by omega) (by rfl)] at a12
  have k0 := index_of_lt leaves (leaves.length - 11) (by omega)
  have g0 := getElem?_of_eq leaves (leaves.length - 11 + 0) (leaves.length - 11) (by omega) (by omega)
  have k1 := index_of_lt leaves (leaves.length - 10) (by omega)
  have g1 := getElem?_of_eq leaves (leaves.length - 11 + 1) (leaves.length - 10) (by omega) (by omega)
  have k2 := index_of_lt leaves (leaves.length - 9) (by omega)
  have g2 := getElem?_of_eq leaves (leaves.length - 11 + 2) (leaves.length - 9) (by omega) (by omega)
  have k3 := index_of_lt leaves (leaves.length - 8) (by omega)
  have g3 := getElem?_of_eq leaves (leaves.length - 11 + 3) (leaves.length - 8) (by omega) (by omega)
  have k4 := index_of_lt leaves (leaves.length - 7) (by omega)
  have g4 := getElem?_of_eq leaves (leaves.length - 11 + 4) (leaves.length - 7) (by omega) (by omega)
  have k5 := index_of_lt leaves (leaves.length - 6) (by omega)
  have g5 := getElem?_of_eq leaves (leaves.length - 11 + 5) (leaves.length - 6) (by omega) (by omega)
  have k6 := index_of_lt leaves (leaves.length - 5) (by omega)
  have g6 := getElem?_of_eq leaves (leaves.length - 11 + 6) (leaves.length - 5) (by omega) (by omega)
  have k7 := index_of_lt leaves (leaves.length - 4) (by omega)
  have g7 := getElem?_of_eq leaves (leaves.length - 11 + 7) (leaves.length - 4) (by omega) (by omega)
  have k8 := index_of_lt leaves (leaves.length - 3) (by omega)
  have g8 := getElem?_of_eq leaves (leaves.length - 11 + 8) (leaves.length - 3) (by omega) (by omega)
  have k9 := index_of_lt leaves (leaves.length - 2) (by omega)
  have g9 := getElem?_of_eq leaves (leaves.length - 11 + 9) (leaves.length - 2) (by omega) (by omega)
  have k10 := index_of_lt leaves (leaves.length - 1) (by omega)
  have g10 := getElem?_of_eq leaves (leaves.length - 11 + 10) (leaves.length - 1) (by omega) (by omega)
  simp only [Conv.accepts] at a0 a1 a2 a3 a4 a5 a6 a7 a8 a9 a10 a11 a12
  interval_cases i <;>
    (try simp only [Nat.forall_lt_succ, Nat.not_lt_zero, false_implies, implies_true,
      true_and] at hok) <;>
    (try simp only [accepted, assocTailColumns, Conv.accepts, List.getElem?_cons_succ,
      List.getElem?_cons_zero, g0, g1, g2, g3, g4, g5, g6, g7, g8, g9, g10] at hok) <;>
    simp only [accepted, assocTailColumns, Conv.accepts, List.getElem?_cons_succ,
      List.getElem?_cons_zero, g0, g1, g2, g3, g4, g5, g6, g7, g8, g9, g10, Option.some.injEq,
      Prod.mk.injEq] at hfail hcol <;>
    obtain ⟨rfl, rfl⟩ := hcol <;>
    simp only [assocOfLeaves, hnl, if_false, i0, i1, i2, i3, i4, i5, i6, i7, i8, i9, i10, i11,
      i12, k0, k1, k2, k3, k4, k5, k6, k7, k8, k9, k10, hscan, hscanR, ok_bind, error_bind,
      orErr_of_isOk, orErr_of_not_isOk, a0, a1, a2, a3, a4, a5, a6, a7, a8, a9, a10, a11, a12,
      hok, hfail] <;>
    rfl

theorem leavesOf_empty : leavesOf "" = [""] := by rfl

/-- The loop runs through lines that are empty or decode, counting each and collecting the
records. -/
theorem scanLoop_passes {α : Type} (body : String → Nat → Except Fault α) :
    ∀ (pre rest : List String) (ln : Nat) (acc : List α), passes body pre ln = true →
      scanLoop body (pre ++ rest) ln acc
        = scanLoop body rest (ln + pre.length) (acc ++ recordsOf body pre ln) := by
  intro pre
  induction pre with
  | nil => intro rest ln acc _; simp [recordsOf]
  | cons text pre ih =>
    intro rest ln acc h
    simp only [passes, Bool.and_eq_true, Bool.or_eq_true, beq_iff_eq] at h
    obtain ⟨h1, h2⟩ := h
    have hlen : ln + (text :: pre).length = ln + 1 + pre.length := by
      simp only [List.length_cons]; omega
    by_cases ht : text = ""
    · rw [List.cons_append, scanLoop, if_pos ht, recordsOf, if_pos ht,
        ih rest (ln + 1) acc h2, hlen]
    · have hok : (body text ln).isOk = true := by
        rcases h1 with h1 | h1
        · exact absurd h1 ht
        · exact h1
      cases hb : body text ln with
      | error f => rw [hb] at hok; simp [Except.isOk, Except.toBool] at hok
      | ok r =>
        rw [List.cons_append, scanLoop, if_neg ht, recordsOf, if_neg ht, hb]
        simp only
        rw [ih rest (ln + 1) _ h2, hlen]
        simp

/-- The frame of a parser, on an input that starts with the header when one is expected. -/
theorem parseTable_eq {α : Type} (body : String → Nat → Except Fault α) (noHeader : List Bool)
    (hdr rest : List String) (hhdr : hdr.length = if skipsHeader noHeader = true then 1 else 0) :
    parseTable body (hdr ++ rest) noHeader = scanLoop body rest (hdr.length + 1) [] := by
  unfold parseTable
  cases hsk : skipsHeader noHeader
  · simp only [hsk, Bool.false_eq_true, if_false] at hhdr ⊢
    have : hdr = [] := List.length_eq_zero.mp hhdr
    subst this
    simp
  · simp only [hsk, if_true] at hhdr ⊢
    obtain ⟨x, rfl⟩ := List.length_eq_one.mp hhdr
    simp

/-- An error of the body on a line reached by the loop is what the call returns. -/
theorem parseTable_line_error {α : Type} (body : String → Nat → Except Fault α)
    (noHeader : List Bool) (hdr pre post : List String) (text : String) (e : WrapError)
    (hhdr : hdr.length = if skipsHeader noHeader = true then 1 else 0)
    (hpre : passes body pre (hdr.length + 1) = true) (hne : text ≠ "")
    (herr : body text (hdr.length + pre.length + 1) = Except.error (Fault.err e)) :
    parseTable body (hdr ++ pre ++ text :: post) noHeader = Outcome.returned none (some e) := by
  rw [List.append_assoc, parseTable_eq body noHeader hdr _ hhdr,
    scanLoop_passes body pre _ _ _ hpre]
  have : hdr.length + 1 + pre.length = hdr.length + pre.length + 1 := by omega
  rw [this]
  simp only [scanLoop, if_neg hne, herr]

theorem isStar_iff (c : Char) : ("*" : String).data.contains c = true ↔ c = '*' := by
  simp [List.contains]

/-- Dropping from both ends the elements that satisfy `f` leaves a middle part whose ends do
not satisfy `f`. -/
theorem trim_list_spec {α : Type} (f : α → Bool) (l : List α) :
    ∃ p q, l = p ++ ((l.dropWhile f).reverse.dropWhile f).reverse ++ q ∧
      (∀ c ∈ p, f c = true) ∧ (∀ c ∈ q, f c = true) ∧
      (∀ a, (((l.dropWhile f).reverse.dropWhile f).reverse).head? = some a → f a = false) ∧
      (∀ a, (((l.dropWhile f).reverse.dropWhile f).reverse).getLast? = some a → f a = false) := by
  obtain ⟨d1, hd1⟩ : ∃ d1, d1 = l.dropWhile f := ⟨_, rfl⟩
  obtain ⟨d2, hd2⟩ : ∃ d2, d2 = d1.reverse.dropWhile f := ⟨_, rfl⟩
  have hh1 : ∀ a, d1.head? = some a → f a = false := by
    intro a ha
    have := List.head?_dropWhile_not f l
    rw [← hd1, ha] at this
    exact this
  have hh2 : ∀ a, d2.head? = some a → f a = false := by
    intro a ha
    have := List.head?_dropWhile_not f d1.reverse
    rw [← hd2, ha] at this
    exact this
  have e1 : l = l.takeWhile f ++ d1 := by
    rw [hd1]; exact (List.takeWhile_append_dropWhile f l).symm
  have e2 : d1 = d2.reverse ++ (d1.reverse.takeWhile f).reverse := by
    have h2 := congrArg List.reverse (List.takeWhile_append_dropWhile f d1.reverse)
    simp only [List.reverse_append, List.reverse_reverse] at h2
    rw [hd2]
    exact h2.symm
  rw [← hd1, ← hd2]
  refine ⟨l.takeWhile f, (d1.reverse.takeWhile f).reverse, ?_, ?_, ?_, ?_, ?_⟩
  · rw [List.append_assoc, ← e2]; exact e1
  · intro c hc
    exact List.mem_takeWhile_imp hc
  · intro c hc
    rw [List.mem_reverse] at hc
    exact List.mem_takeWhile_imp hc
  · intro a ha
    cases hd : d2.reverse with
    | nil => rw [hd] at ha; cases ha
    | cons b l2 =>
      rw [hd] at ha
      simp only [List.head?_cons, Option.some.injEq] at ha
      subst ha
      apply hh1
      rw [e2, hd]
      rfl
  · intro a ha
    rw [List.getLast?_reverse] at ha
    exact hh2 a ha

/-- What `strings.Trim(t, "*")` is: `t` without its leading and trailing `*`. -/
theorem Trim_star_spec (t : String) :
    (∃ p q : List Char, t.data = p ++ (Trim t "*").data ++ q ∧ (∀ c ∈ p, c = '*') ∧
      (∀ c ∈ q, c = '*')) ∧
    (Trim t "*").data.head? ≠ some '*' ∧ (Trim t "*").data.getLast? ≠ some '*' := by
  obtain ⟨p, q, h1, h2, h3, h4, h5⟩ :=
    trim_list_spec (fun c => ("*" : String).data.contains c) t.data
  have hstar : ("*" : String).data.contains '*' = true := by decide
  refine ⟨⟨p, q, h1, fun c hc => (isStar_iff c).mp (h2 c hc),
    fun c hc => (isStar_iff c).mp (h3 c hc)⟩, ?_, ?_⟩
  · intro h
    have := h4 _ h
    rw [hstar] at this
    cases this
  · intro h
    have := h5 _ h
    rw [hstar] at this
    cases this

set_option maxHeartbeats 1000000 in
/-- When the leading columns convert and there is no separator, the decoding of the line ends
with the error of the missing separator. -/
theorem no_separator_error (leaves : List String) (ln : Nat) (hlen : 27 ≤ leaves.length)
    (hhead : ∀ j, j < 13 → accepted assocHeadColumns leaves 0 j = true)
    (hno : ∀ j, 13 ≤ j → leaves[j]? ≠ some "<->") :
    assocOfLeaves leaves ln
      = Except.error (Fault.err (errorfPlain "there is no separater ('<->') for laddr and raddr"
          ErrInvalidAssocsFormat)) := by
  have hnl : ¬ leaves.length < 27 := by omega
  have hscan := scanLaddrs_none leaves (leaves.length + 1) 13 [] (by omega) hno
  have i0 := index_of_lt leaves 0 (by omega)
  have a0 := hhead 0 (by omega)
  rw [accepted_head_eq leaves 0 _ _ (by omega) (by rfl)] at a0
  have i1 := index_of_lt leaves 1 (by omega)
  have a1 := hhead 1 (by omega)
  rw [accepted_head_eq leaves 1 _ _ (by omega) (by rfl)] at a1
  have i2 := index_of_lt leaves 2 (by omega)
  have a2 := hhead 2 (by omega)
  rw [accepted_head_eq leaves 2 _ _ (by omega) (by rfl)] at a2
  have i3 := index_of_lt leaves 3 (by omega)
  have a3 := hhead 3 (by omega)
  rw [accepted_head_eq leaves 3 _ _ (by omega) (by rfl)] at a3
  have i4 := index_of_lt leaves 4 (by omega)
  have a4 := hhead 4 (by omega)
  rw [accepted_head_eq leaves 4 _ _ (by omega) (by rfl)] at a4
  have i5 := index_of_lt leaves 5 (by omega)
  have a5 := hhead 5 (by omega)
  rw [accepted_head_eq leaves 5 _ _ (by omega) (by rfl)] at a5
  have i6 := index_of_lt leaves 6 (by omega)
  have a6 := hhead 6 (by omega)
  rw [accepted_head_eq leaves 6 _ _ (by omega) (by rfl)] at a6
  have i7 := index_of_lt leaves 7 (by omega)
  have a7 := hhead 7 (by omega)
  rw [accepted_head_eq leaves 7 _ _ (by omega) (by rfl)] at a7
  have i8 := index_of_lt leaves 8 (by omega)
  have a8 := hhead 8 (by omega)
  rw [accepted_head_eq leaves 8 _ _ (by omega) (by rfl)] at a8
  have i9 := index_of_lt leaves 9 (by omega)
  have a9 := hhead 9 (by omega)
  rw [accepted_head_eq leaves 9 _ _ (by omega) (by rfl)] at a9
  have i10 := index_of_lt leaves 10 (by omega)
  have a10 := hhead 10 (by omega)
  rw [accepted_head_eq leaves 10 _ _ (by omega) (by rfl)] at a10
  have i11 := index_of_lt leaves 11 (by omega)
  have a11 := hhead 11 (by omega)
  rw [accepted_head_eq leaves 11 _ _ (by omega) (by rfl)] at a11
  have i12 := index_of_lt leaves 12 (by omega)
  have a12 := hhead 12 (by omega)
  rw [accepted_head_eq leaves 12 _ _ (by omega) (by rfl)] at a12
  simp only [Conv.accepts] at a0 a1 a2 a3 a4 a5 a6 a7 a8 a9 a10 a11 a12
  simp only [assocOfLeaves, hnl, if_false, i0, i1, i2, i3, i4, i5, i6, i7, i8, i9, i10, i11, i12,
    hscan, ok_bind, error_bind, orErr_of_isOk, a0, a1, a2, a3, a4, a5, a6, a7, a8, a9, a10, a11,
    a12]

/-- When some leading column rejects its token, the error names one of the leading columns. -/
theorem head_failure_exists (leaves : List String) (ln : Nat) (hlen : 27 ≤ leaves.length)
    (hsome : ¬ ∀ j, j < 13 → accepted assocHeadColumns leaves 0 j = true) :
    ∃ (i : Nat) (name : String) (c : Conv), assocHeadColumns[i]? = some (name, c) ∧
      assocOfLeaves leaves ln
        = Except.error (Fault.err (errorfAtLine (name ++ " ") ln ErrInvalidAssocsFormat)) := by
  classical
  have hex : ∃ j, j < 13 ∧ accepted assocHeadColumns leaves 0 j ≠ true := by
    by_contra hcon
    apply hsome
    intro j hj
    by_contra hne
    exact hcon ⟨j, hj, hne⟩
  have h13 := (Nat.find_spec hex).1
  have hbad := (Nat.find_spec hex).2
  have hmin : ∀ j, j < Nat.find hex → accepted assocHeadColumns leaves 0 j = true := by
    intro j hj
    by_contra hne
    exact Nat.find_min hex hj ⟨by omega, hne⟩
  have hlt : Nat.find hex < assocHeadColumns.length := by
    simp only [assocHeadColumns, List.length_cons, List.length_nil]; omega
  refine ⟨Nat.find hex, (assocHeadColumns[Nat.find hex]).1, (assocHeadColumns[Nat.find hex]).2,
    List.getElem?_eq_getElem hlt, ?_⟩
  exact head_first_failure leaves ln (Nat.find hex) _ _ hlen (List.getElem?_eq_getElem hlt) hmin
    (by simpa using hbad)

theorem errorfAtLine_contains (col : String) (k : Nat) (t : Sentinel) :
    Contains (errorfAtLine col k t).msg ("at line #" ++ toString k) := by
  unfold Contains errorfAtLine
  simp only [String.data_append]
  exact ⟨col.data, (": " : String).data ++ t.Error.data, by simp only [List.append_assoc]⟩

theorem errorfAtLine_startsWith (name : String) (k : Nat) (t : Sentinel) :
    StartsWith (errorfAtLine (name ++ " ") k t).msg name := by
  unfold StartsWith errorfAtLine
  simp only [String.data_append, List.append_assoc]
  exact List.prefix_append _ _

theorem not_sep_of_not_mem (leaves : List String) (h : "<->" ∉ leaves.drop 13) :
    ∀ j, 13 ≤ j → leaves[j]? ≠ some "<->" := by
  intro j hj hsome
  apply h
  have : (leaves.drop 13)[j - 13]? = some "<->" := by
    rw [List.getElem?_drop]
    have : 13 + (j - 13) = j := by omega
    rw [this]; exact hsome
  exact List.getElem?_mem this

/-! ## The claims -/

/-- Claim C1. When the body of `ParseAssocs` decodes a line to `r`, the tokens have a first
separator `<->` at an index `s` with `13 ≤ s ≤ n - 12`; `LAddrs` is the run of tokens
`13 .. s - 1` unchanged and `RAddrs` is the run of tokens `s + 1 .. n - 12`, each passed
through `strings.Trim(., "*")`; the separator is in neither list (the lengths are `s - 13`
and `n - 12 - s`, and no token of `LAddrs` is the separator). -/
theorem assocs_address_lists (text : String) (lineNum : Nat) (r : Assoc)
    (h : assocOfLine text lineNum = Except.ok r) :
    ∃ s, 13 ≤ s ∧ s + 12 ≤ (leavesOf text).length ∧ (leavesOf text)[s]? = some "<->" ∧
      (∀ j, 13 ≤ j → j < s → (leavesOf text)[j]? ≠ some "<->") ∧
      r.LAddrs = ((leavesOf text).drop 13).take (s - 13) ∧
      r.RAddrs = (((leavesOf text).drop (s + 1)).take ((leavesOf text).length - 12 - s)).map
        (fun t => Trim t "*") ∧
      r.LAddrs.length = s - 13 ∧ r.RAddrs.length = (leavesOf text).length - 12 - s ∧
      "<->" ∉ r.LAddrs := by
  obtain ⟨_, _, _, s, h1, h2, h3, h4, h5, h6⟩ := assocOfLeaves_ok (leavesOf text) lineNum r h
  refine ⟨s, h1, h2, h3, h4, h5, h6, ?_, ?_, ?_⟩
  · rw [h5, List.length_take, List.length_drop]; omega
  · rw [h6, List.length_map, List.length_take, List.length_drop]; omega
  · intro hmem
    rw [h5] at hmem
    obtain ⟨i, hi, hget⟩ := List.getElem_of_mem hmem
    have hi2 : i < s - 13 := by
      rw [List.length_take, List.length_drop] at hi; omega
    have hq : (List.take (s - 13) (List.drop 13 (leavesOf text)))[i]? = some "<->" := by
      rw [List.getElem?_eq_getElem hi, hget]
    rw [List.getElem?_take_of_lt hi2, List.getElem?_drop] at hq
    exact h4 (13 + i) (by omega) (by omega) hq

/-- Witness for C1: the first data line of `Test_ParseAssocsWithMultiple`. -/
theorem assocs_address_lists_witness :
    assocOfLine assocsLineMultiple 2 = Except.ok assocsRecordMultiple ∧
    assocsRecordMultiple.LAddrs = ["127.0.0.10", "127.0.0.20"] ∧
    assocsRecordMultiple.RAddrs = ["127.0.0.1", "127.0.0.2"] ∧
    ∃ s, 13 ≤ s ∧ s + 12 ≤ (leavesOf assocsLineMultiple).length ∧
      (leavesOf assocsLineMultiple)[s]? = some "<->" ∧
      (∀ j, 13 ≤ j → j < s → (leavesOf assocsLineMultiple)[j]? ≠ some "<->") ∧
      assocsRecordMultiple.LAddrs = ((leavesOf assocsLineMultiple).drop 13).take (s - 13) ∧
      assocsRecordMultiple.RAddrs
        = (((leavesOf assocsLineMultiple).drop (s + 1)).take
            ((leavesOf assocsLineMultiple).length - 12 - s)).map (fun t => Trim t "*") ∧
      assocsRecordMultiple.LAddrs.length = s - 13 ∧
      assocsRecordMultiple.RAddrs.length = (leavesOf assocsLineMultiple).length - 12 - s ∧
      "<->" ∉ assocsRecordMultiple.LAddrs :=
  ⟨by rfl, rfl, rfl, assocs_address_lists assocsLineMultiple 2 assocsRecordMultiple (by rfl)⟩

/-- Claim C2. When the body of `ParseAssocs` decodes a line to `r`, the token count of the
line is `len(LAddrs) + len(RAddrs) + 13 + 1 + 11`. -/
theorem assocs_token_count (text : String) (lineNum : Nat) (r : Assoc)
    (h : assocOfLine text lineNum = Except.ok r) :
    r.LAddrs.length + r.RAddrs.length + 13 + 1 + 11 = (leavesOf text).length := by
  obtain ⟨_, _, _, s, h1, h2, _, _, h5, h6⟩ := assocOfLeaves_ok (leavesOf text) lineNum r h
  rw [h5, h6, List.length_map, List.length_take, List.length_take, List.length_drop,
    List.length_drop]
  omega

/-- Witness for C2: the first data line of `Test_ParseAssocs`, 1 + 1 + 25 = 27 tokens. -/
theorem assocs_token_count_witness :
    assocOfLine assocsLine1 2 = Except.ok assocsRecord1 ∧
    assocsRecord1.LAddrs.length + assocsRecord1.RAddrs.length + 13 + 1 + 11
      = (leavesOf assocsLine1).length ∧
    (leavesOf assocsLine1).length = 27 :=
  ⟨by rfl, assocs_token_count assocsLine1 2 assocsRecord1 (by rfl), by rfl⟩

/-- Counterexample to C3: two lines of 27 tokens that `ParseAssocs` decodes without error,
the first to a record with no local address, the second to a record with no remote
address. -/
theorem assocs_empty_address_list :
    (27 ≤ (leavesOf assocsLineNoLocal).length ∧
      ∃ r, ParseAssocs [assocsLineNoLocal] [true] = Outcome.returned (some [r]) none ∧
        r.LAddrs = []) ∧
    (27 ≤ (leavesOf assocsLineNoRemote).length ∧
      ∃ r, ParseAssocs [assocsLineNoRemote] [true] = Outcome.returned (some [r]) none ∧
        r.RAddrs = []) :=
  ⟨⟨by decide, _, by rfl, by rfl⟩, ⟨by decide, _, by rfl, by rfl⟩⟩

/-- Claim C3, amended. When the body of `ParseAssocs` decodes a line of `n` tokens to `r`,
then `n ≥ 27`, the two address lists hold `n - 25 ≥ 2` tokens between them, so they are not
both empty; `LAddrs` is empty exactly when token 13 is the separator, and `RAddrs` is empty
exactly when the first separator is token `n - 12`. -/
theorem assocs_address_lists_not_both_empty (text : String) (lineNum : Nat) (r : Assoc)
    (h : assocOfLine text lineNum = Except.ok r) :
    27 ≤ (leavesOf text).length ∧
    r.LAddrs.length + r.RAddrs.length = (leavesOf text).length - 25 ∧
    (r.LAddrs ≠ [] ∨ r.RAddrs ≠ []) ∧
    (r.LAddrs = [] ↔ (leavesOf text)[13]? = some "<->") ∧
    (r.RAddrs = [] ↔ ((leavesOf text)[(leavesOf text).length - 12]? = some "<->" ∧
      ∀ j, 13 ≤ j → j < (leavesOf text).length - 12 → (leavesOf text)[j]? ≠ some "<->")) := by
  obtain ⟨hn, _, _, s, h1, h2, h3, h4, h5, h6⟩ := assocOfLeaves_ok (leavesOf text) lineNum r h
  have hl : r.LAddrs.length = s - 13 := by
    rw [h5, List.length_take, List.length_drop]; omega
  have hr : r.RAddrs.length = (leavesOf text).length - 12 - s := by
    rw [h6, List.length_map, List.length_take, List.length_drop]; omega
  refine ⟨hn, by omega, ?_, ?_, ?_⟩
  · by_contra hcon
    have hcon' := not_or.mp hcon
    have e1 : r.LAddrs = [] := not_not.mp hcon'.1
    have e2 : r.RAddrs = [] := not_not.mp hcon'.2
    rw [e1] at hl; rw [e2] at hr
    simp only [List.length_nil] at hl hr
    omega
  · constructor
    · intro e
      rw [e] at hl
      simp only [List.length_nil] at hl
      have : s = 13 := by omega
      rw [← this]; exact h3
    · intro e
      have : s = 13 := by
        by_contra hne
        exact h4 13 (le_refl _) (by omega) e
      apply List.eq_nil_of_length_eq_zero
      omega
  · constructor
    · intro e
      rw [e] at hr
      simp only [List.length_nil] at hr
      have : s = (leavesOf text).length - 12 := by omega
      rw [← this]; exact ⟨h3, h4⟩
    · intro e
      have : s = (leavesOf text).length - 12 := by
        by_contra hne
        exact e.2 s h1 (by omega) h3
      apply List.eq_nil_of_length_eq_zero
      omega

/-- Witness for the amended C3: the first data line of `Test_ParseAssocs`. -/
theorem assocs_address_lists_not_both_empty_witness :
    assocOfLine assocsLine1 2 = Except.ok assocsRecord1 ∧
    (27 ≤ (leavesOf assocsLine1).length ∧
    assocsRecord1.LAddrs.length + assocsRecord1.RAddrs.length = (leavesOf assocsLine1).length - 25 ∧
    (assocsRecord1.LAddrs ≠ [] ∨ assocsRecord1.RAddrs ≠ []) ∧
    (assocsRecord1.LAddrs = [] ↔ (leavesOf assocsLine1)[13]? = some "<->") ∧
    (assocsRecord1.RAddrs = [] ↔
      ((leavesOf assocsLine1)[(leavesOf assocsLine1).length - 12]? = some "<->" ∧
      ∀ j, 13 ≤ j → j < (leavesOf assocsLine1).length - 12 →
        (leavesOf assocsLine1)[j]? ≠ some "<->"))) :=
  ⟨by rfl, assocs_address_lists_not_both_empty assocsLine1 2 assocsRecord1 (by rfl)⟩

/-- Counterexample to C4: the remote address token `*127*0.0.2` is stored as `127*0.0.2`,
which still contains a `*`. -/
theorem assocs_inner_star_kept :
    (leavesOf assocsLineInnerStar)[15]? = some "*127*0.0.2" ∧
    ∃ r, ParseAssocs [assocsLineInnerStar] [true] = Outcome.returned (some [r]) none ∧
      r.RAddrs = ["127*0.0.2"] ∧ '*' ∈ ("127*0.0.2" : String).data :=
  ⟨by rfl, _, by rfl, by rfl, by decide⟩

/-- Claim C4, amended. When the body of `ParseAssocs` decodes a line to `r`, every element of
`LAddrs` is the corresponding token unchanged, and every element of `RAddrs` is
`strings.Trim(token, "*")`: the token without its leading and trailing `*` characters, so
it neither starts nor ends with `*`. -/
theorem assocs_remote_marker_trimmed (text : String) (lineNum : Nat) (r : Assoc)
    (h : assocOfLine text lineNum = Except.ok r) :
    (∀ i, i < r.LAddrs.length → r.LAddrs[i]? = (leavesOf text)[13 + i]?) ∧
    (∀ i, i < r.RAddrs.length → ∃ t a,
      (leavesOf text)[13 + r.LAddrs.length + 1 + i]? = some t ∧ r.RAddrs[i]? = some a ∧
      a = Trim t "*" ∧
      (∃ p q : List Char, t.data = p ++ a.data ++ q ∧ (∀ c ∈ p, c = '*') ∧ (∀ c ∈ q, c = '*')) ∧
      a.data.head? ≠ some '*' ∧ a.data.getLast? ≠ some '*') := by
  obtain ⟨hn, _, _, s, h1, h2, h3, h4, h5, h6⟩ := assocOfLeaves_ok (leavesOf text) lineNum r h
  have hl : r.LAddrs.length = s - 13 := by
    rw [h5, List.length_take, List.length_drop]; omega
  have hr : r.RAddrs.length = (leavesOf text).length - 12 - s := by
    rw [h6, List.length_map, List.length_take, List.length_drop]; omega
  constructor
  · intro i hi
    rw [h5, List.getElem?_take_of_lt (by omega), List.getElem?_drop]
  · intro i hi
    have hidx : 13 + r.LAddrs.length + 1 + i = s + 1 + i := by omega
    have hlt : s + 1 + i < (leavesOf text).length := by omega
    refine ⟨(leavesOf text)[s + 1 + i], Trim (leavesOf text)[s + 1 + i] "*", ?_, ?_, rfl,
      (Trim_star_spec _).1, (Trim_star_spec _).2.1, (Trim_star_spec _).2.2⟩
    · rw [hidx, List.getElem?_eq_getElem hlt]
    · rw [h6, List.getElem?_map, List.getElem?_take_of_lt (by omega), List.getElem?_drop,
        List.getElem?_eq_getElem hlt]
      rfl

/-- Witness for the amended C4: the first data line of `Test_ParseAssocs`, whose remote token
`*127.0.0.2` is stored as `127.0.0.2`. -/
theorem assocs_remote_marker_trimmed_witness :
    assocOfLine assocsLine1 2 = Except.ok assocsRecord1 ∧
    (leavesOf assocsLine1)[15]? = some "*127.0.0.2" ∧ assocsRecord1.RAddrs = ["127.0.0.2"] ∧
    ((∀ i, i < assocsRecord1.LAddrs.length →
        assocsRecord1.LAddrs[i]? = (leavesOf assocsLine1)[13 + i]?) ∧
    (∀ i, i < assocsRecord1.RAddrs.length → ∃ t a,
      (leavesOf assocsLine1)[13 + assocsRecord1.LAddrs.length + 1 + i]? = some t ∧
      assocsRecord1.RAddrs[i]? = some a ∧ a = Trim t "*" ∧
      (∃ p q : List Char, t.data = p ++ a.data ++ q ∧ (∀ c ∈ p, c = '*') ∧ (∀ c ∈ q, c = '*')) ∧
      a.data.head? ≠ some '*' ∧ a.data.getLast? ≠ some '*')) :=
  ⟨by rfl, by rfl, rfl, assocs_remote_marker_trimmed assocsLine1 2 assocsRecord1 (by rfl)⟩

/-- Claim C6. When the body of `ParseAssocs` decodes a line of `n` tokens to `r`, then
`n ≥ 27` and the fixed fields of `r` are the conversions of fixed token positions:
`Assoc .. RPort` come from the tokens 0..12 and `Hbint .. Rcvbuf` from the tokens
`n - 11 .. n - 1`, whatever lies between them. -/
theorem assocs_fixed_fields (text : String) (lineNum : Nat) (r : Assoc)
    (h : assocOfLine text lineNum = Except.ok r) :
    27 ≤ (leavesOf text).length ∧ FixedFields (leavesOf text) r := by
  obtain ⟨hn, hhead, htail, _⟩ := assocOfLeaves_ok (leavesOf text) lineNum r h
  exact ⟨hn, hhead, htail⟩

/-- Witness for C6: the two data lines of `Test_ParseAssocs`, and a line with two local and
two remote addresses, where the trailing fields sit two tokens further. -/
theorem assocs_fixed_fields_witness :
    (assocOfLine assocsLine1 2 = Except.ok assocsRecord1 ∧
      27 ≤ (leavesOf assocsLine1).length ∧ FixedFields (leavesOf assocsLine1) assocsRecord1) ∧
    (assocOfLine assocsLine2 3 = Except.ok assocsRecord2 ∧
      27 ≤ (leavesOf assocsLine2).length ∧ FixedFields (leavesOf assocsLine2) assocsRecord2) ∧
    (assocOfLine assocsLineMultiple 2 = Except.ok assocsRecordMultiple ∧
      27 ≤ (leavesOf assocsLineMultiple).length ∧
      FixedFields (leavesOf assocsLineMultiple) assocsRecordMultiple) :=
  ⟨⟨by rfl, assocs_fixed_fields assocsLine1 2 assocsRecord1 (by rfl)⟩,
   ⟨by rfl, assocs_fixed_fields assocsLine2 3 assocsRecord2 (by rfl)⟩,
   ⟨by rfl, assocs_fixed_fields assocsLineMultiple 2 assocsRecordMultiple (by rfl)⟩⟩

/-- Claim C5. A line of at least 27 tokens with no token `<->` at index 13 or later, read
after a header (when one is expected) and lines that are empty or decode, makes
`ParseAssocs` return `nil` and an error that wraps `ErrInvalidAssocsFormat` and does not wrap
`ErrInsufficientNumberOfAssocItems`, however many tokens the line has; when the 13 leading
columns convert it is the error of the missing separator. -/
theorem assocs_missing_separator (noHeader : List Bool) (hdr pre post : List String)
    (text : String) (hhdr : hdr.length = if skipsHeader noHeader = true then 1 else 0)
    (hpre : passes assocOfLine pre (hdr.length + 1) = true)
    (hlen : 27 ≤ (leavesOf text).length)
    (hno : ∀ j, 13 ≤ j → (leavesOf text)[j]? ≠ some "<->") :
    ∃ e, ParseAssocs (hdr ++ pre ++ text :: post) noHeader = Outcome.returned none (some e) ∧
      e.Is ErrInvalidAssocsFormat ∧ ¬ e.Is ErrInsufficientNumberOfAssocItems ∧
      ((∀ j, j < 13 → accepted assocHeadColumns (leavesOf text) 0 j = true) →
        e = errorfPlain "there is no separater ('<->') for laddr and raddr"
          ErrInvalidAssocsFormat) := by
  have hne : text ≠ "" := by
    intro h0
    rw [h0, leavesOf_empty] at hlen
    simp at hlen
  by_cases hall : ∀ j, j < 13 → accepted assocHeadColumns (leavesOf text) 0 j = true
  · refine ⟨_, parseTable_line_error assocOfLine noHeader hdr pre post text _ hhdr hpre hne
      (no_separator_error (leavesOf text) _ hlen hall hno), rfl, ?_, fun _ => rfl⟩
    intro h; cases h
  · obtain ⟨i, name, c, _, herr⟩ :=
      head_failure_exists (leavesOf text) (hdr.length + pre.length + 1) hlen hall
    refine ⟨_, parseTable_line_error assocOfLine noHeader hdr pre post text _ hhdr hpre hne herr,
      rfl, ?_, fun h => absurd h hall⟩
    intro h; cases h

/-- Witness for C5: a line of 27 well-formed tokens without separator, read as line 3 after
the header and the first data line of `Test_ParseAssocs`. -/
theorem assocs_missing_separator_witness :
    ([assocsHeader].length = if skipsHeader [] = true then 1 else 0) ∧
    passes assocOfLine [assocsLine1] ([assocsHeader].length + 1) = true ∧
    27 ≤ (leavesOf assocsLineNoSeparator).length ∧
    (∀ j, 13 ≤ j → (leavesOf assocsLineNoSeparator)[j]? ≠ some "<->") ∧
    ∃ e, ParseAssocs ([assocsHeader] ++ [assocsLine1] ++ assocsLineNoSeparator :: []) []
        = Outcome.returned none (some e) ∧
      e.Is ErrInvalidAssocsFormat ∧ ¬ e.Is ErrInsufficientNumberOfAssocItems ∧
      ((∀ j, j < 13 → accepted assocHeadColumns (leavesOf assocsLineNoSeparator) 0 j = true) →
        e = errorfPlain "there is no separater ('<->') for laddr and raddr"
          ErrInvalidAssocsFormat) :=
  ⟨by rfl, by rfl, by decide, not_sep_of_not_mem _ (by decide),
    assocs_missing_separator [] [assocsHeader] [assocsLine1] [] assocsLineNoSeparator
      (by rfl) (by rfl) (by decide) (not_sep_of_not_mem _ (by decide))⟩

/-- Claim C7. In each of the three parsers, a non-empty line with fewer tokens than the
minimum of the shape (27, 9, 8), read after a header (when one is expected) and lines that
are empty or decode, makes the call return `nil` and the error
`at line #k: <insufficient items>`, where `k` counts the header and the empty lines; nothing
is assumed about the tokens of the line. -/
theorem insufficient_items_at_line (noHeader : List Bool) (hdr pre post : List String)
    (text : String) (hhdr : hdr.length = if skipsHeader noHeader = true then 1 else 0)
    (hne : text ≠ "") :
    (passes assocOfLine pre (hdr.length + 1) = true → (leavesOf text).length < 27 →
      ParseAssocs (hdr ++ pre ++ text :: post) noHeader
        = Outcome.returned none (some (errorfAtLine "" (hdr.length + pre.length + 1)
            ErrInsufficientNumberOfAssocItems))) ∧
    (passes epsOfLine pre (hdr.length + 1) = true → (leavesOf text).length < 9 →
      ParseEPS (hdr ++ pre ++ text :: post) noHeader
        = Outcome.returned none (some (errorfAtLine "" (hdr.length + pre.length + 1)
            ErrInsufficientNumberOfEPSItems))) ∧
    (passes remaddrOfLine pre (hdr.length + 1) = true → (leavesOf text).length < 8 →
      ParseRemaddr (hdr ++ pre ++ text :: post) noHeader
        = Outcome.returned none (some (errorfAtLine "" (hdr.length + pre.length + 1)
            ErrInsufficientNumberOfRemaddrItems))) ∧
    (∀ t, (errorfAtLine "" (hdr.length + pre.length + 1) t).Is t ∧
      Contains (errorfAtLine "" (hdr.length + pre.length + 1) t).msg
        ("at line #" ++ toString (hdr.length + pre.length + 1))) := by
  refine ⟨?_, ?_, ?_, fun t => ⟨rfl, errorfAtLine_contains _ _ _⟩⟩
  · intro hpre hlen
    apply parseTable_line_error assocOfLine noHeader hdr pre post text _ hhdr hpre hne
    simp only [assocOfLine, assocOfLeaves, if_pos hlen]
  · intro hpre hlen
    apply parseTable_line_error epsOfLine noHeader hdr pre post text _ hhdr hpre hne
    simp only [epsOfLine, epsOfLeaves, if_pos hlen]
  · intro hpre hlen
    apply parseTable_line_error remaddrOfLine noHeader hdr pre post text _ hhdr hpre hne
    simp only [remaddrOfLine, remaddrOfLeaves, if_pos hlen]

/-- Witness for C7: the inputs of `Test_ParseInsufficientItems`,
`TestParseEPS_WithInsufficientItems` and `TestParseRemaddr_WithInsufficientItems` (a header
and a short line, reported at line 2), and an assocs input where the short line comes after
the header, a data line and an empty line and is reported at line 4. -/
theorem insufficient_items_at_line_witness :
    ParseAssocs ([assocsHeader] ++ [] ++ assocsLineShort :: [""]) []
      = Outcome.returned none (some (errorfAtLine "" 2 ErrInsufficientNumberOfAssocItems)) ∧
    ParseEPS (["ENDPT     SOCK   STY SST HBKT LPORT   UID INODE LADDRS"] ++ [] ++ epsLineShort :: [""]) []
      = Outcome.returned none (some (errorfAtLine "" 2 ErrInsufficientNumberOfEPSItems)) ∧
    ParseRemaddr (["ADDR ASSOC_ID HB_ACT RTO MAX_PATH_RTX REM_ADDR_RTX START STATE"] ++ [] ++
        remaddrLineShort :: [""]) []
      = Outcome.returned none (some (errorfAtLine "" 2 ErrInsufficientNumberOfRemaddrItems)) ∧
    ParseAssocs ([assocsHeader] ++ [assocsLine1, ""] ++ assocsLineShort :: [assocsLine2]) []
      = Outcome.returned none (some (errorfAtLine "" 4 ErrInsufficientNumberOfAssocItems)) ∧
    Contains (errorfAtLine "" 4 ErrInsufficientNumberOfAssocItems).msg "at line #4" :=
  ⟨(insufficient_items_at_line [] [assocsHeader] [] [""] assocsLineShort (by rfl)
      (by decide)).1 (by rfl) (by decide),
   (insufficient_items_at_line [] ["ENDPT     SOCK   STY SST HBKT LPORT   UID INODE LADDRS"] []
      [""] epsLineShort (by rfl) (by decide)).2.1 (by rfl) (by decide),
   (insufficient_items_at_line [] ["ADDR ASSOC_ID HB_ACT RTO MAX_PATH_RTX REM_ADDR_RTX START STATE"]
      [] [""] remaddrLineShort (by rfl) (by decide)).2.2.1 (by rfl) (by decide),
   (insufficient_items_at_line [] [assocsHeader] [assocsLine1, ""] [assocsLine2] assocsLineShort
      (by rfl) (by decide)).1 (by rfl) (by decide),
   ((insufficient_items_at_line [] [assocsHeader] [assocsLine1, ""] [assocsLine2] assocsLineShort
      (by rfl) (by decide)).2.2.2 ErrInsufficientNumberOfAssocItems).2⟩

/-- Evaluation for C8: on a line of 27 well-formed tokens without `<->`, `ParseAssocs` returns
an error that wraps `ErrInvalidAssocsFormat` and whose message is
`there is no separater ('<->') for laddr and raddr: invalid assocs format`, with no line
number in it, although the line is line 3 of the input. -/
theorem assocs_missing_separator_message :
    ParseAssocs [assocsHeader, assocsLine1, assocsLineNoSeparator] []
      = Outcome.returned none
          (some { msg := "there is no separater ('<->') for laddr and raddr: invalid assocs format",
                  wrapped := ErrInvalidAssocsFormat }) ∧
    ¬ Contains "there is no separater ('<->') for laddr and raddr: invalid assocs format"
        "at line #" := by
  constructor
  · rfl
  · set_option maxRecDepth 20000 in decide

/-- Claim C9. `ParseAssocs` reports the first failure of a line in column order. For a line
of at least 27 tokens read as line `k`: if column `i` of the 13 leading columns is the first
whose token does not convert, the call returns `nil` and the error
`<name of column i> at line #k: invalid assocs format`, whatever the later tokens are; if the
13 leading columns convert and a separator exists, and column `i` of the 11 trailing columns
is the first whose token (among the last 11) does not convert, the error names that column.
The error wraps `ErrInvalidAssocsFormat` and its message starts with the column name. -/
theorem assocs_first_failure (noHeader : List Bool) (hdr pre post : List String)
    (text : String) (i : Nat) (name : String) (c : Conv)
    (hhdr : hdr.length = if skipsHeader noHeader = true then 1 else 0)
    (hpre : passes assocOfLine pre (hdr.length + 1) = true)
    (hlen : 27 ≤ (leavesOf text).length) :
    (assocHeadColumns[i]? = some (name, c) →
      (∀ j, j < i → accepted assocHeadColumns (leavesOf text) 0 j = true) →
      accepted assocHeadColumns (leavesOf text) 0 i = false →
      ParseAssocs (hdr ++ pre ++ text :: post) noHeader
        = Outcome.returned none (some (errorfAtLine (name ++ " ") (hdr.length + pre.length + 1)
            ErrInvalidAssocsFormat))) ∧
    (assocTailColumns[i]? = some (name, c) →
      (∀ j, j < 13 → accepted assocHeadColumns (leavesOf text) 0 j = true) →
      (∃ s, 13 ≤ s ∧ (leavesOf text)[s]? = some "<->") →
      (∀ j, j < i → accepted assocTailColumns (leavesOf text) ((leavesOf text).length - 11) j
        = true) →
      accepted assocTailColumns (leavesOf text) ((leavesOf text).length - 11) i = false →
      ParseAssocs (hdr ++ pre ++ text :: post) noHeader
        = Outcome.returned none (some (errorfAtLine (name ++ " ") (hdr.length + pre.length + 1)
            ErrInvalidAssocsFormat))) ∧
    (errorfAtLine (name ++ " ") (hdr.length + pre.length + 1) ErrInvalidAssocsFormat).Is
      ErrInvalidAssocsFormat ∧
    StartsWith
      (errorfAtLine (name ++ " ") (hdr.length + pre.length + 1) ErrInvalidAssocsFormat).msg
      name := by
  have hne : text ≠ "" := by
    intro h0
    rw [h0, leavesOf_empty] at hlen
    simp at hlen
  refine ⟨?_, ?_, rfl, errorfAtLine_startsWith _ _ _⟩
  · intro hcol hok hfail
    exact parseTable_line_error assocOfLine noHeader hdr pre post text _ hhdr hpre hne
      (head_first_failure (leavesOf text) _ i name c hlen hcol hok hfail)
  · intro hcol hhead hsep hok hfail
    exact parseTable_line_error assocOfLine noHeader hdr pre post text _ hhdr hpre hne
      (tail_first_failure (leavesOf text) _ i name c hlen hcol hhead hsep hok hfail)

/-- Witness for C9: a line whose columns SST and LPORT are malformed and which has no
separator is reported as `SST at line #2`; a line whose columns MAXRT and sndbuf are
malformed is reported as `MAXRT at line #2`. -/
theorem assocs_first_failure_witness :
    ParseAssocs ([assocsHeader] ++ [] ++ assocsLineBadSst :: []) []
      = Outcome.returned none (some (errorfAtLine ("SST" ++ " ") 2 ErrInvalidAssocsFormat)) ∧
    ParseAssocs ([assocsHeader] ++ [] ++ assocsLineBadMaxrt :: []) []
      = Outcome.returned none (some (errorfAtLine ("MAXRT" ++ " ") 2 ErrInvalidAssocsFormat)) ∧
    (errorfAtLine ("MAXRT" ++ " ") 2 ErrInvalidAssocsFormat).msg
      = "MAXRT at line #2: invalid assocs format" ∧
    StartsWith (errorfAtLine ("MAXRT" ++ " ") 2 ErrInvalidAssocsFormat).msg "MAXRT" :=
  ⟨(assocs_first_failure [] [assocsHeader] [] [] assocsLineBadSst 3 "SST" (Conv.int 10)
      (by rfl) (by rfl) (by decide)).1 (by rfl) (by decide) (by rfl),
   (assocs_first_failure [] [assocsHeader] [] [] assocsLineBadMaxrt 3 "MAXRT" (Conv.int 10)
      (by rfl) (by rfl) (by decide)).2.1 (by rfl) (by decide) ⟨14, by decide, by rfl⟩
      (by decide) (by rfl),
   by rfl,
   (assocs_first_failure [] [assocsHeader] [] [] assocsLineBadMaxrt 3 "MAXRT" (Conv.int 10)
      (by rfl) (by rfl) (by decide)).2.2.2⟩

/-- Counterexample to C10: a line made only of spaces, or of a space and a tab, is empty
after trimming, yet none of the three parsers skips it: each returns `nil` and its
insufficient-items error for that line. -/
theorem blank_line_not_skipped :
    TrimSpace "   " = "" ∧ TrimSpace " \t" = "" ∧
    ParseAssocs ["   "] [true]
      = Outcome.returned none (some (errorfAtLine "" 1 ErrInsufficientNumberOfAssocItems)) ∧
    ParseAssocs [assocsHeader, assocsLine1, " \t", assocsLine2] []
      = Outcome.returned none (some (errorfAtLine "" 3 ErrInsufficientNumberOfAssocItems)) ∧
    ParseEPS ["   "] [true]
      = Outcome.returned none (some (errorfAtLine "" 1 ErrInsufficientNumberOfEPSItems)) ∧
    ParseRemaddr ["   "] [true]
      = Outcome.returned none (some (errorfAtLine "" 1 ErrInsufficientNumberOfRemaddrItems)) :=
  ⟨by rfl, by rfl, by rfl, by rfl, by rfl, by rfl⟩

/-- Claim C10, amended. In each of the three parsers a data line that is the empty string is
skipped: when it comes as line `k` after a header (when one is expected) and lines that are
empty or decode, the call goes on with the next line as line `k + 1` and with exactly the
records of the lines before, so the empty line gives no record and no error and is
counted. -/
theorem empty_line_skipped (noHeader : List Bool) (hdr pre post : List String)
    (hhdr : hdr.length = if skipsHeader noHeader = true then 1 else 0) :
    (passes assocOfLine pre (hdr.length + 1) = true →
      ParseAssocs (hdr ++ pre ++ "" :: post) noHeader
        = scanLoop assocOfLine post (hdr.length + pre.length + 1 + 1)
            (recordsOf assocOfLine pre (hdr.length + 1))) ∧
    (passes epsOfLine pre (hdr.length + 1) = true →
      ParseEPS (hdr ++ pre ++ "" :: post) noHeader
        = scanLoop epsOfLine post (hdr.length + pre.length + 1 + 1)
            (recordsOf epsOfLine pre (hdr.length + 1))) ∧
    (passes remaddrOfLine pre (hdr.length + 1) = true →
      ParseRemaddr (hdr ++ pre ++ "" :: post) noHeader
        = scanLoop remaddrOfLine post (hdr.length + pre.length + 1 + 1)
            (recordsOf remaddrOfLine pre (hdr.length + 1))) := by
  have key : ∀ {α : Type} (body : String → Nat → Except Fault α),
      passes body pre (hdr.length + 1) = true →
      parseTable body (hdr ++ pre ++ "" :: post) noHeader
        = scanLoop body post (hdr.length + pre.length + 1 + 1)
            (recordsOf body pre (hdr.length + 1)) := by
    intro α body hpre
    rw [List.append_assoc, parseTable_eq body noHeader hdr _ hhdr,
      scanLoop_passes body pre _ _ _ hpre, scanLoop, if_pos rfl]
    have : hdr.length + 1 + pre.length + 1 = hdr.length + pre.length + 1 + 1 := by omega
    rw [this, List.nil_append]
  exact ⟨key assocOfLine, key epsOfLine, key remaddrOfLine⟩

/-- Witness for the amended C10: the input of `Test_ParseAssocs`, whose line 4 is empty,
gives the two records; with the empty line moved to line 3, a short line after it is
reported at line 4. -/
theorem empty_line_skipped_witness :
    ParseAssocs ([assocsHeader] ++ [assocsLine1, assocsLine2] ++ "" :: []) []
      = Outcome.returned (some [assocsRecord1, assocsRecord2]) none ∧
    ParseAssocs ([assocsHeader] ++ [assocsLine1] ++ "" :: [assocsLineShort]) []
      = Outcome.returned none (some (errorfAtLine "" 4 ErrInsufficientNumberOfAssocItems)) :=
  ⟨((empty_line_skipped [] [assocsHeader] [assocsLine1, assocsLine2] [] (by rfl)).1
      (by rfl)).trans (by rfl),
   ((empty_line_skipped [] [assocsHeader] [assocsLine1] [assocsLineShort] (by rfl)).1
      (by rfl)).trans (by rfl)⟩

/-! ## Decoders of the eps and remaddr lines -/

/-- Everything a successful decoding of an eps line says about the tokens. -/
theorem epsOfLeaves_ok (leaves : List String) (ln : Nat) (r : EPS)
    (h : epsOfLeaves leaves ln = Except.ok r) :
    9 ≤ leaves.length ∧ UintAt leaves 0 16 r.Endpt ∧ UintAt leaves 1 16 r.Sock ∧
    IntAt leaves 2 10 r.Sty ∧ IntAt leaves 3 10 r.Sst ∧ IntAt leaves 4 10 r.Hbkt ∧
    IntAt leaves 5 10 r.LPort ∧ UintAt leaves 6 10 r.Uid ∧ UintAt leaves 7 10 r.Inode ∧
    r.LAddrs = leaves.drop 8 := by
  unfold epsOfLeaves at h
  split at h
  · simp at h
  · rename_i hlen
    simp only [bind_eq_ok, index_eq_ok, orErr_eq_ok, pure, Except.pure, Except.ok.injEq] at h
    obtain ⟨t0, ht0, v0, hv0, h⟩ := h
    obtain ⟨t1, ht1, v1, hv1, h⟩ := h
    obtain ⟨t2, ht2, v2, hv2, h⟩ := h
    obtain ⟨t3, ht3, v3, hv3, h⟩ := h
    obtain ⟨t4, ht4, v4, hv4, h⟩ := h
    obtain ⟨t5, ht5, v5, hv5, h⟩ := h
    obtain ⟨t6, ht6, v6, hv6, h⟩ := h
    obtain ⟨t7, ht7, v7, hv7, h⟩ := h
    obtain ⟨la, hla, h⟩ := h
    subst h
    have hla2 : la = leaves.drop 8 := by
      unfold sliceFrom at hla
      split at hla
      · cases hla
      · simpa using hla.symm
    exact ⟨by omega, ⟨t0, ht0, hv0⟩, ⟨t1, ht1, hv1⟩, ⟨t2, ht2, hv2⟩, ⟨t3, ht3, hv3⟩,
      ⟨t4, ht4, hv4⟩, ⟨t5, ht5, hv5⟩, ⟨t6, ht6, hv6⟩, ⟨t7, ht7, hv7⟩, hla2⟩

theorem index_of_some (leaves : List String) (i : Nat) (t : String) (h : leaves[i]? = some t) :
    index leaves i = Except.ok t := (index_eq_ok leaves i t).mpr h

theorem orErr_ok {α : Type} (v : α) (e : WrapError) :
    orErr (Except.ok v : Except NumError α) e = Except.ok v := rfl

/-- An eps line of at least 9 tokens whose first 8 tokens convert is decoded, with the
remaining tokens as local addresses. -/
theorem epsOfLeaves_of_facts (leaves : List String) (ln : Nat)
    (v0 v1 : Nat) (v2 v3 v4 v5 : Int) (v6 v7 : Nat) (hlen : 9 ≤ leaves.length)
    (h0 : UintAt leaves 0 16 v0) (h1 : UintAt leaves 1 16 v1) (h2 : IntAt leaves 2 10 v2)
    (h3 : IntAt leaves 3 10 v3) (h4 : IntAt leaves 4 10 v4) (h5 : IntAt leaves 5 10 v5)
    (h6 : UintAt leaves 6 10 v6) (h7 : UintAt leaves 7 10 v7) :
    epsOfLeaves leaves ln = Except.ok
      { Endpt := v0, Sock := v1, Sty := v2, Sst := v3, Hbkt := v4, LPort := v5, Uid := v6,
        Inode := v7, LAddrs := leaves.drop 8 } := by
  obtain ⟨t0, i0, p0⟩ := h0
  obtain ⟨t1, i1, p1⟩ := h1
  obtain ⟨t2, i2, p2⟩ := h2
  obtain ⟨t3, i3, p3⟩ := h3
  obtain ⟨t4, i4, p4⟩ := h4
  obtain ⟨t5, i5, p5⟩ := h5
  obtain ⟨t6, i6, p6⟩ := h6
  obtain ⟨t7, i7, p7⟩ := h7
  have hnl : ¬ leaves.length < 9 := by omega
  have hsl : sliceFrom leaves 8 = Except.ok (leaves.drop 8) := by
    unfold sliceFrom
    rw [if_neg (by omega)]
  simp only [epsOfLeaves, hnl, if_false, index_of_some _ _ _ i0, index_of_some _ _ _ i1,
    index_of_some _ _ _ i2, index_of_some _ _ _ i3, index_of_some _ _ _ i4,
    index_of_some _ _ _ i5, index_of_some _ _ _ i6, index_of_some _ _ _ i7, p0, p1, p2, p3, p4,
    p5, p6, p7, orErr_ok, ok_bind, hsl]
  rfl

/-- Everything a successful decoding of a remaddr line says about the tokens. -/
theorem remaddrOfLeaves_ok (leaves : List String) (ln : Nat) (r : Remaddr)
    (h : remaddrOfLeaves leaves ln = Except.ok r) :
    8 ≤ leaves.length ∧ leaves[0]? = some r.Addr ∧ IntAt leaves 1 10 r.AssocID ∧
    IntAt leaves 2 10 r.HbAct ∧ UintAt leaves 3 10 r.RTO ∧ IntAt leaves 4 10 r.MaxPathRtx ∧
    IntAt leaves 5 10 r.RemAddrRtx ∧ IntAt leaves 6 10 r.Start ∧ IntAt leaves 7 10 r.State := by
  unfold remaddrOfLeaves at h
  split at h
  · simp at h
  · rename_i hlen
    simp only [bind_eq_ok, index_eq_ok, orErr_eq_ok, pure, Except.pure, Except.ok.injEq] at h
    obtain ⟨t0, ht0, h⟩ := h
    obtain ⟨t1, ht1, v1, hv1, h⟩ := h
    obtain ⟨t2, ht2, v2, hv2, h⟩ := h
    obtain ⟨t3, ht3, v3, hv3, h⟩ := h
    obtain ⟨t4, ht4, v4, hv4, h⟩ := h
    obtain ⟨t5, ht5, v5, hv5, h⟩ := h
    obtain ⟨t6, ht6, v6, hv6, h⟩ := h
    obtain ⟨t7, ht7, v7, hv7, h⟩ := h
    subst h
    exact ⟨by omega, ht0, ⟨t1, ht1, hv1⟩, ⟨t2, ht2, hv2⟩, ⟨t3, ht3, hv3⟩,
      ⟨t4, ht4, hv4⟩, ⟨t5, ht5, hv5⟩, ⟨t6, ht6, hv6⟩, ⟨t7, ht7, hv7⟩⟩

/-- A remaddr line of at least 8 tokens whose tokens 1..7 convert is decoded, with token 0 as
the address. -/
theorem remaddrOfLeaves_of_facts (leaves : List String) (ln : Nat) (t0 : String)
    (v1 v2 : Int) (v3 : Nat) (v4 v5 v6 v7 : Int) (hlen : 8 ≤ leaves.length)
    (h0 : leaves[0]? = some t0) (h1 : IntAt leaves 1 10 v1) (h2 : IntAt leaves 2 10 v2)
    (h3 : UintAt leaves 3 10 v3) (h4 : IntAt leaves 4 10 v4) (h5 : IntAt leaves 5 10 v5)
    (h6 : IntAt leaves 6 10 v6) (h7 : IntAt leaves 7 10 v7) :
    remaddrOfLeaves leaves ln = Except.ok
      { Addr := t0, AssocID := v1, HbAct := v2, RTO := v3, MaxPathRtx := v4, RemAddrRtx := v5,
        Start := v6, State := v7 } := by
  obtain ⟨t1, i1, p1⟩ := h1
  obtain ⟨t2, i2, p2⟩ := h2
  obtain ⟨t3, i3, p3⟩ := h3
  obtain ⟨t4, i4, p4⟩ := h4
  obtain ⟨t5, i5, p5⟩ := h5
  obtain ⟨t6, i6, p6⟩ := h6
  obtain ⟨t7, i7, p7⟩ := h7
  have hnl : ¬ leaves.length < 8 := by omega
  simp only [remaddrOfLeaves, hnl, if_false, index_of_some _ _ _ h0, index_of_some _ _ _ i1,
    index_of_some _ _ _ i2, index_of_some _ _ _ i3, index_of_some _ _ _ i4,
    index_of_some _ _ _ i5, index_of_some _ _ _ i6, index_of_some _ _ _ i7, p1, p2, p3, p4,
    p5, p6, p7, orErr_ok, ok_bind]
  rfl

/-- The converse of `assocOfLeaves_ok`: tokens that satisfy the facts are decoded to the record. -/
theorem assocOfLeaves_of_facts (leaves : List String) (ln : Nat) (r : Assoc) (s : Nat)
    (hlen : 27 ≤ leaves.length) (hf : FixedFields leaves r) (hs1 : 13 ≤ s)
    (hs2 : s + 12 ≤ leaves.length) (hsep : leaves[s]? = some "<->")
    (hmin : ∀ j, 13 ≤ j → j < s → leaves[j]? ≠ some "<->")
    (hL : r.LAddrs = (leaves.drop 13).take (s - 13))
    (hR : r.RAddrs = ((leaves.drop (s + 1)).take (leaves.length - 12 - s)).map
      (fun t => Trim t "*")) :
    assocOfLeaves leaves ln = Except.ok r := by
  obtain ⟨⟨h0, h1, h2, h3, h4, h5, h6, h7, h8, h9, h10, h11, h12⟩,
    ⟨g0, g1, g2, g3, g4, g5, g6, g7, g8, g9, g10⟩⟩ := hf
  obtain ⟨t0, i0, p0⟩ := h0
  obtain ⟨t1, i1, p1⟩ := h1
  obtain ⟨t2, i2, p2⟩ := h2
  obtain ⟨t3, i3, p3⟩ := h3
  obtain ⟨t4, i4, p4⟩ := h4
  obtain ⟨t5, i5, p5⟩ := h5
  obtain ⟨t6, i6, p6⟩ := h6
  obtain ⟨t7, i7, p7⟩ := h7
  obtain ⟨t8, i8, p8⟩ := h8
  obtain ⟨t9, i9, p9⟩ := h9
  obtain ⟨t10, i10, p10⟩ := h10
  obtain ⟨t11, i11, p11⟩ := h11
  obtain ⟨t12, i12, p12⟩ := h12
  obtain ⟨u0, j0, q0⟩ := g0
  obtain ⟨u1, j1, q1⟩ := g1
  obtain ⟨u2, j2, q2⟩ := g2
  obtain ⟨u3, j3, q3⟩ := g3
  obtain ⟨u4, j4, q4⟩ := g4
  obtain ⟨u5, j5, q5⟩ := g5
  obtain ⟨u6, j6, q6⟩ := g6
  obtain ⟨u7, j7, q7⟩ := g7
  obtain ⟨u8, j8, q8⟩ := g8
  obtain ⟨u9, j9, q9⟩ := g9
  obtain ⟨u10, j10, q10⟩ := g10
  have hnl : ¬ leaves.length < 27 := by omega
  have hscan := scanLaddrs_found leaves s (by omega) hsep (leaves.length + 1) 13 []
    hs1 (by omega) hmin
  have hscanR := scanRaddrs_eq leaves (leaves.length - 11) (by omega) (leaves.length + 1)
    (s + 1) [] (by omega)
  have hk : leaves.length - 11 - (s + 1) = leaves.length - 12 - s := by omega
  rw [hk] at hscanR
  rw [List.nil_append, ← hL] at hscan
  rw [List.nil_append, ← hR] at hscanR
  simp only [assocOfLeaves, hnl, if_false, index_of_some _ _ _ i0, index_of_some _ _ _ i1,
    index_of_some _ _ _ i2, index_of_some _ _ _ i3, index_of_some _ _ _ i4,
    index_of_some _ _ _ i5, index_of_some _ _ _ i6, index_of_some _ _ _ i7,
    index_of_some _ _ _ i8, index_of_some _ _ _ i9, index_of_some _ _ _ i10,
    index_of_some _ _ _ i11, index_of_some _ _ _ i12, index_of_some _ _ _ j0,
    index_of_some _ _ _ j1, index_of_some _ _ _ j2, index_of_some _ _ _ j3,
    index_of_some _ _ _ j4, index_of_some _ _ _ j5, index_of_some _ _ _ j6,
    index_of_some _ _ _ j7, index_of_some _ _ _ j8, index_of_some _ _ _ j9,
    index_of_some _ _ _ j10, p0, p1, p2, p3, p4, p5, p6, p7, p8, p9, p10, p11, p12,
    q0, q1, q2, q3, q4, q5, q6, q7, q8, q9, q10, orErr_ok, ok_bind, hscan, hscanR]
  rfl

theorem exists_head8 (leaves : List String) (h : 8 ≤ leaves.length) :
    ∃ a0 a1 a2 a3 a4 a5 a6 a7 rest,
      leaves = a0 :: a1 :: a2 :: a3 :: a4 :: a5 :: a6 :: a7 :: rest := by
  match leaves, h with
  | a0 :: a1 :: a2 :: a3 :: a4 :: a5 :: a6 :: a7 :: rest, _ =>
    exact ⟨a0, a1, a2, a3, a4, a5, a6, a7, rest, rfl⟩

set_option maxHeartbeats 1000000 in
/-- The first eps column that rejects its token names the error. -/
theorem eps_first_failure (leaves : List String) (ln i : Nat) (name : String) (c : Conv)
    (hlen : 9 ≤ leaves.length) (hcol : epsColumns[i]? = some (name, c))
    (hok : ∀ j, j < i → accepted epsColumns leaves 0 j = true)
    (hfail : accepted epsColumns leaves 0 i = false) :
    epsOfLeaves leaves ln
      = Except.error (Fault.err (errorfAtLine (name ++ " ") ln ErrInvalidEPSFormat)) := by
  have hi : i < 8 := by
    by_contra hcon
    rw [List.getElem?_eq_none (by simp [epsColumns]; omega)] at hcol
    cases hcol
  have hnl : ¬ leaves.length < 9 := by omega
  obtain ⟨a0, a1, a2, a3, a4, a5, a6, a7, rest, rfl⟩ := exists_head8 leaves (by omega)
  interval_cases i <;>
    (try simp only [Nat.forall_lt_succ, Nat.not_lt_zero, false_implies, implies_true,
      true_and] at hok) <;>
    (try simp only [accepted, epsColumns, Conv.accepts, List.getElem?_cons_succ,
      List.getElem?_cons_zero, zero_add] at hok) <;>
    simp only [accepted, epsColumns, Conv.accepts, List.getElem?_cons_succ,
      List.getElem?_cons_zero, zero_add, Option.some.injEq, Prod.mk.injEq] at hfail hcol <;>
    obtain ⟨rfl, rfl⟩ := hcol <;>
    simp only [epsOfLeaves, hnl, if_false, index, List.getElem?_cons_succ,
      List.getElem?_cons_zero, ok_bind, error_bind, orErr_of_isOk, orErr_of_not_isOk, hok,
      hfail] <;>
    rfl

set_option maxHeartbeats 1000000 in
/-- The first remaddr column that rejects its token names the error. -/
theorem remaddr_first_failure (leaves : List String) (ln i : Nat) (name : String) (c : Conv)
    (hlen : 8 ≤ leaves.length) (hcol : remaddrColumns[i]? = some (name, c))
    (hok : ∀ j, j < i → accepted remaddrColumns leaves 1 j = true)
    (hfail : accepted remaddrColumns leaves 1 i = false) :
    remaddrOfLeaves leaves ln
      = Except.error (Fault.err (errorfAtLine (name ++ " ") ln ErrInvalidRemaddrFormat)) := by
  have hi : i < 7 := by
    by_contra hcon
    rw [List.getElem?_eq_none (by simp [remaddrColumns]; omega)] at hcol
    cases hcol
  have hnl : ¬ leaves.length < 8 := by omega
  obtain ⟨a0, a1, a2, a3, a4, a5, a6, a7, rest, rfl⟩ := exists_head8 leaves hlen
  interval_cases i <;>
    (try simp only [Nat.forall_lt_succ, Nat.not_lt_zero, false_implies, implies_true,
      true_and] at hok) <;>
    (try simp only [accepted, remaddrColumns, Conv.accepts, List.getElem?_cons_succ,
      List.getElem?_cons_zero, Nat.reduceAdd] at hok) <;>
    simp only [accepted, remaddrColumns, Conv.accepts, List.getElem?_cons_succ,
      List.getElem?_cons_zero, Nat.reduceAdd, Option.some.injEq, Prod.mk.injEq] at hfail hcol <;>
    obtain ⟨rfl, rfl⟩ := hcol <;>
    simp only [remaddrOfLeaves, hnl, if_false, index, List.getElem?_cons_succ,
      List.getElem?_cons_zero, ok_bind, error_bind, orErr_of_isOk, orErr_of_not_isOk, hok,
      hfail] <;>
    rfl

/-- A conversion accepts a token exactly when it gives a value for it. -/
theorem accepts_iff_value (c : Conv) (t : String) :
    c.accepts t = true ↔ ∃ v, c.value t = some v := by
  cases c with
  | uint b =>
    simp only [Conv.accepts, Conv.value]
    cases ParseUint t b 64 <;> simp [Except.isOk, Except.toBool]
  | int b =>
    simp only [Conv.accepts, Conv.value]
    cases ParseInt t b 64 <;> simp [Except.isOk, Except.toBool]

theorem uint_accepts_iff (b : Nat) (t : String) :
    (Conv.uint b).accepts t = true ↔ ∃ v, ParseUint t b 64 = Except.ok v := by
  simp only [Conv.accepts]
  cases ParseUint t b 64 <;> simp [Except.isOk, Except.toBool]

theorem int_accepts_iff (b : Nat) (t : String) :
    (Conv.int b).accepts t = true ↔ ∃ v, ParseInt t b 64 = Except.ok v := by
  simp only [Conv.accepts]
  cases ParseInt t b 64 <;> simp [Except.isOk, Except.toBool]

theorem uintAt_of_accepted (cols : List (String × Conv)) (leaves : List String)
    (off i b : Nat) (name : String) (hc : cols[i]? = some (name, Conv.uint b))
    (h : accepted cols leaves off i = true) : ∃ v, UintAt leaves (off + i) b v := by
  unfold accepted at h
  rw [hc] at h
  cases ht : leaves[off + i]? with
  | none => rw [ht] at h; simp at h
  | some t =>
    rw [ht] at h
    obtain ⟨v, hv⟩ := (uint_accepts_iff b t).mp h
    exact ⟨v, t, ht, hv⟩

theorem intAt_of_accepted (cols : List (String × Conv)) (leaves : List String)
    (off i b : Nat) (name : String) (hc : cols[i]? = some (name, Conv.int b))
    (h : accepted cols leaves off i = true) : ∃ v, IntAt leaves (off + i) b v := by
  unfold accepted at h
  rw [hc] at h
  cases ht : leaves[off + i]? with
  | none => rw [ht] at h; simp at h
  | some t =>
    rw [ht] at h
    obtain ⟨v, hv⟩ := (int_accepts_iff b t).mp h
    exact ⟨v, t, ht, hv⟩

theorem accepted_of_uintAt (cols : List (String × Conv)) (leaves : List String)
    (off i b : Nat) (name : String) (v : Nat) (hc : cols[i]? = some (name, Conv.uint b))
    (h : UintAt leaves (off + i) b v) : accepted cols leaves off i = true := by
  obtain ⟨t, ht, hv⟩ := h
  unfold accepted
  rw [hc, ht]
  exact (uint_accepts_iff b t).mpr ⟨v, hv⟩

theorem accepted_of_intAt (cols : List (String × Conv)) (leaves : List String)
    (off i b : Nat) (name : String) (v : Int) (hc : cols[i]? = some (name, Conv.int b))
    (h : IntAt leaves (off + i) b v) : accepted cols leaves off i = true := by
  obtain ⟨t, ht, hv⟩ := h
  unfold accepted
  rw [hc, ht]
  exact (int_accepts_iff b t).mpr ⟨v, hv⟩

/-- When not every one of the first `m` columns accepts its token, there is a first column
that rejects it. -/
theorem exists_first_rejected (cols : List (String × Conv)) (leaves : List String)
    (off m : Nat) (h : ¬ ∀ j, j < m → accepted cols leaves off j = true) :
    ∃ i, i < m ∧ (∀ j, j < i → accepted cols leaves off j = true) ∧
      accepted cols leaves off i = false := by
  classical
  have hex : ∃ j, j < m ∧ accepted cols leaves off j ≠ true := by
    by_contra hcon
    apply h
    intro j hj
    by_contra hne
    exact hcon ⟨j, hj, hne⟩
  refine ⟨Nat.find hex, (Nat.find_spec hex).1, ?_, by simpa using (Nat.find_spec hex).2⟩
  intro j hj
  by_contra hne
  exact Nat.find_min hex hj ⟨lt_trans hj (Nat.find_spec hex).1, hne⟩

theorem conv_rejects_sep (c : Conv) : c.accepts "<->" = false := by
  cases c with
  | uint b =>
    cases h : (Conv.uint b).accepts "<->" with
    | false => rfl
    | true =>
      obtain ⟨v, hv⟩ := (uint_accepts_iff b _).mp h
      exact absurd hv (sep_not_uint b v)
  | int b =>
    cases h : (Conv.int b).accepts "<->" with
    | false => rfl
    | true =>
      obtain ⟨v, hv⟩ := (int_accepts_iff b _).mp h
      exact absurd hv (sep_not_int b v)

/-- A separator in the last 11 tokens is rejected by its trailing column. -/
theorem tail_rejects_sep (leaves : List String) (s : Nat)
    (hs : leaves.length - 11 ≤ s) (hsep : leaves[s]? = some "<->") :
    accepted assocTailColumns leaves (leaves.length - 11) (s - (leaves.length - 11)) = false := by
  have hslt : s < leaves.length := by
    by_contra hcon
    rw [List.getElem?_eq_none (by omega)] at hsep
    cases hsep
  have hidx : leaves.length - 11 + (s - (leaves.length - 11)) = s := by omega
  unfold accepted
  rw [hidx, hsep]
  cases hc : assocTailColumns[s - (leaves.length - 11)]? with
  | none => rfl
  | some p =>
    obtain ⟨name, c⟩ := p
    exact conv_rejects_sep c

set_option maxHeartbeats 1000000 in
/-- An assocs line of at least 27 tokens with a separator whose 13 leading and 11 trailing
columns accept their tokens is decoded. -/
theorem assocOfLeaves_of_accepted (leaves : List String) (ln : Nat)
    (hlen : 27 ≤ leaves.length)
    (hhead : ∀ j, j < 13 → accepted assocHeadColumns leaves 0 j = true)
    (hsep : ∃ s, 13 ≤ s ∧ leaves[s]? = some "<->")
    (htail : ∀ j, j < 11 → accepted assocTailColumns leaves (leaves.length - 11) j = true) :
    ∃ r, assocOfLeaves leaves ln = Except.ok r := by
  classical
  have hs13 := (Nat.find_spec hsep).1
  have hsv := (Nat.find_spec hsep).2
  have hmin : ∀ j, 13 ≤ j → j < Nat.find hsep → leaves[j]? ≠ some "<->" :=
    fun j h1 h2 h3 => Nat.find_min hsep h2 ⟨h1, h3⟩
  have hslt : Nat.find hsep < leaves.length := by
    by_contra hcon
    rw [List.getElem?_eq_none (by omega)] at hsv
    cases hsv
  have hs12 : Nat.find hsep + 12 ≤ leaves.length := by
    by_contra hcon
    have hrej := tail_rejects_sep leaves (Nat.find hsep) (by omega) hsv
    rw [htail _ (by omega)] at hrej
    cases hrej
  obtain ⟨v0, a0⟩ := uintAt_of_accepted assocHeadColumns leaves 0 0 _ _ (by rfl) (hhead 0 (by omega))
  rw [Nat.zero_add] at a0
  obtain ⟨v1, a1⟩ := uintAt_of_accepted assocHeadColumns leaves 0 1 _ _ (by rfl) (hhead 1 (by omega))
  rw [Nat.zero_add] at a1
  obtain ⟨v2, a2⟩ := intAt_of_accepted assocHeadColumns leaves 0 2 _ _ (by rfl) (hhead 2 (by omega))
  rw [Nat.zero_add] at a2
  obtain ⟨v3, a3⟩ := intAt_of_accepted assocHeadColumns leaves 0 3 _ _ (by rfl) (hhead 3 (by omega))
  rw [Nat.zero_add] at a3
  obtain ⟨v4, a4⟩ := intAt_of_accepted assocHeadColumns leaves 0 4 _ _ (by rfl) (hhead 4 (by omega))
  rw [Nat.zero_add] at a4
  obtain ⟨v5, a5⟩ := intAt_of_accepted assocHeadColumns leaves 0 5 _ _ (by rfl) (hhead 5 (by omega))
  rw [Nat.zero_add] at a5
  obtain ⟨v6, a6⟩ := intAt_of_accepted assocHeadColumns leaves 0 6 _ _ (by rfl) (hhead 6 (by omega))
  rw [Nat.zero_add] at a6
  obtain ⟨v7, a7⟩ := intAt_of_accepted assocHeadColumns leaves 0 7 _ _ (by rfl) (hhead 7 (by omega))
  rw [Nat.zero_add] at a7
  obtain ⟨v8, a8⟩ := intAt_of_accepted assocHeadColumns leaves 0 8 _ _ (by rfl) (hhead 8 (by omega))
  rw [Nat.zero_add] at a8
  obtain ⟨v9, a9⟩ := uintAt_of_accepted assocHeadColumns leaves 0 9 _ _ (by rfl) (hhead 9 (by omega))
  rw [Nat.zero_add] at a9
  obtain ⟨v10, a10⟩ := uintAt_of_accepted assocHeadColumns leaves 0 10 _ _ (by rfl) (hhead 10 (by omega))
  rw [Nat.zero_add] at a10
  obtain ⟨v11, a11⟩ := intAt_of_accepted assocHeadColumns leaves 0 11 _ _ (by rfl) (hhead 11 (by omega))
  rw [Nat.zero_add] at a11
  obtain ⟨v12, a12⟩ := intAt_of_accepted assocHeadColumns leaves 0 12 _ _ (by rfl) (hhead 12 (by omega))
  rw [Nat.zero_add] at a12
  obtain ⟨w0, b0⟩ := uintAt_of_accepted assocTailColumns leaves (leaves.length - 11) 0 _ _ (by rfl) (htail 0 (by omega))
  rw [show leaves.length - 11 + 0 = leaves.length - 11 from by omega] at b0
  obtain ⟨w1, b1⟩ := intAt_of_accepted assocTailColumns leaves (leaves.length - 11) 1 _ _ (by rfl) (htail 1 (by omega))
  rw [show leaves.length - 11 + 1 = leaves.length - 10 from by omega] at b1
  obtain ⟨w2, b2⟩ := intAt_of_accepted assocTailColumns leaves (leaves.length - 11) 2 _ _ (by rfl) (htail 2 (by omega))
  rw [show leaves.length - 11 + 2 = leaves.length - 9 from by omega] at b2
  obtain ⟨w3, b3⟩ := intAt_of_accepted assocTailColumns leaves (leaves.length - 11) 3 _ _ (by rfl) (htail 3 (by omega))
  rw [show leaves.length - 11 + 3 = leaves.length - 8 from by omega] at b3
  obtain ⟨w4, b4⟩ := intAt_of_accepted assocTailColumns leaves (leaves.length - 11) 4 _ _ (by rfl) (htail 4 (by omega))
  rw [show leaves.length - 11 + 4 = leaves.length - 7 from by omega] at b4
  obtain ⟨w5, b5⟩ := intAt_of_accepted assocTailColumns leaves (leaves.length - 11) 5 _ _ (by rfl) (htail 5 (by omega))
  rw [show leaves.length - 11 + 5 = leaves.length - 6 from by omega] at b5
  obtain ⟨w6, b6⟩ := intAt_of_accepted assocTailColumns leaves (leaves.length - 11) 6 _ _ (by rfl) (htail 6 (by omega))
  rw [show leaves.length - 11 + 6 = leaves.length - 5 from by omega] at b6
  obtain ⟨w7, b7⟩ := intAt_of_accepted assocTailColumns leaves (leaves.length - 11) 7 _ _ (by rfl) (htail 7 (by omega))
  rw [show leaves.length - 11 + 7 = leaves.length - 4 from by omega] at b7
  obtain ⟨w8, b8⟩ := intAt_of_accepted assocTailColumns leaves (leaves.length - 11) 8 _ _ (by rfl) (htail 8 (by omega))
  rw [show leaves.length - 11 + 8 = leaves.length - 3 from by omega] at b8
  obtain ⟨w9, b9⟩ := intAt_of_accepted assocTailColumns leaves (leaves.length - 11) 9 _ _ (by rfl) (htail 9 (by omega))
  rw [show leaves.length - 11 + 9 = leaves.length - 2 from by omega] at b9
  obtain ⟨w10, b10⟩ := intAt_of_accepted assocTailColumns leaves (leaves.length - 11) 10 _ _ (by rfl) (htail 10 (by omega))
  rw [show leaves.length - 11 + 10 = leaves.length - 1 from by omega] at b10
  exact ⟨
    { Assoc := v0, Sock := v1, Sty := v2, Sst := v3, St := v4, Hbkt := v5, AssocId := v6,
      TxQueue := v7, RxQueue := v8, Uid := v9, Inode := v10, LPort := v11, RPort := v12,
      LAddrs := (leaves.drop 13).take (Nat.find hsep - 13),
      RAddrs := ((leaves.drop (Nat.find hsep + 1)).take
        (leaves.length - 12 - Nat.find hsep)).map (fun t => Trim t "*"),
      Hbint := w0, Ins := w1, Outs := w2, Maxrt := w3, T1x := w4, T2x := w5, Rtxc := w6,
      Wmema := w7, Wmemq := w8, Sndbuf := w9, Rcvbuf := w10 },
    assocOfLeaves_of_facts leaves ln _ (Nat.find hsep) hlen
      ⟨⟨a0, a1, a2, a3, a4, a5, a6, a7, a8, a9, a10, a11, a12⟩,
        ⟨b0, b1, b2, b3, b4, b5, b6, b7, b8, b9, b10⟩⟩ hs13 hs12 hsv hmin rfl rfl⟩

/-- The decoding of an assocs line never reads a token out of range and never exhausts the
iteration budget of its loops: it gives a record or one of the two errors of the shape. -/
theorem assocOfLeaves_total (leaves : List String) (ln : Nat) :
    (∃ r, assocOfLeaves leaves ln = Except.ok r) ∨
    (∃ e, assocOfLeaves leaves ln = Except.error (Fault.err e) ∧
      ((leaves.length < 27 ∧ e = errorfAtLine "" ln ErrInsufficientNumberOfAssocItems) ∨
        (27 ≤ leaves.length ∧ e.wrapped = ErrInvalidAssocsFormat))) := by
  by_cases hlen : leaves.length < 27
  · right
    exact ⟨errorfAtLine "" ln ErrInsufficientNumberOfAssocItems, by simp only [assocOfLeaves, if_pos hlen],
      Or.inl ⟨hlen, rfl⟩⟩
  · have h27 : 27 ≤ leaves.length := by omega
    by_cases hhead : ∀ j, j < 13 → accepted assocHeadColumns leaves 0 j = true
    · by_cases hsep : ∃ s, 13 ≤ s ∧ leaves[s]? = some "<->"
      · by_cases htail : ∀ j, j < 11 →
            accepted assocTailColumns leaves (leaves.length - 11) j = true
        · exact Or.inl (assocOfLeaves_of_accepted leaves ln h27 hhead hsep htail)
        · right
          obtain ⟨i, hi, hok, hfail⟩ := exists_first_rejected _ _ _ _ htail
          have hlt : i < assocTailColumns.length := by
            simp only [assocTailColumns, List.length_cons, List.length_nil]; omega
          exact ⟨_, tail_first_failure leaves ln i _ _ h27 (List.getElem?_eq_getElem hlt)
            hhead hsep hok hfail, Or.inr ⟨h27, rfl⟩⟩
      · right
        refine ⟨_, no_separator_error leaves ln h27 hhead ?_, Or.inr ⟨h27, rfl⟩⟩
        intro j hj hsome
        exact hsep ⟨j, hj, hsome⟩
    · right
      obtain ⟨i, name, c, _, herr⟩ := head_failure_exists leaves ln h27 hhead
      exact ⟨_, herr, Or.inr ⟨h27, rfl⟩⟩

/-- An eps line of at least 9 tokens whose 8 columns accept their tokens is decoded. -/
theorem epsOfLeaves_of_accepted (leaves : List String) (ln : Nat) (hlen : 9 ≤ leaves.length)
    (hall : ∀ j, j < 8 → accepted epsColumns leaves 0 j = true) :
    ∃ r, epsOfLeaves leaves ln = Except.ok r := by
  obtain ⟨v0, a0⟩ := uintAt_of_accepted epsColumns leaves 0 0 _ _ (by rfl) (hall 0 (by omega))
  rw [Nat.zero_add] at a0
  obtain ⟨v1, a1⟩ := uintAt_of_accepted epsColumns leaves 0 1 _ _ (by rfl) (hall 1 (by omega))
  rw [Nat.zero_add] at a1
  obtain ⟨v2, a2⟩ := intAt_of_accepted epsColumns leaves 0 2 _ _ (by rfl) (hall 2 (by omega))
  rw [Nat.zero_add] at a2
  obtain ⟨v3, a3⟩ := intAt_of_accepted epsColumns leaves 0 3 _ _ (by rfl) (hall 3 (by omega))
  rw [Nat.zero_add] at a3
  obtain ⟨v4, a4⟩ := intAt_of_accepted epsColumns leaves 0 4 _ _ (by rfl) (hall 4 (by omega))
  rw [Nat.zero_add] at a4
  obtain ⟨v5, a5⟩ := intAt_of_accepted epsColumns leaves 0 5 _ _ (by rfl) (hall 5 (by omega))
  rw [Nat.zero_add] at a5
  obtain ⟨v6, a6⟩ := uintAt_of_accepted epsColumns leaves 0 6 _ _ (by rfl) (hall 6 (by omega))
  rw [Nat.zero_add] at a6
  obtain ⟨v7, a7⟩ := uintAt_of_accepted epsColumns leaves 0 7 _ _ (by rfl) (hall 7 (by omega))
  rw [Nat.zero_add] at a7
  exact ⟨_, epsOfLeaves_of_facts leaves ln v0 v1 v2 v3 v4 v5 v6 v7 hlen a0 a1 a2 a3 a4 a5 a6 a7⟩

/-- The decoding of an eps line gives a record or one of the two errors of the shape. -/
theorem epsOfLeaves_total (leaves : List String) (ln : Nat) :
    (∃ r, epsOfLeaves leaves ln = Except.ok r) ∨
    (∃ e, epsOfLeaves leaves ln = Except.error (Fault.err e) ∧
      ((leaves.length < 9 ∧ e = errorfAtLine "" ln ErrInsufficientNumberOfEPSItems) ∨
        (9 ≤ leaves.length ∧ e.wrapped = ErrInvalidEPSFormat))) := by
  by_cases hlen : leaves.length < 9
  · right
    exact ⟨errorfAtLine "" ln ErrInsufficientNumberOfEPSItems, by simp only [epsOfLeaves, if_pos hlen],
      Or.inl ⟨hlen, rfl⟩⟩
  · have h9 : 9 ≤ leaves.length := by omega
    by_cases hall : ∀ j, j < 8 → accepted epsColumns leaves 0 j = true
    · exact Or.inl (epsOfLeaves_of_accepted leaves ln h9 hall)
    · right
      obtain ⟨i, hi, hok, hfail⟩ := exists_first_rejected _ _ _ _ hall
      have hlt : i < epsColumns.length := by
        simp only [epsColumns, List.length_cons, List.length_nil]; omega
      exact ⟨_, eps_first_failure leaves ln i _ _ h9 (List.getElem?_eq_getElem hlt) hok hfail,
        Or.inr ⟨h9, rfl⟩⟩

/-- A remaddr line of at least 8 tokens whose 7 numeric columns accept their tokens is
decoded. -/
theorem remaddrOfLeaves_of_accepted (leaves : List String) (ln : Nat)
    (hlen : 8 ≤ leaves.length)
    (hall : ∀ j, j < 7 → accepted remaddrColumns leaves 1 j = true) :
    ∃ r, remaddrOfLeaves leaves ln = Except.ok r := by
  obtain ⟨v1, a1⟩ := intAt_of_accepted remaddrColumns leaves 1 0 _ _ (by rfl) (hall 0 (by omega))
  rw [show 1 + 0 = 1 from rfl] at a1
  obtain ⟨v2, a2⟩ := intAt_of_accepted remaddrColumns leaves 1 1 _ _ (by rfl) (hall 1 (by omega))
  rw [show 1 + 1 = 2 from rfl] at a2
  obtain ⟨v3, a3⟩ := uintAt_of_accepted remaddrColumns leaves 1 2 _ _ (by rfl) (hall 2 (by omega))
  rw [show 1 + 2 = 3 from rfl] at a3
  obtain ⟨v4, a4⟩ := intAt_of_accepted remaddrColumns leaves 1 3 _ _ (by rfl) (hall 3 (by omega))
  rw [show 1 + 3 = 4 from rfl] at a4
  obtain ⟨v5, a5⟩ := intAt_of_accepted remaddrColumns leaves 1 4 _ _ (by rfl) (hall 4 (by omega))
  rw [show 1 + 4 = 5 from rfl] at a5
  obtain ⟨v6, a6⟩ := intAt_of_accepted remaddrColumns leaves 1 5 _ _ (by rfl) (hall 5 (by omega))
  rw [show 1 + 5 = 6 from rfl] at a6
  obtain ⟨v7, a7⟩ := intAt_of_accepted remaddrColumns leaves 1 6 _ _ (by rfl) (hall 6 (by omega))
  rw [show 1 + 6 = 7 from rfl] at a7
  exact ⟨_, remaddrOfLeaves_of_facts leaves ln leaves[0] v1 v2 v3 v4 v5 v6 v7 hlen
    (List.getElem?_eq_getElem (by omega)) a1 a2 a3 a4 a5 a6 a7⟩

/-- The decoding of a remaddr line gives a record or one of the two errors of the shape. -/
theorem remaddrOfLeaves_total (leaves : List String) (ln : Nat) :
    (∃ r, remaddrOfLeaves leaves ln = Except.ok r) ∨
    (∃ e, remaddrOfLeaves leaves ln = Except.error (Fault.err e) ∧
      ((leaves.length < 8 ∧ e = errorfAtLine "" ln ErrInsufficientNumberOfRemaddrItems) ∨
        (8 ≤ leaves.length ∧ e.wrapped = ErrInvalidRemaddrFormat))) := by
  by_cases hlen : leaves.length < 8
  · right
    exact ⟨errorfAtLine "" ln ErrInsufficientNumberOfRemaddrItems, by simp only [remaddrOfLeaves, if_pos hlen],
      Or.inl ⟨hlen, rfl⟩⟩
  · have h8 : 8 ≤ leaves.length := by omega
    by_cases hall : ∀ j, j < 7 → accepted remaddrColumns leaves 1 j = true
    · exact Or.inl (remaddrOfLeaves_of_accepted leaves ln h8 hall)
    · right
      obtain ⟨i, hi, hok, hfail⟩ := exists_first_rejected _ _ _ _ hall
      have hlt : i < remaddrColumns.length := by
        simp only [remaddrColumns, List.length_cons, List.length_nil]; omega
      exact ⟨_, remaddr_first_failure leaves ln i _ _ h8 (List.getElem?_eq_getElem hlt) hok
        hfail, Or.inr ⟨h8, rfl⟩⟩

/-! ## The reading loop -/

theorem parseTable_data {α : Type} (body : String → Nat → Except Fault α)
    (input : List String) (noHeader : List Bool) :
    parseTable body input noHeader
      = scanLoop body (dataLines input noHeader) (firstDataLine noHeader) [] := by
  unfold parseTable dataLines firstDataLine
  cases skipsHeader noHeader <;> rfl

/-- The loop returns records exactly when every line is empty or decodes, and then it returns
the records of the non-empty lines in order. -/
theorem scanLoop_returned_ok {α : Type} (body : String → Nat → Except Fault α) :
    ∀ (lines : List String) (ln : Nat) (acc recs : List α),
      scanLoop body lines ln acc = Outcome.returned (some recs) none →
      passes body lines ln = true ∧ recs = acc ++ recordsOf body lines ln := by
  intro lines
  induction lines with
  | nil =>
    intro ln acc recs h
    simp only [scanLoop, Outcome.returned.injEq, Option.some.injEq, and_true] at h
    simp [passes, recordsOf, h]
  | cons text rest ih =>
    intro ln acc recs h
    by_cases ht : text = ""
    · rw [scanLoop, if_pos ht] at h
      obtain ⟨h1, h2⟩ := ih _ _ _ h
      subst ht
      simp [passes, recordsOf, h1, h2]
    · rw [scanLoop, if_neg ht] at h
      cases hb : body text ln with
      | error f =>
        rw [hb] at h
        cases f <;> simp at h
      | ok r =>
        rw [hb] at h
        obtain ⟨h1, h2⟩ := ih _ _ _ h
        simp only [passes, recordsOf, if_neg ht, hb, h1, h2, Except.isOk, Except.toBool,
          Bool.or_true, Bool.and_self, List.append_assoc, List.singleton_append, and_self]

/-- The loop never returns both records and an error, nor neither. -/
theorem scanLoop_returned_cases {α : Type} (body : String → Nat → Except Fault α) :
    ∀ (lines : List String) (ln : Nat) (acc : List α) (recs : Option (List α))
      (err : Option WrapError),
      scanLoop body lines ln acc = Outcome.returned recs err →
      (∃ rs, recs = some rs ∧ err = none) ∨ (∃ e, recs = none ∧ err = some e) := by
  intro lines
  induction lines with
  | nil =>
    intro ln acc recs err h
    simp only [scanLoop, Outcome.returned.injEq] at h
    exact Or.inl ⟨acc, h.1.symm, h.2.symm⟩
  | cons text rest ih =>
    intro ln acc recs err h
    by_cases ht : text = ""
    · rw [scanLoop, if_pos ht] at h
      exact ih _ _ _ _ h
    · rw [scanLoop, if_neg ht] at h
      cases hb : body text ln with
      | error f =>
        rw [hb] at h
        cases f with
        | indexOutOfRange => simp at h
        | outOfFuel => simp at h
        | err e =>
          simp only [Outcome.returned.injEq] at h
          exact Or.inr ⟨e, h.1.symm, h.2.symm⟩
      | ok r =>
        rw [hb] at h
        exact ih _ _ _ _ h

/-- When not every line is empty or decodes, there is a first line on which the body fails. -/
theorem exists_first_failing {α : Type} (body : String → Nat → Except Fault α) :
    ∀ (lines : List String) (ln : Nat), passes body lines ln = false →
      ∃ pre text post f, lines = pre ++ text :: post ∧ passes body pre ln = true ∧ text ≠ "" ∧
        body text (ln + pre.length) = Except.error f := by
  intro lines
  induction lines with
  | nil => intro ln h; simp [passes] at h
  | cons text rest ih =>
    intro ln h
    by_cases hhead : (text == "" || (body text ln).isOk) = true
    · have hrest : passes body rest (ln + 1) = false := by
        simp only [passes, hhead, Bool.true_and] at h
        exact h
      obtain ⟨pre, t, post, f, h1, h2, h3, h4⟩ := ih (ln + 1) hrest
      refine ⟨text :: pre, t, post, f, by rw [h1]; rfl, ?_, h3, ?_⟩
      · simp only [passes, hhead, h2, Bool.and_self]
      · have : ln + (text :: pre).length = ln + 1 + pre.length := by
          simp only [List.length_cons]; omega
        rw [this]; exact h4
    · simp only [Bool.or_eq_true, beq_iff_eq, not_or] at hhead
      cases hb : body text ln with
      | ok r => rw [hb] at hhead; simp [Except.isOk, Except.toBool] at hhead
      | error f =>
        exact ⟨[], text, rest, f, rfl, rfl, hhead.1, by simpa using hb⟩

/-- The records of lines that are empty or decode are, one for one and in order, the decodings
of the non-empty lines. -/
theorem recordsOf_forall₂ {α : Type} (body : String → Nat → Except Fault α) :
    ∀ (lines : List String) (ln : Nat), passes body lines ln = true →
      List.Forall₂ (fun text r => ∃ k, body text k = Except.ok r)
        (lines.filter (fun t => decide (t ≠ ""))) (recordsOf body lines ln) := by
  intro lines
  induction lines with
  | nil => intro ln _; simp [recordsOf]
  | cons text rest ih =>
    intro ln h
    simp only [passes, Bool.and_eq_true, Bool.or_eq_true, beq_iff_eq] at h
    obtain ⟨h1, h2⟩ := h
    by_cases ht : text = ""
    · have hfl : (text :: rest).filter (fun t => decide (t ≠ ""))
          = rest.filter (fun t => decide (t ≠ "")) := by
        simp [List.filter_cons, ht]
      rw [hfl, recordsOf, if_pos ht]
      exact ih _ h2
    · have hok : (body text ln).isOk = true := by
        rcases h1 with h1 | h1
        · exact absurd h1 ht
        · exact h1
      cases hb : body text ln with
      | error f => rw [hb] at hok; simp [Except.isOk, Except.toBool] at hok
      | ok r =>
        have hfl : (text :: rest).filter (fun t => decide (t ≠ ""))
            = text :: rest.filter (fun t => decide (t ≠ "")) := by
          simp [List.filter_cons, ht]
        rw [hfl, recordsOf, if_neg ht, hb]
        exact List.Forall₂.cons ⟨ln, hb⟩ (ih _ h2)

theorem passes_replicate_empty {α : Type} (body : String → Nat → Except Fault α) :
    ∀ (k ln : Nat), passes body (List.replicate k "") ln = true ∧
      recordsOf body (List.replicate k "") ln = [] := by
  intro k
  induction k with
  | zero => intro ln; simp [passes, recordsOf]
  | succ k ih =>
    intro ln
    simp only [List.replicate_succ, passes, recordsOf, beq_self_eq_true, Bool.true_or,
      Bool.true_and, if_true]
    exact ih (ln + 1)

/-! ## Claims on the reading loop and on the eps and remaddr lines -/

theorem leavesOf_of_trim_empty (text : String) (h : TrimSpace text = "") :
    leavesOf text = [""] := by
  unfold leavesOf
  rw [h]
  rfl

theorem assocOfLine_trim_ne (text : String) (k : Nat) (r : Assoc)
    (h : assocOfLine text k = Except.ok r) : TrimSpace text ≠ "" := by
  intro h0
  have hlen := (assocOfLeaves_ok _ _ _ h).1
  rw [leavesOf_of_trim_empty text h0] at hlen
  simp at hlen

theorem epsOfLine_trim_ne (text : String) (k : Nat) (r : EPS)
    (h : epsOfLine text k = Except.ok r) : TrimSpace text ≠ "" := by
  intro h0
  have hlen := (epsOfLeaves_ok _ _ _ h).1
  rw [leavesOf_of_trim_empty text h0] at hlen
  simp at hlen

theorem remaddrOfLine_trim_ne (text : String) (k : Nat) (r : Remaddr)
    (h : remaddrOfLine text k = Except.ok r) : TrimSpace text ≠ "" := by
  intro h0
  have hlen := (remaddrOfLeaves_ok _ _ _ h).1
  rw [leavesOf_of_trim_empty text h0] at hlen
  simp at hlen

/-- Among lines that are empty or decode, the lines that are empty after trimming are the
empty lines. -/
theorem filter_trim_eq {α : Type} (body : String → Nat → Except Fault α)
    (hbody : ∀ text k r, body text k = Except.ok r → TrimSpace text ≠ "") :
    ∀ (lines : List String) (ln : Nat), passes body lines ln = true →
      lines.filter (fun t => decide (TrimSpace t ≠ ""))
        = lines.filter (fun t => decide (t ≠ "")) := by
  intro lines
  induction lines with
  | nil => intro ln _; rfl
  | cons text rest ih =>
    intro ln h
    simp only [passes, Bool.and_eq_true, Bool.or_eq_true, beq_iff_eq] at h
    obtain ⟨h1, h2⟩ := h
    have hiff : (TrimSpace text ≠ "") ↔ (text ≠ "") := by
      constructor
      · intro hne h0
        apply hne
        rw [h0]
        rfl
      · intro hne
        rcases h1 with h1 | h1
        · exact absurd h1 hne
        · cases hb : body text ln with
          | error f => rw [hb] at h1; simp [Except.isOk, Except.toBool] at h1
          | ok r => exact hbody text ln r hb
    rw [List.filter_cons, List.filter_cons, ih _ h2]
    simp only [hiff]

/-- What a successful call of a parser returns. -/
theorem parseTable_returned_ok {α : Type} (body : String → Nat → Except Fault α)
    (hbody : ∀ text k r, body text k = Except.ok r → TrimSpace text ≠ "")
    (input : List String) (noHeader : List Bool) (recs : List α)
    (h : parseTable body input noHeader = Outcome.returned (some recs) none) :
    recs = recordsOf body (dataLines input noHeader) (firstDataLine noHeader) ∧
    List.Forall₂ (fun text r => ∃ k, body text k = Except.ok r)
      ((dataLines input noHeader).filter (fun t => decide (t ≠ ""))) recs ∧
    recs.length = ((dataLines input noHeader).filter (fun t => decide (t ≠ ""))).length ∧
    (dataLines input noHeader).filter (fun t => decide (TrimSpace t ≠ ""))
      = (dataLines input noHeader).filter (fun t => decide (t ≠ "")) := by
  rw [parseTable_data] at h
  obtain ⟨h1, h2⟩ := scanLoop_returned_ok body _ _ _ _ h
  rw [List.nil_append] at h2
  have h3 := recordsOf_forall₂ body _ _ h1
  rw [← h2] at h3
  exact ⟨h2, h3, h3.length_eq.symm, filter_trim_eq body hbody _ _ h1⟩

/-- Claim C11. Whenever one of the three parsers succeeds, the sequence it returns has one
record per non-empty data line (the lines after the header when one is expected), the i-th
record being the decoding of the i-th such line; on success the non-empty data lines are also
the data lines that are not empty after trimming. -/
theorem records_follow_lines (input : List String) (noHeader : List Bool) :
    (∀ recs, ParseAssocs input noHeader = Outcome.returned (some recs) none →
      recs = recordsOf assocOfLine (dataLines input noHeader) (firstDataLine noHeader) ∧
      List.Forall₂ (fun text r => ∃ k, assocOfLine text k = Except.ok r)
        ((dataLines input noHeader).filter (fun t => decide (t ≠ ""))) recs ∧
      recs.length = ((dataLines input noHeader).filter (fun t => decide (t ≠ ""))).length ∧
      (dataLines input noHeader).filter (fun t => decide (TrimSpace t ≠ ""))
        = (dataLines input noHeader).filter (fun t => decide (t ≠ ""))) ∧
    (∀ recs, ParseEPS input noHeader = Outcome.returned (some recs) none →
      recs = recordsOf epsOfLine (dataLines input noHeader) (firstDataLine noHeader) ∧
      List.Forall₂ (fun text r => ∃ k, epsOfLine text k = Except.ok r)
        ((dataLines input noHeader).filter (fun t => decide (t ≠ ""))) recs ∧
      recs.length = ((dataLines input noHeader).filter (fun t => decide (t ≠ ""))).length ∧
      (dataLines input noHeader).filter (fun t => decide (TrimSpace t ≠ ""))
        = (dataLines input noHeader).filter (fun t => decide (t ≠ ""))) ∧
    (∀ recs, ParseRemaddr input noHeader = Outcome.returned (some recs) none →
      recs = recordsOf remaddrOfLine (dataLines input noHeader) (firstDataLine noHeader) ∧
      List.Forall₂ (fun text r => ∃ k, remaddrOfLine text k = Except.ok r)
        ((dataLines input noHeader).filter (fun t => decide (t ≠ ""))) recs ∧
      recs.length = ((dataLines input noHeader).filter (fun t => decide (t ≠ ""))).length ∧
      (dataLines input noHeader).filter (fun t => decide (TrimSpace t ≠ ""))
        = (dataLines input noHeader).filter (fun t => decide (t ≠ ""))) :=
  ⟨fun recs h => parseTable_returned_ok assocOfLine assocOfLine_trim_ne input noHeader recs h,
   fun recs h => parseTable_returned_ok epsOfLine epsOfLine_trim_ne input noHeader recs h,
   fun recs h => parseTable_returned_ok remaddrOfLine remaddrOfLine_trim_ne input noHeader
     recs h⟩

/-- Witness for C11: the input of `TestParseRemaddr` gives its four records, one per data
line and in the order of the lines. -/
theorem records_follow_lines_witness :
    ParseRemaddr remaddrInput [] = Outcome.returned (some remaddrRecords) none ∧
    remaddrRecords = recordsOf remaddrOfLine (dataLines remaddrInput []) (firstDataLine []) ∧
    List.Forall₂ (fun text r => ∃ k, remaddrOfLine text k = Except.ok r)
      ((dataLines remaddrInput []).filter (fun t => decide (t ≠ ""))) remaddrRecords ∧
    remaddrRecords.length
      = ((dataLines remaddrInput []).filter (fun t => decide (t ≠ ""))).length ∧
    (dataLines remaddrInput []).filter (fun t => decide (TrimSpace t ≠ ""))
      = (dataLines remaddrInput []).filter (fun t => decide (t ≠ "")) :=
  ⟨by rfl, (records_follow_lines remaddrInput []).2.2 remaddrRecords (by rfl)⟩

/-- What a call of a parser does when some line fails, for a body that gives a record or an
error of the shape on every line. -/
theorem parseTable_first_error {α : Type} (body : String → Nat → Except Fault α)
    (htotal : ∀ text k, (∃ r, body text k = Except.ok r) ∨
      (∃ e, body text k = Except.error (Fault.err e)))
    (input : List String) (noHeader : List Bool)
    (hfail : passes body (dataLines input noHeader) (firstDataLine noHeader) = false) :
    ∃ pre text post e, dataLines input noHeader = pre ++ text :: post ∧
      passes body pre (firstDataLine noHeader) = true ∧ text ≠ "" ∧
      body text (firstDataLine noHeader + pre.length) = Except.error (Fault.err e) ∧
      parseTable body input noHeader = Outcome.returned none (some e) := by
  obtain ⟨pre, text, post, f, h1, h2, h3, h4⟩ := exists_first_failing body _ _ hfail
  rcases htotal text (firstDataLine noHeader + pre.length) with ⟨r, hr⟩ | ⟨e, he⟩
  · rw [hr] at h4; cases h4
  · refine ⟨pre, text, post, e, h1, h2, h3, he, ?_⟩
    rw [parseTable_data, h1, scanLoop_passes body pre _ _ _ h2, scanLoop, if_neg h3, he]

theorem assocOfLine_total (text : String) (k : Nat) :
    (∃ r, assocOfLine text k = Except.ok r) ∨
    (∃ e, assocOfLine text k = Except.error (Fault.err e)) := by
  rcases assocOfLeaves_total (leavesOf text) k with h | ⟨e, he, _⟩
  · exact Or.inl h
  · exact Or.inr ⟨e, he⟩

theorem epsOfLine_total (text : String) (k : Nat) :
    (∃ r, epsOfLine text k = Except.ok r) ∨
    (∃ e, epsOfLine text k = Except.error (Fault.err e)) := by
  rcases epsOfLeaves_total (leavesOf text) k with h | ⟨e, he, _⟩
  · exact Or.inl h
  · exact Or.inr ⟨e, he⟩

theorem remaddrOfLine_total (text : String) (k : Nat) :
    (∃ r, remaddrOfLine text k = Except.ok r) ∨
    (∃ e, remaddrOfLine text k = Except.error (Fault.err e)) := by
  rcases remaddrOfLeaves_total (leavesOf text) k with h | ⟨e, he, _⟩
  · exact Or.inl h
  · exact Or.inr ⟨e, he⟩

/-- Claim C12. In each of the three parsers: when some data line fails, the call returns
`nil` records and the error of the first failing line, however many lines before it were
empty or decoded; and whatever a call returns, it is either records without error or an
error without records. -/
theorem first_error_aborts (input : List String) (noHeader : List Bool) :
    ((passes assocOfLine (dataLines input noHeader) (firstDataLine noHeader) = false →
      ∃ pre text post e, dataLines input noHeader = pre ++ text :: post ∧
        passes assocOfLine pre (firstDataLine noHeader) = true ∧ text ≠ "" ∧
        assocOfLine text (firstDataLine noHeader + pre.length) = Except.error (Fault.err e) ∧
        ParseAssocs input noHeader = Outcome.returned none (some e)) ∧
     (∀ recs err, ParseAssocs input noHeader = Outcome.returned recs err →
        (∃ rs, recs = some rs ∧ err = none) ∨ (∃ e, recs = none ∧ err = some e))) ∧
    ((passes epsOfLine (dataLines input noHeader) (firstDataLine noHeader) = false →
      ∃ pre text post e, dataLines input noHeader = pre ++ text :: post ∧
        passes epsOfLine pre (firstDataLine noHeader) = true ∧ text ≠ "" ∧
        epsOfLine text (firstDataLine noHeader + pre.length) = Except.error (Fault.err e) ∧
        ParseEPS input noHeader = Outcome.returned none (some e)) ∧
     (∀ recs err, ParseEPS input noHeader = Outcome.returned recs err →
        (∃ rs, recs = some rs ∧ err = none) ∨ (∃ e, recs = none ∧ err = some e))) ∧
    ((passes remaddrOfLine (dataLines input noHeader) (firstDataLine noHeader) = false →
      ∃ pre text post e, dataLines input noHeader = pre ++ text :: post ∧
        passes remaddrOfLine pre (firstDataLine noHeader) = true ∧ text ≠ "" ∧
        remaddrOfLine text (firstDataLine noHeader + pre.length)
          = Except.error (Fault.err e) ∧
        ParseRemaddr input noHeader = Outcome.returned none (some e)) ∧
     (∀ recs err, ParseRemaddr input noHeader = Outcome.returned recs err →
        (∃ rs, recs = some rs ∧ err = none) ∨ (∃ e, recs = none ∧ err = some e))) := by
  refine ⟨⟨parseTable_first_error assocOfLine assocOfLine_total input noHeader, ?_⟩,
    ⟨parseTable_first_error epsOfLine epsOfLine_total input noHeader, ?_⟩,
    ⟨parseTable_first_error remaddrOfLine remaddrOfLine_total input noHeader, ?_⟩⟩
  · intro recs err h
    unfold ParseAssocs at h
    rw [parseTable_data] at h
    exact scanLoop_returned_cases _ _ _ _ _ _ h
  · intro recs err h
    unfold ParseEPS at h
    rw [parseTable_data] at h
    exact scanLoop_returned_cases _ _ _ _ _ _ h
  · intro recs err h
    unfold ParseRemaddr at h
    rw [parseTable_data] at h
    exact scanLoop_returned_cases _ _ _ _ _ _ h

/-- Witness for C12: after the header and the two data lines of `Test_ParseAssocs`, which
decode, a line of 26 tokens makes the call return no record and the error of line 4; a
malformed line after it plays no part. -/
theorem first_error_aborts_witness :
    passes assocOfLine
      (dataLines [assocsHeader, assocsLine1, assocsLine2, assocsLineShort, assocsLineBadSst] [])
      (firstDataLine []) = false ∧
    ParseAssocs [assocsHeader, assocsLine1, assocsLine2, assocsLineShort, assocsLineBadSst] []
      = Outcome.returned none (some (errorfAtLine "" 4 ErrInsufficientNumberOfAssocItems)) ∧
    ∃ pre text post e,
      dataLines [assocsHeader, assocsLine1, assocsLine2, assocsLineShort, assocsLineBadSst] []
        = pre ++ text :: post ∧
      passes assocOfLine pre (firstDataLine []) = true ∧ text ≠ "" ∧
      assocOfLine text (firstDataLine [] + pre.length) = Except.error (Fault.err e) ∧
      ParseAssocs [assocsHeader, assocsLine1, assocsLine2, assocsLineShort, assocsLineBadSst] []
        = Outcome.returned none (some e) :=
  ⟨by rfl, by rfl,
    (first_error_aborts [assocsHeader, assocsLine1, assocsLine2, assocsLineShort,
      assocsLineBadSst] []).1.1 (by rfl)⟩

/-- Claim C17. In each of the three parsers an input with no data line gives an empty, non-nil
sequence of records and no error: an input of `k` empty lines (also `k = 0`, the empty
input), and, when a header is expected, a header line followed by `k` empty lines. -/
theorem no_data_lines (noHeader : List Bool) (k : Nat) (hdr : String) :
    (ParseAssocs (List.replicate k "") noHeader = Outcome.returned (some []) none ∧
      (skipsHeader noHeader = true →
        ParseAssocs (hdr :: List.replicate k "") noHeader = Outcome.returned (some []) none)) ∧
    (ParseEPS (List.replicate k "") noHeader = Outcome.returned (some []) none ∧
      (skipsHeader noHeader = true →
        ParseEPS (hdr :: List.replicate k "") noHeader = Outcome.returned (some []) none)) ∧
    (ParseRemaddr (List.replicate k "") noHeader = Outcome.returned (some []) none ∧
      (skipsHeader noHeader = true →
        ParseRemaddr (hdr :: List.replicate k "") noHeader
          = Outcome.returned (some []) none)) := by
  have key : ∀ {α : Type} (body : String → Nat → Except Fault α),
      parseTable body (List.replicate k "") noHeader = Outcome.returned (some []) none ∧
      (skipsHeader noHeader = true →
        parseTable body (hdr :: List.replicate k "") noHeader
          = Outcome.returned (some []) none) := by
    intro α body
    have hloop : ∀ (m ln : Nat),
        scanLoop body (List.replicate m "") ln [] = Outcome.returned (some []) none := by
      intro m ln
      have h := scanLoop_passes body (List.replicate m "") [] ln []
        (passes_replicate_empty body m ln).1
      rw [List.append_nil, (passes_replicate_empty body m ln).2] at h
      rw [h]
      rfl
    constructor
    · unfold parseTable
      cases skipsHeader noHeader
      · exact hloop k 1
      · cases k with
        | zero => rfl
        | succ k =>
          simp only [if_true, List.replicate_succ, List.drop_succ_cons, List.drop_zero]
          exact hloop k 2
    · intro hsk
      unfold parseTable
      rw [hsk]
      exact hloop k 2
  exact ⟨key assocOfLine, key epsOfLine, key remaddrOfLine⟩

/-- Witness for C17: the assocs header line alone, and followed by two empty lines. -/
theorem no_data_lines_witness :
    skipsHeader [] = true ∧
    ParseAssocs (assocsHeader :: List.replicate 0 "") [] = Outcome.returned (some []) none ∧
    ParseAssocs (assocsHeader :: List.replicate 2 "") [] = Outcome.returned (some []) none ∧
    ParseEPS (List.replicate 0 "") [] = Outcome.returned (some []) none :=
  ⟨rfl, (no_data_lines [] 0 assocsHeader).1.2 rfl, (no_data_lines [] 2 assocsHeader).1.2 rfl,
    (no_data_lines [] 0 assocsHeader).2.1.1⟩

/-- A call without header on an input whose first line decodes, and which has no other
line, returns that record. -/
theorem parseTable_single {α : Type} (body : String → Nat → Except Fault α)
    (text : String) (rest : List Bool) (r : α) (hne : text ≠ "")
    (h : body text 1 = Except.ok r) :
    parseTable body [text] (true :: rest) = Outcome.returned (some [r]) none := by
  simp only [parseTable, skipsHeader, Bool.not_true, Bool.false_eq_true, if_false, scanLoop,
    if_neg hne, h, List.nil_append]

theorem ne_empty_of_tokens (text : String) (h : 2 ≤ (leavesOf text).length) : text ≠ "" := by
  intro h0
  rw [h0, leavesOf_empty] at h
  simp at h

/-- Claim C13. With `noHeader = true` the first input line is decoded as data and reported as
line 1: when it has enough tokens and its first numeric column does not convert,
`ParseAssocs` fails with `ASSOC at line #1`, `ParseEPS` with `ENDPT at line #1` and
`ParseRemaddr` with `ASSOC_ID at line #1`, each wrapping the invalid-format error of its
shape. -/
theorem first_line_is_line_one (text : String) (post : List String) (rest : List Bool) :
    (27 ≤ (leavesOf text).length → accepted assocHeadColumns (leavesOf text) 0 0 = false →
      ParseAssocs (text :: post) (true :: rest)
        = Outcome.returned none
            (some { msg := "ASSOC at line #1: invalid assocs format",
                    wrapped := ErrInvalidAssocsFormat })) ∧
    (9 ≤ (leavesOf text).length → accepted epsColumns (leavesOf text) 0 0 = false →
      ParseEPS (text :: post) (true :: rest)
        = Outcome.returned none
            (some { msg := "ENDPT at line #1: invalid EPS format",
                    wrapped := ErrInvalidEPSFormat })) ∧
    (8 ≤ (leavesOf text).length → accepted remaddrColumns (leavesOf text) 1 0 = false →
      ParseRemaddr (text :: post) (true :: rest)
        = Outcome.returned none
            (some { msg := "ASSOC_ID at line #1: invalid Remaddr format",
                    wrapped := ErrInvalidRemaddrFormat })) := by
  refine ⟨?_, ?_, ?_⟩
  · intro hlen hfail
    exact parseTable_line_error assocOfLine (true :: rest) [] [] post text _ rfl rfl
      (ne_empty_of_tokens text (by omega))
      (head_first_failure (leavesOf text) 1 0 "ASSOC" (Conv.uint 16) hlen rfl
        (fun j hj => absurd hj (Nat.not_lt_zero j)) hfail)
  · intro hlen hfail
    exact parseTable_line_error epsOfLine (true :: rest) [] [] post text _ rfl rfl
      (ne_empty_of_tokens text (by omega))
      (eps_first_failure (leavesOf text) 1 0 "ENDPT" (Conv.uint 16) hlen rfl
        (fun j hj => absurd hj (Nat.not_lt_zero j)) hfail)
  · intro hlen hfail
    exact parseTable_line_error remaddrOfLine (true :: rest) [] [] post text _ rfl rfl
      (ne_empty_of_tokens text (by omega))
      (remaddr_first_failure (leavesOf text) 1 0 "ASSOC_ID" (Conv.int 10) hlen rfl
        (fun j hj => absurd hj (Nat.not_lt_zero j)) hfail)

/-- Witness for C13: each table's own header line, fed as the only line with
`noHeader = true` (`Test_ParseInvalidAssocs`, `TestParseEPS_WithInvalidInput`,
`TestParseRemaddr_WithInvalidInput`). -/
theorem first_line_is_line_one_witness :
    ParseAssocs (assocsHeader :: []) (true :: [])
      = Outcome.returned none
          (some { msg := "ASSOC at line #1: invalid assocs format",
                  wrapped := ErrInvalidAssocsFormat }) ∧
    ParseEPS (epsHeader :: []) (true :: [])
      = Outcome.returned none
          (some { msg := "ENDPT at line #1: invalid EPS format",
                  wrapped := ErrInvalidEPSFormat }) ∧
    ParseRemaddr (remaddrHeader :: []) (true :: [])
      = Outcome.returned none
          (some { msg := "ASSOC_ID at line #1: invalid Remaddr format",
                  wrapped := ErrInvalidRemaddrFormat }) ∧
    Contains "ASSOC at line #1: invalid assocs format" "ASSOC" :=
  ⟨(first_line_is_line_one assocsHeader [] []).1 (by decide) (by rfl),
   (first_line_is_line_one epsHeader [] []).2.1 (by decide) (by rfl),
   (first_line_is_line_one remaddrHeader [] []).2.2 (by decide) (by rfl),
   by decide⟩

/-- Claim C15. An eps line of `n ≥ 9` tokens whose first 8 tokens convert is decoded by
`ParseEPS`: the 8 numeric fields come from the tokens 0..7 and `LAddrs` is the list of the
tokens `8 .. n - 1`, in order and unchanged, so it is non-empty and has `n - 8` elements. -/
theorem eps_line_decodes (text : String) (lineNum : Nat) (rest : List Bool)
    (v0 v1 : Nat) (v2 v3 v4 v5 : Int) (v6 v7 : Nat)
    (hlen : 9 ≤ (leavesOf text).length)
    (h0 : UintAt (leavesOf text) 0 16 v0) (h1 : UintAt (leavesOf text) 1 16 v1)
    (h2 : IntAt (leavesOf text) 2 10 v2) (h3 : IntAt (leavesOf text) 3 10 v3)
    (h4 : IntAt (leavesOf text) 4 10 v4) (h5 : IntAt (leavesOf text) 5 10 v5)
    (h6 : UintAt (leavesOf text) 6 10 v6) (h7 : UintAt (leavesOf text) 7 10 v7) :
    epsOfLine text lineNum = Except.ok
      { Endpt := v0, Sock := v1, Sty := v2, Sst := v3, Hbkt := v4, LPort := v5, Uid := v6,
        Inode := v7, LAddrs := (leavesOf text).drop 8 } ∧
    ParseEPS [text] (true :: rest) = Outcome.returned (some
      [{ Endpt := v0, Sock := v1, Sty := v2, Sst := v3, Hbkt := v4, LPort := v5, Uid := v6,
         Inode := v7, LAddrs := (leavesOf text).drop 8 }]) none ∧
    (leavesOf text).drop 8 ≠ [] ∧
    ((leavesOf text).drop 8).length = (leavesOf text).length - 8 ∧
    (∀ i, ((leavesOf text).drop 8)[i]? = (leavesOf text)[8 + i]?) := by
  have hb := epsOfLeaves_of_facts (leavesOf text) lineNum v0 v1 v2 v3 v4 v5 v6 v7 hlen
    h0 h1 h2 h3 h4 h5 h6 h7
  have hb1 := epsOfLeaves_of_facts (leavesOf text) 1 v0 v1 v2 v3 v4 v5 v6 v7 hlen
    h0 h1 h2 h3 h4 h5 h6 h7
  refine ⟨hb, parseTable_single epsOfLine text rest _ (ne_empty_of_tokens text (by omega)) hb1,
    ?_, List.length_drop _ _, fun i => List.getElem?_drop _ _ _⟩
  intro hnil
  have := congrArg List.length hnil
  rw [List.length_drop, List.length_nil] at this
  omega

/-- Witness for C15: the first data line of `TestParseEPS_MultipleLAddress`. -/
theorem eps_line_decodes_witness :
    epsOfLine epsLineMultiple 2 = Except.ok
      { Endpt := 0, Sock := 0, Sty := 2, Sst := 10, Hbkt := 24, LPort := 12345, Uid := 0,
        Inode := 227065, LAddrs := (leavesOf epsLineMultiple).drop 8 } ∧
    ParseEPS [epsLineMultiple] (true :: []) = Outcome.returned (some
      [{ Endpt := 0, Sock := 0, Sty := 2, Sst := 10, Hbkt := 24, LPort := 12345, Uid := 0,
         Inode := 227065, LAddrs := (leavesOf epsLineMultiple).drop 8 }]) none ∧
    (leavesOf epsLineMultiple).drop 8 ≠ [] ∧
    ((leavesOf epsLineMultiple).drop 8).length = (leavesOf epsLineMultiple).length - 8 ∧
    (∀ i, ((leavesOf epsLineMultiple).drop 8)[i]? = (leavesOf epsLineMultiple)[8 + i]?) :=
  eps_line_decodes epsLineMultiple 2 [] 0 0 2 10 24 12345 0 227065 (by decide)
    ⟨"0", by rfl, by rfl⟩ ⟨"0", by rfl, by rfl⟩ ⟨"2", by rfl, by rfl⟩ ⟨"10", by rfl, by rfl⟩
    ⟨"24", by rfl, by rfl⟩ ⟨"12345", by rfl, by rfl⟩ ⟨"0", by rfl, by rfl⟩
    ⟨"227065", by rfl, by rfl⟩

/-- Claim C16. A remaddr line of at least 8 tokens whose tokens 1..7 convert is decoded by
`ParseRemaddr`: `Addr` is token 0 unchanged, whatever string it is, and the seven numeric
fields are the base-10 values of the tokens 1..7, in that order. -/
theorem remaddr_line_decodes (text : String) (lineNum : Nat) (rest : List Bool)
    (t0 : String) (v1 v2 : Int) (v3 : Nat) (v4 v5 v6 v7 : Int)
    (hlen : 8 ≤ (leavesOf text).length) (h0 : (leavesOf text)[0]? = some t0)
    (h1 : IntAt (leavesOf text) 1 10 v1) (h2 : IntAt (leavesOf text) 2 10 v2)
    (h3 : UintAt (leavesOf text) 3 10 v3) (h4 : IntAt (leavesOf text) 4 10 v4)
    (h5 : IntAt (leavesOf text) 5 10 v5) (h6 : IntAt (leavesOf text) 6 10 v6)
    (h7 : IntAt (leavesOf text) 7 10 v7) :
    remaddrOfLine text lineNum = Except.ok
      { Addr := t0, AssocID := v1, HbAct := v2, RTO := v3, MaxPathRtx := v4, RemAddrRtx := v5,
        Start := v6, State := v7 } ∧
    ParseRemaddr [text] (true :: rest) = Outcome.returned (some
      [{ Addr := t0, AssocID := v1, HbAct := v2, RTO := v3, MaxPathRtx := v4,
         RemAddrRtx := v5, Start := v6, State := v7 }]) none := by
  have hb := remaddrOfLeaves_of_facts (leavesOf text) lineNum t0 v1 v2 v3 v4 v5 v6 v7 hlen
    h0 h1 h2 h3 h4 h5 h6 h7
  have hb1 := remaddrOfLeaves_of_facts (leavesOf text) 1 t0 v1 v2 v3 v4 v5 v6 v7 hlen
    h0 h1 h2 h3 h4 h5 h6 h7
  exact ⟨hb, parseTable_single remaddrOfLine text rest _
    (ne_empty_of_tokens text (by omega)) hb1⟩

/-- Witness for C16: the line `127.0.0.20  69 1 3000 5 0 0 3` of `TestParseRemaddr`. -/
theorem remaddr_line_decodes_witness :
    remaddrOfLine "127.0.0.20  69 1 3000 5 0 0 3" 3 = Except.ok
      { Addr := "127.0.0.20", AssocID := 69, HbAct := 1, RTO := 3000, MaxPathRtx := 5,
        RemAddrRtx := 0, Start := 0, State := 3 } ∧
    ParseRemaddr ["127.0.0.20  69 1 3000 5 0 0 3"] (true :: []) = Outcome.returned (some
      [{ Addr := "127.0.0.20", AssocID := 69, HbAct := 1, RTO := 3000, MaxPathRtx := 5,
         RemAddrRtx := 0, Start := 0, State := 3 }]) none :=
  remaddr_line_decodes "127.0.0.20  69 1 3000 5 0 0 3" 3 [] "127.0.0.20" 69 1 3000 5 0 0 3
    (by decide) (by rfl) ⟨"69", by rfl, by rfl⟩ ⟨"1", by rfl, by rfl⟩ ⟨"3000", by rfl, by rfl⟩
    ⟨"5", by rfl, by rfl⟩ ⟨"0", by rfl, by rfl⟩ ⟨"0", by rfl, by rfl⟩ ⟨"3", by rfl, by rfl⟩

/-- Claim C20. `ParseAssocs` never decodes a line whose first separator lies inside the last
11 tokens. For a line of `n ≥ 27` tokens whose first `<->` at index 13 or later is at an
index `s ≥ n - 11`: the body gives no record, and the call returns `nil` and an error that
wraps `ErrInvalidAssocsFormat`; when the 13 leading columns and the trailing columns before
position `s` convert, it is the error of the trailing column that reads the separator. -/
theorem assocs_separator_in_tail (noHeader : List Bool) (hdr pre post : List String)
    (text : String) (s : Nat)
    (hhdr : hdr.length = if skipsHeader noHeader = true then 1 else 0)
    (hpre : passes assocOfLine pre (hdr.length + 1) = true)
    (hlen : 27 ≤ (leavesOf text).length) (hs13 : 13 ≤ s)
    (hsep : (leavesOf text)[s]? = some "<->")
    (hmin : ∀ j, 13 ≤ j → j < s → (leavesOf text)[j]? ≠ some "<->")
    (hs : (leavesOf text).length - 11 ≤ s) :
    (∀ k r, assocOfLine text k ≠ Except.ok r) ∧
    ∃ e, ParseAssocs (hdr ++ pre ++ text :: post) noHeader = Outcome.returned none (some e) ∧
      e.Is ErrInvalidAssocsFormat ∧
      (∀ name c, assocTailColumns[s - ((leavesOf text).length - 11)]? = some (name, c) →
        (∀ j, j < 13 → accepted assocHeadColumns (leavesOf text) 0 j = true) →
        (∀ j, j < s - ((leavesOf text).length - 11) →
          accepted assocTailColumns (leavesOf text) ((leavesOf text).length - 11) j = true) →
        e = errorfAtLine (name ++ " ") (hdr.length + pre.length + 1)
          ErrInvalidAssocsFormat) := by
  have hnot : ∀ k r, assocOfLine text k ≠ Except.ok r := by
    intro k r hok
    obtain ⟨_, _, _, s2, h1, h2, h3, h4, _, _⟩ := assocOfLeaves_ok (leavesOf text) k r hok
    have : s2 = s := by
      by_contra hne
      rcases Nat.lt_or_gt_of_ne hne with hlt | hgt
      · exact hmin s2 h1 hlt h3
      · exact h4 s hs13 hgt hsep
    omega
  refine ⟨hnot, ?_⟩
  have hne : text ≠ "" := ne_empty_of_tokens text (by omega)
  rcases assocOfLeaves_total (leavesOf text) (hdr.length + pre.length + 1) with
    ⟨r, hr⟩ | ⟨e, he, hkind⟩
  · exact absurd hr (hnot _ r)
  · have hw : e.wrapped = ErrInvalidAssocsFormat := by
      rcases hkind with ⟨hshort, _⟩ | ⟨_, hw⟩
      · omega
      · exact hw
    refine ⟨e, parseTable_line_error assocOfLine noHeader hdr pre post text e hhdr hpre hne he,
      hw, ?_⟩
    intro name c hcol hhead hok
    have herr := tail_first_failure (leavesOf text) (hdr.length + pre.length + 1)
      (s - ((leavesOf text).length - 11)) name c hlen hcol hhead ⟨s, hs13, hsep⟩ hok
      (tail_rejects_sep (leavesOf text) s hs hsep)
    have heq : assocOfLine text (hdr.length + pre.length + 1)
        = Except.error (Fault.err (errorfAtLine (name ++ " ") (hdr.length + pre.length + 1)
            ErrInvalidAssocsFormat)) := herr
    have he2 : assocOfLine text (hdr.length + pre.length + 1) = Except.error (Fault.err e) := he
    rw [he2] at heq
    simpa using heq

/-! ## Number conversions -/

theorem digitVal_lt (c d : Nat) (h : digitVal c = some d) : d < 36 := by
  unfold digitVal at h
  split at h
  · simp only [Option.some.injEq] at h; omega
  · split at h
    · simp only [Option.some.injEq] at h; omega
    · cases h

theorem digitsValue_cons (base a : Nat) (c : Char) (cs : List Char) :
    digitsValue base a (c :: cs)
      = digitsValue base (a * base + (digitVal c.toNat).getD 0) cs := rfl

theorem digitsValue_ge (base : Nat) (hb : 1 ≤ base) :
    ∀ (ds : List Char) (a : Nat), a ≤ digitsValue base a ds := by
  intro ds
  induction ds with
  | nil => intro a; exact le_refl _
  | cons c cs ih =>
    intro a
    have h1 : a ≤ a * base + (digitVal c.toNat).getD 0 := by
      have : a ≤ a * base := Nat.le_mul_of_pos_right a hb
      omega
    exact le_trans h1 (ih _)

/-- On a string of digits of the base, the digit loop of `strconv.ParseUint` computes the
value when it is below `2^64` and reports a range error otherwise. -/
theorem parseUintLoop_digits (base : Nat) (hb : 2 ≤ base) :
    ∀ (ds : List Char) (a : Nat),
      (∀ c ∈ ds, ∃ d, digitVal c.toNat = some d ∧ d < base) → a < 2 ^ 64 →
      parseUintLoop base ((2 ^ 64 - 1) / base + 1) (2 ^ 64 - 1) ds a
        = if digitsValue base a ds < 2 ^ 64 then Except.ok (digitsValue base a ds)
          else Except.error NumError.ErrRange := by
  intro ds
  induction ds with
  | nil =>
    intro a _ ha
    simp only [parseUintLoop, digitsValue, List.foldl_nil, if_pos ha]
  | cons c cs ih =>
    intro a hds ha
    obtain ⟨d, hd, hdb⟩ := hds c (List.mem_cons_self _ _)
    have hd36 := digitVal_lt _ _ hd
    have hcs : ∀ c ∈ cs, ∃ d, digitVal c.toNat = some d ∧ d < base :=
      fun c hc => hds c (List.mem_cons_of_mem _ hc)
    have hval : digitsValue base a (c :: cs) = digitsValue base (a * base + d) cs := by
      rw [digitsValue_cons, hd]; rfl
    have hmono := digitsValue_ge base (by omega) cs (a * base + d)
    have hcut : a ≥ (2 ^ 64 - 1) / base + 1 ↔ 2 ^ 64 ≤ a * base := by
      rw [ge_iff_le, Nat.succ_le_iff, Nat.div_lt_iff_lt_mul (by omega)]
      omega
    rw [parseUintLoop, hd, hval]
    simp only
    rw [if_neg (by omega)]
    by_cases hc : a ≥ (2 ^ 64 - 1) / base + 1
    · rw [if_pos hc]
      have := hcut.mp hc
      rw [if_neg (by omega)]
    · rw [if_neg hc]
      have hm : a * base < 2 ^ 64 := by
        by_contra hcon
        exact hc (hcut.mpr (by omega))
      generalize a * base = m at hm hmono ⊢
      by_cases hov : m + d < 2 ^ 64
      · have e1 : m % 2 ^ 64 = m := Nat.mod_eq_of_lt hm
        have e2 : (m + d) % 2 ^ 64 = m + d := Nat.mod_eq_of_lt hov
        rw [e1, e2, if_neg (by omega)]
        exact ih (m + d) hcs hov
      · have e1 : m % 2 ^ 64 = m := Nat.mod_eq_of_lt hm
        have e2 : (m + d) % 2 ^ 64 = m + d - 2 ^ 64 := by
          rw [Nat.mod_eq_sub_mod (by omega)]
          exact Nat.mod_eq_of_lt (by omega)
        rw [e1, e2, if_pos (Or.inl (by omega)), if_neg (by omega)]

/-- What `strconv.ParseUint` gives on a string of digits of the base. -/
theorem ParseUint_digits (base : Nat) (hb : 2 ≤ base) (t : String) (h : IsDigits base t.data) :
    ParseUint t base 64
      = if digitsValue base 0 t.data < 2 ^ 64 then Except.ok (digitsValue base 0 t.data)
        else Except.error NumError.ErrRange := by
  have hne : t ≠ "" := by
    intro h0
    apply h.1
    rw [h0]
  unfold ParseUint
  rw [if_neg hne]
  exact parseUintLoop_digits base hb t.data 0 h.2 (by norm_num)

/-- A token that starts with `-` is rejected by `strconv.ParseUint`, in every base. -/
theorem ParseUint_minus (base : Nat) (cs : List Char) :
    ParseUint (String.mk ('-' :: cs)) base 64 = Except.error NumError.ErrSyntax := by
  have hne : String.mk ('-' :: cs) ≠ "" := by
    intro h
    have := congrArg String.data h
    simp at this
  unfold ParseUint
  rw [if_neg hne]
  rfl

/-- What `strconv.ParseInt` gives on a string of digits of the base. -/
theorem ParseInt_digits (base : Nat) (hb : 2 ≤ base) (t : String) (h : IsDigits base t.data) :
    ParseInt t base 64
      = if digitsValue base 0 t.data < 2 ^ 63 then Except.ok (digitsValue base 0 t.data : Int)
        else Except.error NumError.ErrRange := by
  obtain ⟨c, cs, hcs⟩ : ∃ c cs, t.data = c :: cs := by
    cases hd : t.data with
    | nil => exact absurd hd h.1
    | cons c cs => exact ⟨c, cs, rfl⟩
  obtain ⟨d, hd, _⟩ := h.2 c (by rw [hcs]; exact List.mem_cons_self _ _)
  have hplus : (c == '+') = false := by
    cases hq : c == '+' with
    | false => rfl
    | true =>
      have : c = '+' := by simpa using hq
      subst this
      have h0 : digitVal '+'.toNat = none := by decide
      rw [h0] at hd
      cases hd
  have hminus : (c == '-') = false := by
    cases hq : c == '-' with
    | false => rfl
    | true =>
      have : c = '-' := by simpa using hq
      subst this
      have h0 : digitVal '-'.toNat = none := by decide
      rw [h0] at hd
      cases hd
  have hPU := ParseUint_digits base hb t h
  generalize digitsValue base 0 t.data = v at hPU ⊢
  unfold ParseInt
  rw [hcs]
  simp only [hplus, hminus, Bool.false_eq_true, or_self, if_false, Bool.not_false, true_and,
    false_and]
  rw [hPU]
  by_cases hv : v < 2 ^ 64
  · rw [if_pos hv]
    simp only
    by_cases hv2 : v < 2 ^ 63
    · rw [if_neg (by omega), if_pos hv2]
    · rw [if_pos (by omega), if_neg hv2]
  · rw [if_neg hv]
    simp only
    rw [if_pos (by norm_num), if_neg (by omega)]

/-- What `strconv.ParseInt` gives on a `-` followed by a string of digits of the base. -/
theorem ParseInt_neg_digits (base : Nat) (hb : 2 ≤ base) (ds : List Char)
    (h : IsDigits base ds) :
    ParseInt (String.mk ('-' :: ds)) base 64
      = if digitsValue base 0 ds ≤ 2 ^ 63 then Except.ok (-(digitsValue base 0 ds : Int))
        else Except.error NumError.ErrRange := by
  have hPU := ParseUint_digits base hb (String.mk ds) h
  simp only at hPU
  generalize digitsValue base 0 ds = v at hPU ⊢
  unfold ParseInt
  simp only [beq_self_eq_true, or_true, if_true, Bool.not_true, Bool.false_eq_true, false_and,
    if_false, true_and]
  rw [hPU]
  by_cases hv : v < 2 ^ 64
  · rw [if_pos hv]
    simp only
    by_cases hv2 : v ≤ 2 ^ 63
    · rw [if_neg (by omega), if_pos hv2]
    · rw [if_pos (by omega), if_neg hv2]
  · rw [if_neg hv]
    simp only
    rw [if_pos (by norm_num), if_neg (by omega)]

theorem digitVal_digitChar (d : Nat) (h : d < 16) :
    digitVal (Nat.digitChar d).toNat = some d := by
  interval_cases d <;> rfl

theorem toDigitsCore_value (base : Nat) (hb : 2 ≤ base) (hb16 : base ≤ 16) :
    ∀ (fuel n : Nat) (ds : List Char), n < fuel →
      digitsValue base 0 (Nat.toDigitsCore base fuel n ds) = digitsValue base n ds := by
  intro fuel
  induction fuel with
  | zero => intro n ds h; omega
  | succ fuel ih =>
    intro n ds h
    have hmod : n % base < base := Nat.mod_lt _ (by omega)
    have hdv := digitVal_digitChar (n % base) (by omega)
    unfold Nat.toDigitsCore
    simp only
    by_cases hq : n / base = 0
    · rw [if_pos hq, digitsValue_cons, hdv]
      have : n % base = n := by
        have := Nat.div_add_mod n base
        rw [hq] at this
        omega
      simp [this]
    · rw [if_neg hq]
      have hpos : 0 < n := by
        by_contra hcon
        have : n = 0 := by omega
        exact hq (by rw [this]; exact Nat.zero_div _)
      have hlt : n / base < n := Nat.div_lt_self hpos (by omega)
      rw [ih (n / base) _ (by omega), digitsValue_cons, hdv]
      have := Nat.div_add_mod n base
      have hcomm : n / base * base = base * (n / base) := Nat.mul_comm _ _
      simp only [Option.getD_some]
      rw [hcomm, this]

theorem toDigitsCore_digits (base : Nat) (hb : 2 ≤ base) (hb16 : base ≤ 16) :
    ∀ (fuel n : Nat) (ds : List Char), ∀ c ∈ Nat.toDigitsCore base fuel n ds,
      c ∈ ds ∨ ∃ d, digitVal c.toNat = some d ∧ d < base := by
  intro fuel
  induction fuel with
  | zero => intro n ds c hc; exact Or.inl hc
  | succ fuel ih =>
    intro n ds c hc
    have hmod : n % base < base := Nat.mod_lt _ (by omega)
    have hdv := digitVal_digitChar (n % base) (by omega)
    unfold Nat.toDigitsCore at hc
    simp only at hc
    by_cases hq : n / base = 0
    · rw [if_pos hq] at hc
      rcases List.mem_cons.mp hc with h1 | h1
      · exact Or.inr ⟨n % base, by rw [h1]; exact hdv, hmod⟩
      · exact Or.inl h1
    · rw [if_neg hq] at hc
      rcases ih _ _ c hc with h1 | h1
      · rcases List.mem_cons.mp h1 with h2 | h2
        · exact Or.inr ⟨n % base, by rw [h2]; exact hdv, hmod⟩
        · exact Or.inl h2
      · exact Or.inr h1

theorem toDigitsCore_ne_nil (base : Nat) :
    ∀ (fuel n : Nat) (ds : List Char), 0 < fuel → Nat.toDigitsCore base fuel n ds ≠ [] := by
  intro fuel
  induction fuel with
  | zero => intro n ds h; omega
  | succ fuel ih =>
    intro n ds _
    unfold Nat.toDigitsCore
    simp only
    by_cases hq : n / base = 0
    · rw [if_pos hq]; exact List.cons_ne_nil _ _
    · rw [if_neg hq]
      cases fuel with
      | zero => unfold Nat.toDigitsCore; exact List.cons_ne_nil _ _
      | succ f => exact ih _ _ (by omega)

/-- The digits written by `Nat.toDigits` are digits of the base, and their value is the
number. -/
theorem toDigits_spec (base : Nat) (hb : 2 ≤ base) (hb16 : base ≤ 16) (v : Nat) :
    IsDigits base (Nat.toDigits base v) ∧ digitsValue base 0 (Nat.toDigits base v) = v := by
  refine ⟨⟨toDigitsCore_ne_nil base _ _ _ (by omega), ?_⟩, ?_⟩
  · intro c hc
    rcases toDigitsCore_digits base hb hb16 _ _ _ c hc with h | h
    · cases h
    · exact h
  · unfold Nat.toDigits
    rw [toDigitsCore_value base hb hb16 _ _ _ (by omega)]
    rfl

/-- Go `strconv.ParseUint` reads back what `strconv.FormatUint` wrote. -/
theorem ParseUint_FormatUint (base : Nat) (hb : 2 ≤ base) (hb16 : base ≤ 16) (v : Nat)
    (hv : v < 2 ^ 64) : ParseUint (FormatUint v base) base 64 = Except.ok v := by
  obtain ⟨h1, h2⟩ := toDigits_spec base hb hb16 v
  have := ParseUint_digits base hb (FormatUint v base) h1
  rw [this]
  simp only [FormatUint, h2, if_pos hv]

/-- Go `strconv.ParseInt` reads back what `strconv.FormatInt` wrote. -/
theorem ParseInt_FormatInt (base : Nat) (hb : 2 ≤ base) (hb16 : base ≤ 16) (v : Int)
    (hlo : -(2 ^ 63 : Int) ≤ v) (hhi : v < 2 ^ 63) :
    ParseInt (FormatInt v base) base 64 = Except.ok v := by
  unfold FormatInt
  by_cases hneg : v < 0
  · rw [if_pos hneg]
    obtain ⟨h1, h2⟩ := toDigits_spec base hb hb16 v.natAbs
    rw [ParseInt_neg_digits base hb _ h1, h2, if_pos (by omega)]
    congr 1
    omega
  · rw [if_neg hneg]
    obtain ⟨h1, h2⟩ := toDigits_spec base hb hb16 v.toNat
    have := ParseInt_digits base hb (String.mk (Nat.toDigits base v.toNat)) h1
    rw [this]
    simp only [h2]
    rw [if_pos (by omega)]
    congr 1
    omega

/-! ## Tokenisation of a written line -/

/-- Reading a token without white space moves it, reversed, onto the piece in progress. -/
theorem splitRuns_token (rest : List Char) :
    ∀ (t : List Char) (inRun : Bool) (cur : List Char), t ≠ [] →
      (∀ c ∈ t, reSpace c = false) →
      splitRuns (t ++ rest) inRun cur = splitRuns rest false (t.reverse ++ cur) := by
  intro t
  induction t with
  | nil => intro _ _ h; exact absurd rfl h
  | cons c cs ih =>
    intro inRun cur _ hcs
    have hc : reSpace c = false := hcs c (List.mem_cons_self _ _)
    rw [List.cons_append, splitRuns, hc]
    simp only [Bool.false_eq_true, if_false]
    cases cs with
    | nil => simp
    | cons c2 cs2 =>
      rw [ih false (c :: cur) (List.cons_ne_nil _ _)
        (fun x hx => hcs x (List.mem_cons_of_mem _ hx))]
      simp

/-- Splitting the join of non-empty tokens without white space gives the tokens back. -/
theorem splitRuns_intercalate :
    ∀ (tokens : List (List Char)) (inRun : Bool), tokens ≠ [] →
      (∀ t ∈ tokens, t ≠ [] ∧ ∀ c ∈ t, reSpace c = false) →
      splitRuns (List.intercalate [' '] tokens) inRun [] = tokens.map String.mk := by
  intro tokens
  induction tokens with
  | nil => intro _ h; exact absurd rfl h
  | cons t ts ih =>
    intro inRun _ hall
    obtain ⟨htne, htc⟩ := hall t (List.mem_cons_self _ _)
    cases ts with
    | nil =>
      have : List.intercalate [' '] [t] = t ++ [] := by simp [List.intercalate]
      rw [this, splitRuns_token [] t inRun [] htne htc]
      simp [splitRuns]
    | cons t2 ts2 =>
      have hi : List.intercalate [' '] (t :: t2 :: ts2)
          = t ++ (' ' :: List.intercalate [' '] (t2 :: ts2)) := by
        simp [List.intercalate]
      have hsp : reSpace ' ' = true := by decide
      rw [hi, splitRuns_token _ t inRun [] htne htc, splitRuns, hsp]
      simp only [if_true, Bool.false_eq_true, if_false, List.append_nil, List.reverse_reverse]
      rw [ih true (List.cons_ne_nil _ _) (fun x hx => hall x (List.mem_cons_of_mem _ hx))]
      simp

theorem dropWhile_eq_self_of_head {α : Type} (p : α → Bool) (l : List α)
    (h : ∀ a, l.head? = some a → p a = false) : l.dropWhile p = l := by
  cases l with
  | nil => rfl
  | cons a as =>
    have := h a rfl
    simp [List.dropWhile, this]

/-- Go `strings.TrimSpace` leaves a string alone when neither its first nor its last character
is white space. -/
theorem TrimSpace_eq_self (s : String)
    (h1 : ∀ a, s.data.head? = some a → isSpace a = false)
    (h2 : ∀ a, s.data.getLast? = some a → isSpace a = false) : TrimSpace s = s := by
  unfold TrimSpace
  rw [dropWhile_eq_self_of_head isSpace s.data h1,
    dropWhile_eq_self_of_head isSpace s.data.reverse (by rw [List.head?_reverse]; exact h2),
    List.reverse_reverse]

/-- The tokens of a line made by joining, with single spaces, non-empty tokens without
white space of the class `\s`, when the line neither starts nor ends with white space. -/
theorem leavesOf_joinSpaces (tokens : List String) (hne : tokens ≠ [])
    (hall : ∀ t ∈ tokens, t.data ≠ [] ∧ ∀ c ∈ t.data, reSpace c = false)
    (h1 : ∀ a, (joinSpaces tokens).data.head? = some a → isSpace a = false)
    (h2 : ∀ a, (joinSpaces tokens).data.getLast? = some a → isSpace a = false) :
    leavesOf (joinSpaces tokens) = tokens := by
  unfold leavesOf
  rw [TrimSpace_eq_self _ h1 h2]
  unfold spacesReSplit joinSpaces
  simp only
  rw [splitRuns_intercalate (tokens.map String.data) false (by simpa using hne)]
  · rw [List.map_map]
    have : (String.mk ∘ String.data) = id := by
      funext s
      rfl
    rw [this, List.map_id]
  · intro t ht
    obtain ⟨s, hs, rfl⟩ := List.mem_map.mp ht
    exact hall s hs

theorem splitRuns_ne_nil : ∀ (cs : List Char) (inRun : Bool) (cur : List Char),
    splitRuns cs inRun cur ≠ [] := by
  intro cs
  induction cs with
  | nil => intro inRun cur; simp [splitRuns]
  | cons c cs ih =>
    intro inRun cur
    rw [splitRuns]
    split
    · split
      · exact ih _ _
      · exact List.cons_ne_nil _ _
    · exact ih _ _

/-- No piece of a split contains white space of the class `\s`. -/
theorem splitRuns_no_space : ∀ (cs : List Char) (inRun : Bool) (cur : List Char),
    (∀ c ∈ cur, reSpace c = false) →
    ∀ t ∈ splitRuns cs inRun cur, ∀ c ∈ t.data, reSpace c = false := by
  intro cs
  induction cs with
  | nil =>
    intro inRun cur hcur t ht c hc
    simp only [splitRuns, List.mem_singleton] at ht
    subst ht
    exact hcur c (by simpa using hc)
  | cons x cs ih =>
    intro inRun cur hcur t ht
    rw [splitRuns] at ht
    by_cases hx : reSpace x = true
    · rw [if_pos hx] at ht
      by_cases hr : inRun = true
      · rw [if_pos hr] at ht
        exact ih _ _ hcur t ht
      · rw [if_neg hr] at ht
        rcases List.mem_cons.mp ht with h | h
        · subst h
          intro c hc
          exact hcur c (by simpa using hc)
        · exact ih _ _ (fun c hc => absurd hc (List.not_mem_nil c)) t h
    · rw [if_neg hx] at ht
      refine ih _ _ ?_ t ht
      intro c hc
      rcases List.mem_cons.mp hc with h | h
      · subst h; simpa using hx
      · exact hcur c h

/-- Every piece of a split but the last is non-empty, once a piece is in progress or a run
of white space is being read. -/
theorem splitRuns_dropLast_ne : ∀ (cs : List Char) (inRun : Bool) (cur : List Char),
    (inRun = true ∨ cur ≠ []) → ∀ t ∈ (splitRuns cs inRun cur).dropLast, t ≠ "" := by
  intro cs
  induction cs with
  | nil =>
    intro inRun cur _ t ht
    simp [splitRuns] at ht
  | cons x cs ih =>
    intro inRun cur hst t ht
    rw [splitRuns] at ht
    by_cases hx : reSpace x = true
    · rw [if_pos hx] at ht
      by_cases hr : inRun = true
      · rw [if_pos hr] at ht
        exact ih _ _ (Or.inl rfl) t ht
      · rw [if_neg hr] at ht
        have hcur : cur ≠ [] := by
          rcases hst with h | h
          · exact absurd h hr
          · exact h
        rw [List.dropLast_cons_of_ne_nil (splitRuns_ne_nil _ _ _)] at ht
        rcases List.mem_cons.mp ht with h | h
        · subst h
          intro h0
          have := congrArg String.data h0
          simp at this
          exact hcur this
        · exact ih _ _ (Or.inl rfl) t h
    · rw [if_neg hx] at ht
      exact ih _ _ (Or.inr (List.cons_ne_nil _ _)) t ht

theorem getElem?_mem_dropLast {α : Type} (l : List α) (i : Nat) (a : α)
    (hi : i + 1 < l.length) (h : l[i]? = some a) : a ∈ l.dropLast := by
  have hlt : i < l.dropLast.length := by rw [List.length_dropLast]; omega
  have : l.dropLast[i]? = some a := by
    rw [List.getElem?_eq_getElem hlt, List.getElem_dropLast]
    rw [List.getElem?_eq_getElem (by omega)] at h
    exact h
  exact List.getElem?_mem this

/-- The tokens of a line other than the first and the last are non-empty. -/
theorem leavesOf_interior (text : String) (i : Nat) (t : String) (h0 : 0 < i)
    (h1 : i + 1 < (leavesOf text).length) (ht : (leavesOf text)[i]? = some t) : t ≠ "" := by
  unfold leavesOf spacesReSplit at h1 ht
  generalize (TrimSpace text).data = cs at h1 ht
  cases cs with
  | nil => simp [splitRuns] at h1
  | cons x cs =>
    rw [splitRuns] at h1 ht
    by_cases hx : reSpace x = true
    · simp only [hx, if_true, Bool.false_eq_true, if_false, List.length_cons] at h1 ht
      obtain ⟨j, rfl⟩ : ∃ j, i = j + 1 := ⟨i - 1, by omega⟩
      rw [List.getElem?_cons_succ] at ht
      exact splitRuns_dropLast_ne cs true [] (Or.inl rfl) t
        (getElem?_mem_dropLast _ j t (by omega) ht)
    · simp only [hx, Bool.false_eq_true, if_false] at h1 ht
      exact splitRuns_dropLast_ne cs false [x] (Or.inr (List.cons_ne_nil _ _)) t
        (getElem?_mem_dropLast _ i t h1 ht)

/-- No token of a line contains white space of the class `\s`. -/
theorem leavesOf_no_space (text : String) (t : String) (ht : t ∈ leavesOf text) :
    ∀ c ∈ t.data, reSpace c = false :=
  splitRuns_no_space _ false [] (fun c hc => absurd hc (List.not_mem_nil c)) t ht

theorem lower_lt_128 (n : Nat) (h : lower n ≤ 122) : n < 128 := by
  by_contra hcon
  have hge : n ≥ 2 ^ 7 := by norm_num; omega
  obtain ⟨i, hi, hbit⟩ := Nat.ge_two_pow_implies_high_bit_true hge
  have hbit2 : (lower n).testBit i = true := by
    unfold lower
    rw [Nat.testBit_or, hbit, Bool.true_or]
  have h1 := Nat.testBit_implies_ge hbit2
  have h2 : 2 ^ 7 ≤ 2 ^ i := Nat.pow_le_pow_right (by norm_num) hi
  norm_num at h2
  omega

/-- A character that `strconv.ParseUint` reads as a digit is a printable ASCII character. -/
theorem digitVal_printable (n d : Nat) (h : digitVal n = some d) : 33 ≤ n ∧ n ≤ 122 := by
  unfold digitVal at h
  split at h
  · omega
  · split at h
    · rename_i _ h2
      have hlt := lower_lt_128 n h2.2
      clear h
      interval_cases n <;> first | omega | (revert h2; decide)
    · cases h

theorem not_space_of_printable (c : Char) (h : 33 ≤ c.toNat ∧ c.toNat ≤ 122) :
    reSpace c = false ∧ isSpace c = false := by
  unfold reSpace isSpace
  simp only [beq_iff_eq, Bool.or_eq_false_iff, Bool.and_eq_false_imp, decide_eq_true_eq,
    decide_eq_false_iff_not, beq_eq_false_iff_ne, ne_eq]
  omega

theorem digits_no_space (base : Nat) (ds : List Char) (h : IsDigits base ds) :
    ∀ c ∈ ds, reSpace c = false ∧ isSpace c = false := by
  intro c hc
  obtain ⟨d, hd, _⟩ := h.2 c hc
  exact not_space_of_printable c (digitVal_printable _ _ hd)

/-- A number written by `strconv.FormatUint` is a non-empty token without white space. -/
theorem FormatUint_token (v base : Nat) (hb : 2 ≤ base) (hb16 : base ≤ 16) :
    (FormatUint v base).data ≠ [] ∧
    ∀ c ∈ (FormatUint v base).data, reSpace c = false ∧ isSpace c = false :=
  ⟨(toDigits_spec base hb hb16 v).1.1, digits_no_space base _ (toDigits_spec base hb hb16 v).1⟩

/-- A number written by `strconv.FormatInt` is a non-empty token without white space. -/
theorem FormatInt_token (v : Int) (base : Nat) (hb : 2 ≤ base) (hb16 : base ≤ 16) :
    (FormatInt v base).data ≠ [] ∧
    ∀ c ∈ (FormatInt v base).data, reSpace c = false ∧ isSpace c = false := by
  unfold FormatInt
  by_cases hneg : v < 0
  · rw [if_pos hneg]
    refine ⟨List.cons_ne_nil _ _, ?_⟩
    intro c hc
    rcases List.mem_cons.mp hc with h | h
    · subst h; exact ⟨by decide, by decide⟩
    · exact digits_no_space base _ (toDigits_spec base hb hb16 _).1 c h
  · rw [if_neg hneg]
    exact ⟨(toDigits_spec base hb hb16 _).1.1,
      digits_no_space base _ (toDigits_spec base hb hb16 _).1⟩

theorem parseUintLoop_le (base cutoff maxVal : Nat) :
    ∀ (ds : List Char) (a v : Nat), a ≤ maxVal →
      parseUintLoop base cutoff maxVal ds a = Except.ok v → v ≤ maxVal := by
  intro ds
  induction ds with
  | nil =>
    intro a v ha h
    simp only [parseUintLoop, Except.ok.injEq] at h
    omega
  | cons c cs ih =>
    intro a v ha h
    rw [parseUintLoop] at h
    split at h
    · cases h
    · simp only at h
      split at h
      · cases h
      · split at h
        · cases h
        · split at h
          · cases h
          · rename_i hchk
            exact ih _ v (by omega) h

/-- A value returned by `strconv.ParseUint` with 64 bits is below `2^64`. -/
theorem ParseUint_lt (t : String) (base v : Nat) (h : ParseUint t base 64 = Except.ok v) :
    v < 2 ^ 64 := by
  unfold ParseUint at h
  split at h
  · cases h
  · have := parseUintLoop_le _ _ _ _ _ _ (by norm_num) h
    omega

/-- A value returned by `strconv.ParseInt` with 64 bits lies in `[-2^63, 2^63 - 1]`. -/
theorem ParseInt_range (t : String) (base : Nat) (v : Int)
    (h : ParseInt t base 64 = Except.ok v) : -(2 ^ 63 : Int) ≤ v ∧ v < 2 ^ 63 := by
  unfold ParseInt at h
  cases hd : t.data with
  | nil => rw [hd] at h; cases h
  | cons c cs =>
    rw [hd] at h
    simp only at h
    generalize hP : ParseUint (if (c == '+') = true ∨ (c == '-') = true then String.mk cs
      else t) base 64 = P at h
    cases P with
    | error e =>
      cases e with
      | ErrSyntax => cases h
      | ErrRange =>
        by_cases hneg : (c == '-') = true
        · simp [hneg] at h
        · simp [hneg] at h
    | ok u =>
      have hu := ParseUint_lt _ _ _ hP
      by_cases hneg : (c == '-') = true
      · simp only [hneg, Bool.not_true, Bool.false_eq_true, false_and, if_false, true_and,
          if_true] at h
        split at h
        · cases h
        · rename_i h2
          simp only [Except.ok.injEq] at h
          norm_num at h2
          omega
      · simp only [hneg, Bool.not_false, true_and, Bool.false_eq_true, false_and, if_false] at h
        split at h
        · cases h
        · rename_i h2
          simp only [Except.ok.injEq] at h
          norm_num at h2
          omega

theorem intercalate_cons_cons {α : Type} (sep a b : List α) (l : List (List α)) :
    List.intercalate sep (a :: b :: l) = a ++ (sep ++ List.intercalate sep (b :: l)) := by
  simp [List.intercalate]

theorem intercalate_head? {α : Type} (sep a : List α) (l : List (List α)) (ha : a ≠ []) :
    (List.intercalate sep (a :: l)).head? = a.head? := by
  cases l with
  | nil => simp [List.intercalate]
  | cons b l =>
    rw [intercalate_cons_cons]
    cases a with
    | nil => exact absurd rfl ha
    | cons x xs => rfl

theorem intercalate_getLast? {α : Type} (sep : List α) :
    ∀ (l : List (List α)) (x : List α), x ≠ [] →
      (List.intercalate sep (l ++ [x])).getLast? = x.getLast? := by
  intro l
  induction l with
  | nil => intro x _; simp [List.intercalate]
  | cons a l ih =>
    intro x hx
    have hne : List.intercalate sep (l ++ [x]) ≠ [] := by
      intro h0
      have := ih x hx
      rw [h0] at this
      exact hx (List.getLast?_eq_none_iff.mp this.symm)
    cases hl : l ++ [x] with
    | nil => simp at hl
    | cons b l2 =>
      rw [List.cons_append, hl, intercalate_cons_cons, ← hl, ← List.append_assoc,
        List.getLast?_append_of_ne_nil _ hne]
      exact ih x hx

/-- Go `strings.Trim(a, "*")` leaves a string alone when it neither starts nor ends with `*`. -/
theorem Trim_eq_self (a : String) (h1 : a.data.head? ≠ some '*')
    (h2 : a.data.getLast? ≠ some '*') : Trim a "*" = a := by
  have hf : ∀ (l : List Char), l.head? ≠ some '*' →
      ∀ c, l.head? = some c → ("*" : String).data.contains c = false := by
    intro l hl c hc
    cases hq : ("*" : String).data.contains c with
    | false => rfl
    | true =>
      have := (isStar_iff c).mp hq
      subst this
      exact absurd hc hl
  unfold Trim
  rw [dropWhile_eq_self_of_head _ a.data (hf _ h1),
    dropWhile_eq_self_of_head _ a.data.reverse (hf _ (by rw [List.head?_reverse]; exact h2)),
    List.reverse_reverse]

theorem Trim_idem (u : String) : Trim (Trim u "*") "*" = Trim u "*" :=
  Trim_eq_self _ (Trim_star_spec u).2.1 (Trim_star_spec u).2.2

/-- The characters of `strings.Trim(u, "*")` are characters of `u`. -/
theorem Trim_subset (u : String) : ∀ c ∈ (Trim u "*").data, c ∈ u.data := by
  obtain ⟨p, q, h, _, _⟩ := (Trim_star_spec u).1
  intro c hc
  rw [h]
  exact List.mem_append_left _ (List.mem_append_right _ hc)

theorem assocTokens_length (r : Assoc) :
    (assocTokens r).length = 13 + r.LAddrs.length + 1 + r.RAddrs.length + 11 := by
  simp only [assocTokens, assocHeadTokens, assocTailTokens, List.length_append,
    List.length_cons, List.length_nil]
  omega

theorem assocTokens_head (r : Assoc) (j : Nat) (hj : j < 13) :
    (assocTokens r)[j]? = (assocHeadTokens r)[j]? := by
  unfold assocTokens
  exact List.getElem?_append_left (by simp [assocHeadTokens]; omega)

theorem assocTokens_laddr (r : Assoc) (j : Nat) (hj : j < r.LAddrs.length) :
    (assocTokens r)[13 + j]? = r.LAddrs[j]? := by
  unfold assocTokens
  rw [List.getElem?_append_right (by simp [assocHeadTokens])]
  have : 13 + j - (assocHeadTokens r).length = j := by simp [assocHeadTokens]
  rw [this, List.getElem?_append_left hj]

theorem assocTokens_drop_head (r : Assoc) :
    (assocTokens r).drop 13 = r.LAddrs ++ ("<->" :: (r.RAddrs ++ assocTailTokens r)) := by
  unfold assocTokens
  exact List.drop_left' (by simp [assocHeadTokens])

theorem assocTokens_drop_sep (r : Assoc) :
    (assocTokens r).drop (13 + r.LAddrs.length + 1) = r.RAddrs ++ assocTailTokens r := by
  have h : 13 + r.LAddrs.length + 1 = 13 + (r.LAddrs.length + 1) := by omega
  rw [h, ← List.drop_drop, assocTokens_drop_head]
  have h2 : r.LAddrs ++ ("<->" :: (r.RAddrs ++ assocTailTokens r))
      = (r.LAddrs ++ ["<->"]) ++ (r.RAddrs ++ assocTailTokens r) := by simp
  rw [h2]
  exact List.drop_left' (by simp)

theorem assocTokens_sep (r : Assoc) :
    (assocTokens r)[13 + r.LAddrs.length]? = some "<->" := by
  have h := List.getElem?_drop (assocTokens r) 13 r.LAddrs.length
  rw [← h, assocTokens_drop_head, List.getElem?_append_right (le_refl _)]
  simp

theorem assocTokens_tail (r : Assoc) (k : Nat) :
    (assocTokens r)[13 + r.LAddrs.length + 1 + r.RAddrs.length + k]?
      = (assocTailTokens r)[k]? := by
  have h := List.getElem?_drop (assocTokens r) (13 + r.LAddrs.length + 1)
    (r.RAddrs.length + k)
  have e : 13 + r.LAddrs.length + 1 + (r.RAddrs.length + k)
      = 13 + r.LAddrs.length + 1 + r.RAddrs.length + k := by omega
  rw [e] at h
  rw [← h, assocTokens_drop_sep, List.getElem?_append_right (by omega)]
  congr 1
  omega

theorem uintAt_written (l l' : List String) (i i' base v : Nat) (hb : 2 ≤ base)
    (hb16 : base ≤ 16) (h : UintAt l i base v) (h' : l'[i']? = some (FormatUint v base)) :
    UintAt l' i' base v := by
  obtain ⟨t, _, hv⟩ := h
  exact ⟨_, h', ParseUint_FormatUint base hb hb16 v (ParseUint_lt t base v hv)⟩

theorem intAt_written (l l' : List String) (i i' base : Nat) (v : Int) (hb : 2 ≤ base)
    (hb16 : base ≤ 16) (h : IntAt l i base v) (h' : l'[i']? = some (FormatInt v base)) :
    IntAt l' i' base v := by
  obtain ⟨t, _, hv⟩ := h
  have hr := ParseInt_range t base v hv
  exact ⟨_, h', ParseInt_FormatInt base hb hb16 v hr.1 hr.2⟩

theorem tail_indices (n a b : Nat) (h : n = 13 + a + 1 + b + 11) :
    n - 11 = 13 + a + 1 + b + 0 ∧ n - 10 = 13 + a + 1 + b + 1 ∧ n - 9 = 13 + a + 1 + b + 2 ∧
    n - 8 = 13 + a + 1 + b + 3 ∧ n - 7 = 13 + a + 1 + b + 4 ∧ n - 6 = 13 + a + 1 + b + 5 ∧
    n - 5 = 13 + a + 1 + b + 6 ∧ n - 4 = 13 + a + 1 + b + 7 ∧ n - 3 = 13 + a + 1 + b + 8 ∧
    n - 2 = 13 + a + 1 + b + 9 ∧ n - 1 = 13 + a + 1 + b + 10 := by
  subst h
  refine ⟨?_, ?_, ?_, ?_, ?_, ?_, ?_, ?_, ?_, ?_, ?_⟩ <;> omega

theorem fixedFields_written (leaves : List String) (r : Assoc) (hf : FixedFields leaves r) :
    FixedFields (assocTokens r) r := by
  unfold FixedFields at hf ⊢
  obtain ⟨⟨a0, a1, a2, a3, a4, a5, a6, a7, a8, a9, a10, a11, a12⟩,
    b0, b1, b2, b3, b4, b5, b6, b7, b8, b9, b10⟩ := hf
  have hl := assocTokens_length r
  generalize hn : (assocTokens r).length = n at hl ⊢
  generalize ha : r.LAddrs.length = a at hl ⊢
  generalize hb : r.RAddrs.length = b at hl ⊢
  obtain ⟨e0, e1, e2, e3, e4, e5, e6, e7, e8, e9, e10⟩ := tail_indices n a b hl
  have hd : ∀ j, j < 13 → ∀ t, (assocHeadTokens r)[j]? = some t →
      (assocTokens r)[j]? = some t := fun j hj t ht => by rw [assocTokens_head r j hj, ht]
  have tl : ∀ k t, (assocTailTokens r)[k]? = some t →
      (assocTokens r)[13 + a + 1 + b + k]? = some t :=
    fun k t ht => by rw [← ha, ← hb, assocTokens_tail, ht]
  refine ⟨⟨?_, ?_, ?_, ?_, ?_, ?_, ?_, ?_, ?_, ?_, ?_, ?_, ?_⟩,
    ?_, ?_, ?_, ?_, ?_, ?_, ?_, ?_, ?_, ?_, ?_⟩
  · exact uintAt_written _ _ _ _ _ _ (by decide) (by decide) a0 (hd 0 (by decide) _ rfl)
  · exact uintAt_written _ _ _ _ _ _ (by decide) (by decide) a1 (hd 1 (by decide) _ rfl)
  · exact intAt_written _ _ _ _ _ _ (by decide) (by decide) a2 (hd 2 (by decide) _ rfl)
  · exact intAt_written _ _ _ _ _ _ (by decide) (by decide) a3 (hd 3 (by decide) _ rfl)
  · exact intAt_written _ _ _ _ _ _ (by decide) (by decide) a4 (hd 4 (by decide) _ rfl)
  · exact intAt_written _ _ _ _ _ _ (by decide) (by decide) a5 (hd 5 (by decide) _ rfl)
  · exact intAt_written _ _ _ _ _ _ (by decide) (by decide) a6 (hd 6 (by decide) _ rfl)
  · exact intAt_written _ _ _ _ _ _ (by decide) (by decide) a7 (hd 7 (by decide) _ rfl)
  · exact intAt_written _ _ _ _ _ _ (by decide) (by decide) a8 (hd 8 (by decide) _ rfl)
  · exact uintAt_written _ _ _ _ _ _ (by decide) (by decide) a9 (hd 9 (by decide) _ rfl)
  · exact uintAt_written _ _ _ _ _ _ (by decide) (by decide) a10 (hd 10 (by decide) _ rfl)
  · exact intAt_written _ _ _ _ _ _ (by decide) (by decide) a11 (hd 11 (by decide) _ rfl)
  · exact intAt_written _ _ _ _ _ _ (by decide) (by decide) a12 (hd 12 (by decide) _ rfl)
  · rw [e0]
    exact uintAt_written _ _ _ _ _ _ (by decide) (by decide) b0 (tl 0 _ rfl)
  · rw [e1]
    exact intAt_written _ _ _ _ _ _ (by decide) (by decide) b1 (tl 1 _ rfl)
  · rw [e2]
    exact intAt_written _ _ _ _ _ _ (by decide) (by decide) b2 (tl 2 _ rfl)
  · rw [e3]
    exact intAt_written _ _ _ _ _ _ (by decide) (by decide) b3 (tl 3 _ rfl)
  · rw [e4]
    exact intAt_written _ _ _ _ _ _ (by decide) (by decide) b4 (tl 4 _ rfl)
  · rw [e5]
    exact intAt_written _ _ _ _ _ _ (by decide) (by decide) b5 (tl 5 _ rfl)
  · rw [e6]
    exact intAt_written _ _ _ _ _ _ (by decide) (by decide) b6 (tl 6 _ rfl)
  · rw [e7]
    exact intAt_written _ _ _ _ _ _ (by decide) (by decide) b7 (tl 7 _ rfl)
  · rw [e8]
    exact intAt_written _ _ _ _ _ _ (by decide) (by decide) b8 (tl 8 _ rfl)
  · rw [e9]
    exact intAt_written _ _ _ _ _ _ (by decide) (by decide) b9 (tl 9 _ rfl)
  · rw [e10]
    exact intAt_written _ _ _ _ _ _ (by decide) (by decide) b10 (tl 10 _ rfl)

/-- A written number is a non-empty token without white space. -/
theorem fixedTokens_good (r : Assoc) :
    (∀ t ∈ assocHeadTokens r,
      t.data ≠ [] ∧ ∀ c ∈ t.data, reSpace c = false ∧ isSpace c = false) ∧
    (∀ t ∈ assocTailTokens r,
      t.data ≠ [] ∧ ∀ c ∈ t.data, reSpace c = false ∧ isSpace c = false) := by
  have hu : ∀ v base, 2 ≤ base → base ≤ 16 → (FormatUint v base).data ≠ [] ∧
      ∀ c ∈ (FormatUint v base).data, reSpace c = false ∧ isSpace c = false :=
    fun v base h1 h2 => FormatUint_token v base h1 h2
  have hi : ∀ v base, 2 ≤ base → base ≤ 16 → (FormatInt v base).data ≠ [] ∧
      ∀ c ∈ (FormatInt v base).data, reSpace c = false ∧ isSpace c = false :=
    fun v base h1 h2 => FormatInt_token v base h1 h2
  constructor
  · simp only [assocHeadTokens, List.forall_mem_cons]
    exact ⟨hu _ _ (by decide) (by decide), hu _ _ (by decide) (by decide),
      hi _ _ (by decide) (by decide), hi _ _ (by decide) (by decide),
      hi _ _ (by decide) (by decide), hi _ _ (by decide) (by decide),
      hi _ _ (by decide) (by decide), hi _ _ (by decide) (by decide),
      hi _ _ (by decide) (by decide), hu _ _ (by decide) (by decide),
      hu _ _ (by decide) (by decide), hi _ _ (by decide) (by decide),
      hi _ _ (by decide) (by decide), fun _ h => absurd h (List.not_mem_nil _)⟩
  · simp only [assocTailTokens, List.forall_mem_cons]
    exact ⟨hu _ _ (by decide) (by decide), hi _ _ (by decide) (by decide),
      hi _ _ (by decide) (by decide), hi _ _ (by decide) (by decide),
      hi _ _ (by decide) (by decide), hi _ _ (by decide) (by decide),
      hi _ _ (by decide) (by decide), hi _ _ (by decide) (by decide),
      hi _ _ (by decide) (by decide), hi _ _ (by decide) (by decide),
      hi _ _ (by decide) (by decide), fun _ h => absurd h (List.not_mem_nil _)⟩

theorem data_ne_nil_of_ne (t : String) (h : t ≠ "") : t.data ≠ [] := by
  intro hd
  apply h
  cases t
  simp only at hd
  subst hd
  rfl

/-- Every element of the local-address list of a decoded line is a non-empty token without
white space, different from the separator. -/
theorem laddrs_tokens (text : String) (s : Nat) (l : List String)
    (hs2 : s + 12 ≤ (leavesOf text).length)
    (hmin : ∀ j, 13 ≤ j → j < s → (leavesOf text)[j]? ≠ some "<->")
    (hL : l = ((leavesOf text).drop 13).take (s - 13)) :
    ∀ t ∈ l, t ≠ "<->" ∧ t.data ≠ [] ∧ ∀ c ∈ t.data, reSpace c = false := by
  intro t ht
  subst hL
  obtain ⟨j, hj⟩ := List.mem_iff_getElem?.mp ht
  rw [List.getElem?_take] at hj
  split at hj
  · rename_i hjs
    rw [List.getElem?_drop] at hj
    refine ⟨?_, ?_, ?_⟩
    · intro e
      exact hmin (13 + j) (by omega) (by omega) (by rw [hj, e])
    · exact data_ne_nil_of_ne t
        (leavesOf_interior text (13 + j) t (by omega) (by omega) hj)
    · exact leavesOf_no_space text t (List.getElem?_mem hj)
  · cases hj

/-- Every element of the remote-address list of a decoded line is a trimmed token without
white space. -/
theorem raddrs_tokens (text : String) (s m : Nat) (l : List String)
    (hR : l = (((leavesOf text).drop (s + 1)).take m).map (fun t => Trim t "*")) :
    ∀ t ∈ l, Trim t "*" = t ∧ ∀ c ∈ t.data, reSpace c = false := by
  intro t ht
  subst hR
  obtain ⟨u, hu, rfl⟩ := List.mem_map.mp ht
  have hu' : u ∈ leavesOf text := List.mem_of_mem_drop (List.mem_of_mem_take hu)
  exact ⟨Trim_idem u, fun c hc => leavesOf_no_space text u hu' c (Trim_subset u c hc)⟩

theorem map_eq_self {α : Type} (f : α → α) (l : List α) (h : ∀ a ∈ l, f a = a) :
    l.map f = l := by
  induction l with
  | nil => rfl
  | cons a l ih =>
    rw [List.map_cons, h a (List.mem_cons_self _ _),
      ih (fun b hb => h b (List.mem_cons_of_mem _ hb))]

/-- The tokens written from a record are found again by the tokenisation of the written line,
when every token is non-empty and free of white space. -/
theorem leavesOf_formatAssoc (r : Assoc)
    (hL : ∀ t ∈ r.LAddrs, t.data ≠ [] ∧ ∀ c ∈ t.data, reSpace c = false)
    (hR : ∀ t ∈ r.RAddrs, t.data ≠ [] ∧ ∀ c ∈ t.data, reSpace c = false) :
    leavesOf (formatAssoc r) = assocTokens r := by
  obtain ⟨hh, ht⟩ := fixedTokens_good r
  have hsep : ("<->" : String).data ≠ [] ∧ ∀ c ∈ ("<->" : String).data, reSpace c = false := by
    decide
  unfold formatAssoc
  apply leavesOf_joinSpaces
  · simp [assocTokens, assocHeadTokens]
  · intro t ht'
    simp only [assocTokens, List.mem_append, List.mem_cons] at ht'
    rcases ht' with h | h | h | h | h
    · exact ⟨(hh t h).1, fun c hc => ((hh t h).2 c hc).1⟩
    · exact hL t h
    · subst h
      exact hsep
    · exact hR t h
    · exact ⟨(ht t h).1, fun c hc => ((ht t h).2 c hc).1⟩
  · intro a ha
    have h0 := hh (FormatUint r.Assoc 16) (by simp [assocHeadTokens])
    have e : (joinSpaces (assocTokens r)).data.head? = (FormatUint r.Assoc 16).data.head? := by
      simp only [joinSpaces, assocTokens, assocHeadTokens, List.cons_append, List.map_cons]
      exact intercalate_head? _ _ _ h0.1
    rw [e] at ha
    exact (h0.2 a (List.mem_of_mem_head? ha)).2
  · intro a ha
    have h0 := ht (FormatInt r.Rcvbuf 10) (by simp [assocTailTokens])
    have e : (joinSpaces (assocTokens r)).data.getLast?
        = (FormatInt r.Rcvbuf 10).data.getLast? := by
      have e2 : assocTokens r = (assocHeadTokens r ++ (r.LAddrs ++ ("<->" :: (r.RAddrs ++
          (assocTailTokens r).dropLast)))) ++ [FormatInt r.Rcvbuf 10] := by
        simp [assocTokens, assocTailTokens]
      rw [e2]
      simp only [joinSpaces, List.map_append, List.map_cons, List.map_nil]
      exact intercalate_getLast? _ _ _ h0.1
    rw [e] at ha
    exact (h0.2 a (List.mem_of_mem_getLast? ha)).2

/-- The written tokens decode to the record they were written from. -/
theorem assocOfLeaves_written (text : String) (ln k : Nat) (r : Assoc)
    (h : assocOfLine text ln = Except.ok r) :
    assocOfLeaves (assocTokens r) k = Except.ok r := by
  obtain ⟨hlen, hhead, htail, s, hs1, hs2, hsep, hmin, hL, hR⟩ :=
    assocOfLeaves_ok (leavesOf text) ln r h
  have hLt := laddrs_tokens text s r.LAddrs hs2 hmin hL
  have hRt := raddrs_tokens text s _ r.RAddrs hR
  have hLl : r.LAddrs.length = s - 13 := by
    rw [hL, List.length_take, List.length_drop]
    omega
  have hRl : r.RAddrs.length = (leavesOf text).length - 12 - s := by
    rw [hR, List.length_map, List.length_take, List.length_drop]
    omega
  have hl := assocTokens_length r
  apply assocOfLeaves_of_facts (assocTokens r) k r (13 + r.LAddrs.length)
  · omega
  · exact fixedFields_written (leavesOf text) r ⟨hhead, htail⟩
  · omega
  · omega
  · exact assocTokens_sep r
  · intro j hj1 hj2 e
    have e2 : j = 13 + (j - 13) := by omega
    rw [e2, assocTokens_laddr r (j - 13) (by omega)] at e
    exact (hLt "<->" (List.getElem?_mem e)).1 rfl
  · rw [assocTokens_drop_head]
    have e : 13 + r.LAddrs.length - 13 = r.LAddrs.length := by omega
    rw [e, List.take_left]
  · rw [assocTokens_drop_sep]
    have e : (assocTokens r).length - 12 - (13 + r.LAddrs.length) = r.RAddrs.length := by
      omega
    rw [e, List.take_left, map_eq_self _ _ (fun t ht => (hRt t ht).1)]

/-! ## The round trip -/

set_option maxRecDepth 20000 in
/-- Claim C14, as stated, fails on a remote-address token made only of `*`. The line
`assocsLineStarOnly` is decoded to a record whose remote addresses are the empty string and
`127.0.0.2`; the line written from that record has two spaces in a row where the empty
address stands, is split into 27 tokens instead of 28, and is decoded to a record with the
single remote address `127.0.0.2`, which is not the record it was written from. -/
theorem assocs_round_trip_star_only :
    ParseAssocs [assocsLineStarOnly] [true]
      = Outcome.returned (some [assocsRecordStarOnly]) none ∧
    assocsRecordStarOnly.RAddrs = ["", "127.0.0.2"] ∧
    formatAssoc assocsRecordStarOnly
      = "0 0 2 1 3 0 60 0 496 0 188897 12345 54321 127.0.0.1 <->  127.0.0.2 30000 65535 65535 10 0 0 0 1 0 212992 212992" ∧
    ParseAssocs [formatAssoc assocsRecordStarOnly] [true]
      = Outcome.returned (some [assocsRecordStarLost]) none ∧
    assocsRecordStarLost.RAddrs = ["127.0.0.2"] ∧
    ParseAssocs [formatAssoc assocsRecordStarOnly] [true]
      ≠ Outcome.returned (some [assocsRecordStarOnly]) none := by
  have h : ParseAssocs [formatAssoc assocsRecordStarOnly] [true]
      = Outcome.returned (some [assocsRecordStarLost]) none := by rfl
  refine ⟨by rfl, rfl, by rfl, h, rfl, ?_⟩
  rw [h]
  intro hcon
  have h2 : assocsRecordStarLost.RAddrs = assocsRecordStarOnly.RAddrs := by
    injection hcon with h3
    injection h3 with h4
    injection h4 with h5
    rw [h5]
  exact absurd h2 (by decide)

/-- Claim C14, amended. For every line that `ParseAssocs` decodes to a record `r` none of
whose remote addresses is the empty string, the record's fields written in column order (the
two handles in base 16, the other numbers in base 10, the local addresses, `<->`, the remote
addresses, the 11 trailing numbers) and joined by single spaces give a line that is split
into exactly the written tokens and that `ParseAssocs`, called with `noHeader = true`,
decodes to `r`. -/
theorem assocs_round_trip (text : String) (ln : Nat) (r : Assoc) (rest : List Bool)
    (h : assocOfLine text ln = Except.ok r) (hne : "" ∉ r.RAddrs) :
    leavesOf (formatAssoc r) = assocTokens r ∧
    (∀ k, assocOfLine (formatAssoc r) k = Except.ok r) ∧
    ParseAssocs [formatAssoc r] (true :: rest) = Outcome.returned (some [r]) none := by
  obtain ⟨hlen, hhead, htail, s, hs1, hs2, hsep, hmin, hL, hR⟩ :=
    assocOfLeaves_ok (leavesOf text) ln r h
  have hLt := laddrs_tokens text s r.LAddrs hs2 hmin hL
  have hRt := raddrs_tokens text s _ r.RAddrs hR
  have hleaves : leavesOf (formatAssoc r) = assocTokens r :=
    leavesOf_formatAssoc r (fun t ht => (hLt t ht).2)
      (fun t ht => ⟨data_ne_nil_of_ne t (fun e => hne (e ▸ ht)), (hRt t ht).2⟩)
  have hdec : ∀ k, assocOfLine (formatAssoc r) k = Except.ok r := by
    intro k
    unfold assocOfLine
    rw [hleaves]
    exact assocOfLeaves_written text ln k r h
  refine ⟨hleaves, hdec, ?_⟩
  have hl := assocTokens_length r
  exact parseTable_single assocOfLine (formatAssoc r) rest r
    (ne_empty_of_tokens _ (by rw [hleaves]; omega)) (hdec 1)

set_option maxRecDepth 20000 in
/-- Witness for C14: the record of the first data line of `Test_ParseAssocs` is written as
a line that decodes to the same record. -/
theorem assocs_round_trip_witness :
    assocOfLine assocsLine1 2 = Except.ok assocsRecord1 ∧
    formatAssoc assocsRecord1
      = "0 0 2 1 3 0 60 0 496 0 188897 12345 54321 127.0.0.1 <-> 127.0.0.2 30000 65535 65535 10 0 0 0 1 0 212992 212992" ∧
    ParseAssocs [formatAssoc assocsRecord1] [true]
      = Outcome.returned (some [assocsRecord1]) none :=
  ⟨by rfl, by rfl,
    (assocs_round_trip assocsLine1 2 assocsRecord1 [] (by rfl) (by decide)).2.2⟩

/-- Witness for C20: after the header and one good line, the line `assocsLineLateSeparator`
(27 tokens, `<->` at index 16 = 27 - 11) is read as line 3 and fails at HBINT, the trailing
column that reads the separator. -/
theorem assocs_separator_in_tail_witness :
    (leavesOf assocsLineLateSeparator).length = 27 ∧
    (leavesOf assocsLineLateSeparator)[16]? = some "<->" ∧
    ParseAssocs [assocsHeader, assocsLine1, assocsLineLateSeparator] []
      = Outcome.returned none (some (errorfAtLine "HBINT " 3 ErrInvalidAssocsFormat)) ∧
    ∀ k r, assocOfLine assocsLineLateSeparator k ≠ Except.ok r :=
  ⟨by rfl, by rfl, by rfl,
    (assocs_separator_in_tail [] [assocsHeader] [assocsLine1] [] assocsLineLateSeparator 16
      (by rfl) (by rfl) (by decide) (by decide) (by rfl)
      (fun j h1 h2 => by
        have hl : leavesOf assocsLineLateSeparator
            = ["0", "0", "2", "1", "3", "0", "60", "0", "496", "0", "188897", "12345", "54321",
               "127.0.0.1", "127.0.0.2", "127.0.0.3", "<->", "65535", "65535", "10", "0", "0",
               "0", "1", "0", "212992", "212992"] := by rfl
        rw [hl]
        interval_cases j <;> decide)
      (by decide)).1⟩

/-! ## Replacing the token of one column -/

theorem accepted_set_ne (cols : List (String × Conv)) (leaves : List String)
    (off j idx : Nat) (tok : String) (h : idx ≠ off + j) :
    accepted cols (leaves.set idx tok) off j = accepted cols leaves off j := by
  unfold accepted
  rw [List.getElem?_set_ne h]

theorem accepted_set_eq (cols : List (String × Conv)) (leaves : List String)
    (off j : Nat) (tok name : String) (c : Conv) (hc : cols[j]? = some (name, c))
    (hlt : off + j < leaves.length) :
    accepted cols (leaves.set (off + j) tok) off j = c.accepts tok := by
  unfold accepted
  rw [hc, List.getElem?_set_self hlt]

theorem take_drop_set (l : List String) (a m idx : Nat) (tok : String)
    (h : idx < a ∨ a + m ≤ idx) : ((l.set idx tok).drop a).take m = (l.drop a).take m := by
  apply List.ext_getElem?
  intro j
  rw [List.getElem?_take, List.getElem?_take]
  split
  · rw [List.getElem?_drop, List.getElem?_drop, List.getElem?_set_ne (by omega)]
  · rfl

/-- The values of a group of columns after one token of a decoded line is replaced. -/
theorem values_set (cols : List (String × Conv)) (leaves : List String) (off i : Nat)
    (tok name : String) (c : Conv) (v : Int) (vals vals2 : List Int)
    (hlv : vals.length = cols.length) (hlv2 : vals2.length = cols.length)
    (hcol : cols[i]? = some (name, c)) (hv : c.value tok = some v)
    (hlt : off + i < leaves.length)
    (hbase : ∀ j name c, cols[j]? = some (name, c) →
      ∃ t, leaves[off + j]? = some t ∧ c.value t = vals[j]?)
    (hnew : ∀ j name c, cols[j]? = some (name, c) →
      ∃ t, (leaves.set (off + i) tok)[off + j]? = some t ∧ c.value t = vals2[j]?) :
    vals2 = vals.set i v := by
  apply List.ext_getElem?
  intro j
  by_cases hj : j < cols.length
  · obtain ⟨⟨n2, c2⟩, hcj⟩ : ∃ p, cols[j]? = some p := ⟨cols[j], List.getElem?_eq_getElem hj⟩
    obtain ⟨t2, ht2, hv2⟩ := hnew j _ _ hcj
    obtain ⟨t1, ht1, hv1⟩ := hbase j _ _ hcj
    by_cases hji : j = i
    · subst hji
      rw [List.getElem?_set_self hlt] at ht2
      rw [List.getElem?_set_self (by omega), ← hv2]
      rw [hcj] at hcol
      cases hcol
      cases ht2
      exact hv
    · rw [List.getElem?_set_ne (by omega)] at ht2
      rw [List.getElem?_set_ne (fun e => hji e.symm), ← hv2, ← hv1]
      rw [ht1] at ht2
      cases ht2
      rfl
  · rw [List.getElem?_eq_none (by omega), List.getElem?_eq_none (by simp; omega)]

/-- The values of a group of columns none of whose tokens is the replaced one. -/
theorem values_same (cols : List (String × Conv)) (leaves leaves2 : List String) (off : Nat)
    (vals vals2 : List Int)
    (hlv : vals.length = cols.length) (hlv2 : vals2.length = cols.length)
    (hagree : ∀ j, j < cols.length → leaves2[off + j]? = leaves[off + j]?)
    (hbase : ∀ j name c, cols[j]? = some (name, c) →
      ∃ t, leaves[off + j]? = some t ∧ c.value t = vals[j]?)
    (hnew : ∀ j name c, cols[j]? = some (name, c) →
      ∃ t, leaves2[off + j]? = some t ∧ c.value t = vals2[j]?) :
    vals2 = vals := by
  apply List.ext_getElem?
  intro j
  by_cases hj : j < cols.length
  · obtain ⟨⟨n2, c2⟩, hcj⟩ : ∃ p, cols[j]? = some p := ⟨cols[j], List.getElem?_eq_getElem hj⟩
    obtain ⟨t2, ht2, hv2⟩ := hnew j _ _ hcj
    obtain ⟨t1, ht1, hv1⟩ := hbase j _ _ hcj
    rw [hagree j hj, ht1] at ht2
    cases ht2
    rw [← hv2, ← hv1]
  · rw [List.getElem?_eq_none (by omega), List.getElem?_eq_none (by omega)]

/-- Columns whose tokens convert to the listed values accept their tokens. -/
theorem accepted_of_values (cols : List (String × Conv)) (leaves : List String) (off : Nat)
    (vals : List Int) (hlv : vals.length = cols.length)
    (hbase : ∀ j name c, cols[j]? = some (name, c) →
      ∃ t, leaves[off + j]? = some t ∧ c.value t = vals[j]?) :
    ∀ j, j < cols.length → accepted cols leaves off j = true := by
  intro j hj
  obtain ⟨⟨n2, c2⟩, hcj⟩ : ∃ p, cols[j]? = some p := ⟨cols[j], List.getElem?_eq_getElem hj⟩
  obtain ⟨t, ht, hv⟩ := hbase j _ _ hcj
  unfold accepted
  rw [hcj, ht]
  simp only
  rw [accepts_iff_value]
  exact ⟨vals[j], by rw [hv, List.getElem?_eq_getElem (by omega)]⟩

theorem uint_value (t : String) (b v : Nat) (h : ParseUint t b 64 = Except.ok v) :
    (Conv.uint b).value t = some (v : Int) := by
  simp only [Conv.value, h]

theorem int_value (t : String) (b : Nat) (v : Int) (h : ParseInt t b 64 = Except.ok v) :
    (Conv.int b).value t = some v := by
  simp only [Conv.value, h]

theorem tail_offsets (n : Nat) (h : 27 ≤ n) :
    n - 11 + 0 = n - 11 ∧ n - 11 + 1 = n - 10 ∧ n - 11 + 2 = n - 9 ∧ n - 11 + 3 = n - 8 ∧
    n - 11 + 4 = n - 7 ∧ n - 11 + 5 = n - 6 ∧ n - 11 + 6 = n - 5 ∧ n - 11 + 7 = n - 4 ∧
    n - 11 + 8 = n - 3 ∧ n - 11 + 9 = n - 2 ∧ n - 11 + 10 = n - 1 := by
  refine ⟨?_, ?_, ?_, ?_, ?_, ?_, ?_, ?_, ?_, ?_, ?_⟩ <;> omega

theorem lt_of_getElem?_some {α : Type} (l : List α) (j : Nat) (a : α) (h : l[j]? = some a) :
    j < l.length := by
  by_contra hcon
  rw [List.getElem?_eq_none (by omega)] at h
  cases h

set_option maxHeartbeats 2000000 in
/-- Each leading column of a decoded assocs line converts its token to the stored value. -/
theorem assoc_head_values (leaves : List String) (ln : Nat) (r : Assoc)
    (h : assocOfLeaves leaves ln = Except.ok r) :
    ∀ j name c, assocHeadColumns[j]? = some (name, c) →
      ∃ t, leaves[0 + j]? = some t ∧ c.value t = (assocHeadValues r)[j]? := by
  obtain ⟨_, ⟨a0, a1, a2, a3, a4, a5, a6, a7, a8, a9, a10, a11, a12⟩, _, _⟩ :=
    assocOfLeaves_ok leaves ln r h
  intro j name c hc
  have hj : j < 13 := lt_of_getElem?_some _ _ _ hc
  interval_cases j
  · cases hc
    obtain ⟨t, ht, hv⟩ := a0
    exact ⟨t, by rw [Nat.zero_add]; exact ht, uint_value t 16 _ hv⟩
  · cases hc
    obtain ⟨t, ht, hv⟩ := a1
    exact ⟨t, by rw [Nat.zero_add]; exact ht, uint_value t 16 _ hv⟩
  · cases hc
    obtain ⟨t, ht, hv⟩ := a2
    exact ⟨t, by rw [Nat.zero_add]; exact ht, int_value t 10 _ hv⟩
  · cases hc
    obtain ⟨t, ht, hv⟩ := a3
    exact ⟨t, by rw [Nat.zero_add]; exact ht, int_value t 10 _ hv⟩
  · cases hc
    obtain ⟨t, ht, hv⟩ := a4
    exact ⟨t, by rw [Nat.zero_add]; exact ht, int_value t 10 _ hv⟩
  · cases hc
    obtain ⟨t, ht, hv⟩ := a5
    exact ⟨t, by rw [Nat.zero_add]; exact ht, int_value t 10 _ hv⟩
  · cases hc
    obtain ⟨t, ht, hv⟩ := a6
    exact ⟨t, by rw [Nat.zero_add]; exact ht, int_value t 10 _ hv⟩
  · cases hc
    obtain ⟨t, ht, hv⟩ := a7
    exact ⟨t, by rw [Nat.zero_add]; exact ht, int_value t 10 _ hv⟩
  · cases hc
    obtain ⟨t, ht, hv⟩ := a8
    exact ⟨t, by rw [Nat.zero_add]; exact ht, int_value t 10 _ hv⟩
  · cases hc
    obtain ⟨t, ht, hv⟩ := a9
    exact ⟨t, by rw [Nat.zero_add]; exact ht, uint_value t 10 _ hv⟩
  · cases hc
    obtain ⟨t, ht, hv⟩ := a10
    exact ⟨t, by rw [Nat.zero_add]; exact ht, uint_value t 10 _ hv⟩
  · cases hc
    obtain ⟨t, ht, hv⟩ := a11
    exact ⟨t, by rw [Nat.zero_add]; exact ht, int_value t 10 _ hv⟩
  · cases hc
    obtain ⟨t, ht, hv⟩ := a12
    exact ⟨t, by rw [Nat.zero_add]; exact ht, int_value t 10 _ hv⟩

set_option maxHeartbeats 2000000 in
/-- Each trailing column of a decoded assocs line converts its token to the stored value. -/
theorem assoc_tail_values (leaves : List String) (ln : Nat) (r : Assoc)
    (h : assocOfLeaves leaves ln = Except.ok r) :
    ∀ j name c, assocTailColumns[j]? = some (name, c) →
      ∃ t, leaves[leaves.length - 11 + j]? = some t ∧ c.value t = (assocTailValues r)[j]? := by
  obtain ⟨hlen, _, ⟨b0, b1, b2, b3, b4, b5, b6, b7, b8, b9, b10⟩, _⟩ :=
    assocOfLeaves_ok leaves ln r h
  obtain ⟨e0, e1, e2, e3, e4, e5, e6, e7, e8, e9, e10⟩ := tail_offsets leaves.length hlen
  intro j name c hc
  have hj : j < 11 := lt_of_getElem?_some _ _ _ hc
  interval_cases j
  · cases hc
    obtain ⟨t, ht, hv⟩ := b0
    exact ⟨t, by rw [e0]; exact ht, uint_value t 10 _ hv⟩
  · cases hc
    obtain ⟨t, ht, hv⟩ := b1
    exact ⟨t, by rw [e1]; exact ht, int_value t 10 _ hv⟩
  · cases hc
    obtain ⟨t, ht, hv⟩ := b2
    exact ⟨t, by rw [e2]; exact ht, int_value t 10 _ hv⟩
  · cases hc
    obtain ⟨t, ht, hv⟩ := b3
    exact ⟨t, by rw [e3]; exact ht, int_value t 10 _ hv⟩
  · cases hc
    obtain ⟨t, ht, hv⟩ := b4
    exact ⟨t, by rw [e4]; exact ht, int_value t 10 _ hv⟩
  · cases hc
    obtain ⟨t, ht, hv⟩ := b5
    exact ⟨t, by rw [e5]; exact ht, int_value t 10 _ hv⟩
  · cases hc
    obtain ⟨t, ht, hv⟩ := b6
    exact ⟨t, by rw [e6]; exact ht, int_value t 10 _ hv⟩
  · cases hc
    obtain ⟨t, ht, hv⟩ := b7
    exact ⟨t, by rw [e7]; exact ht, int_value t 10 _ hv⟩
  · cases hc
    obtain ⟨t, ht, hv⟩ := b8
    exact ⟨t, by rw [e8]; exact ht, int_value t 10 _ hv⟩
  · cases hc
    obtain ⟨t, ht, hv⟩ := b9
    exact ⟨t, by rw [e9]; exact ht, int_value t 10 _ hv⟩
  · cases hc
    obtain ⟨t, ht, hv⟩ := b10
    exact ⟨t, by rw [e10]; exact ht, int_value t 10 _ hv⟩

set_option maxHeartbeats 2000000 in
/-- Each numeric column of a decoded eps line converts its token to the stored value. -/
theorem eps_values (leaves : List String) (ln : Nat) (r : EPS)
    (h : epsOfLeaves leaves ln = Except.ok r) :
    ∀ j name c, epsColumns[j]? = some (name, c) →
      ∃ t, leaves[0 + j]? = some t ∧ c.value t = (epsValues r)[j]? := by
  obtain ⟨_, a0, a1, a2, a3, a4, a5, a6, a7, _⟩ := epsOfLeaves_ok leaves ln r h
  intro j name c hc
  have hj : j < 8 := lt_of_getElem?_some _ _ _ hc
  interval_cases j
  · cases hc
    obtain ⟨t, ht, hv⟩ := a0
    exact ⟨t, by rw [Nat.zero_add]; exact ht, uint_value t 16 _ hv⟩
  · cases hc
    obtain ⟨t, ht, hv⟩ := a1
    exact ⟨t, by rw [Nat.zero_add]; exact ht, uint_value t 16 _ hv⟩
  · cases hc
    obtain ⟨t, ht, hv⟩ := a2
    exact ⟨t, by rw [Nat.zero_add]; exact ht, int_value t 10 _ hv⟩
  · cases hc
    obtain ⟨t, ht, hv⟩ := a3
    exact ⟨t, by rw [Nat.zero_add]; exact ht, int_value t 10 _ hv⟩
  · cases hc
    obtain ⟨t, ht, hv⟩ := a4
    exact ⟨t, by rw [Nat.zero_add]; exact ht, int_value t 10 _ hv⟩
  · cases hc
    obtain ⟨t, ht, hv⟩ := a5
    exact ⟨t, by rw [Nat.zero_add]; exact ht, int_value t 10 _ hv⟩
  · cases hc
    obtain ⟨t, ht, hv⟩ := a6
    exact ⟨t, by rw [Nat.zero_add]; exact ht, uint_value t 10 _ hv⟩
  · cases hc
    obtain ⟨t, ht, hv⟩ := a7
    exact ⟨t, by rw [Nat.zero_add]; exact ht, uint_value t 10 _ hv⟩

set_option maxHeartbeats 2000000 in
/-- Each numeric column of a decoded remaddr line converts its token to the stored value. -/
theorem remaddr_values (leaves : List String) (ln : Nat) (r : Remaddr)
    (h : remaddrOfLeaves leaves ln = Except.ok r) :
    ∀ j name c, remaddrColumns[j]? = some (name, c) →
      ∃ t, leaves[1 + j]? = some t ∧ c.value t = (remaddrValues r)[j]? := by
  obtain ⟨_, _, a0, a1, a2, a3, a4, a5, a6⟩ := remaddrOfLeaves_ok leaves ln r h
  intro j name c hc
  have hj : j < 7 := lt_of_getElem?_some _ _ _ hc
  interval_cases j
  · cases hc
    obtain ⟨t, ht, hv⟩ := a0
    exact ⟨t, ht, int_value t 10 _ hv⟩
  · cases hc
    obtain ⟨t, ht, hv⟩ := a1
    exact ⟨t, ht, int_value t 10 _ hv⟩
  · cases hc
    obtain ⟨t, ht, hv⟩ := a2
    exact ⟨t, ht, uint_value t 10 _ hv⟩
  · cases hc
    obtain ⟨t, ht, hv⟩ := a3
    exact ⟨t, ht, int_value t 10 _ hv⟩
  · cases hc
    obtain ⟨t, ht, hv⟩ := a4
    exact ⟨t, ht, int_value t 10 _ hv⟩
  · cases hc
    obtain ⟨t, ht, hv⟩ := a5
    exact ⟨t, ht, int_value t 10 _ hv⟩
  · cases hc
    obtain ⟨t, ht, hv⟩ := a6
    exact ⟨t, ht, int_value t 10 _ hv⟩

/-- The record decoded from the tokens of a line does not depend on the line number. -/
theorem assocOfLeaves_any_line (leaves : List String) (ln k : Nat) (r : Assoc)
    (h : assocOfLeaves leaves ln = Except.ok r) : assocOfLeaves leaves k = Except.ok r := by
  obtain ⟨hlen, hh, ht, s, hs1, hs2, hsep, hmin, hL, hR⟩ := assocOfLeaves_ok leaves ln r h
  exact assocOfLeaves_of_facts leaves k r s hlen ⟨hh, ht⟩ hs1 hs2 hsep hmin hL hR

theorem epsOfLeaves_any_line (leaves : List String) (ln k : Nat) (r : EPS)
    (h : epsOfLeaves leaves ln = Except.ok r) : epsOfLeaves leaves k = Except.ok r := by
  obtain ⟨hlen, a0, a1, a2, a3, a4, a5, a6, a7, hL⟩ := epsOfLeaves_ok leaves ln r h
  have := epsOfLeaves_of_facts leaves k _ _ _ _ _ _ _ _ hlen a0 a1 a2 a3 a4 a5 a6 a7
  rw [← hL] at this
  exact this

theorem remaddrOfLeaves_any_line (leaves : List String) (ln k : Nat) (r : Remaddr)
    (h : remaddrOfLeaves leaves ln = Except.ok r) :
    remaddrOfLeaves leaves k = Except.ok r := by
  obtain ⟨hlen, a, a0, a1, a2, a3, a4, a5, a6⟩ := remaddrOfLeaves_ok leaves ln r h
  exact remaddrOfLeaves_of_facts leaves k _ _ _ _ _ _ _ _ hlen a a0 a1 a2 a3 a4 a5 a6

/-- Replacing a token outside the address region of a decoded assocs line leaves both address
lists as they were. -/
theorem assoc_addrs_replaced (leaves : List String) (ln k idx : Nat) (tok : String)
    (r r2 : Assoc) (h : assocOfLeaves leaves ln = Except.ok r)
    (h2 : assocOfLeaves (leaves.set idx tok) k = Except.ok r2)
    (hidx : idx < 13 ∨ leaves.length - 11 ≤ idx) :
    r2.LAddrs = r.LAddrs ∧ r2.RAddrs = r.RAddrs := by
  obtain ⟨hlen, _, _, s, hs1, hs2, hsep, hmin, hL, hR⟩ := assocOfLeaves_ok leaves ln r h
  obtain ⟨_, _, _, s2, ht1, ht2, hsep2, hmin2, hL2, hR2⟩ :=
    assocOfLeaves_ok (leaves.set idx tok) k r2 h2
  rw [List.length_set] at ht2 hR2
  have hne : idx ≠ s := by omega
  have hne2 : idx ≠ s2 := by omega
  rw [List.getElem?_set_ne hne2] at hsep2
  have hs : s2 = s := by
    by_contra hcon
    rcases Nat.lt_or_gt_of_ne hcon with hlt | hgt
    · exact hmin s2 ht1 hlt hsep2
    · exact hmin2 s hs1 hgt (by rw [List.getElem?_set_ne hne]; exact hsep)
  subst hs
  constructor
  · rw [hL2, hL, take_drop_set leaves 13 (s2 - 13) idx tok (by omega)]
  · rw [hR2, hR, take_drop_set leaves (s2 + 1) (leaves.length - 12 - s2) idx tok (by omega)]

/-- One leading column of a decoded assocs line given another token: the decoder fails at
that column when the conversion rejects the token, and stores the converted value, changing
nothing else, when it accepts it. -/
theorem assocs_head_replaced (leaves : List String) (ln i : Nat) (r : Assoc)
    (tok name : String) (c : Conv)
    (h : assocOfLeaves leaves ln = Except.ok r)
    (hcol : assocHeadColumns[i]? = some (name, c)) :
    (c.accepts tok = false → ∀ k, assocOfLeaves (leaves.set i tok) k
      = Except.error (Fault.err (errorfAtLine (name ++ " ") k ErrInvalidAssocsFormat))) ∧
    (∀ v, c.value tok = some v →
      ∃ r2, (∀ k, assocOfLeaves (leaves.set i tok) k = Except.ok r2) ∧
        AssocHeadSet r r2 i v) := by
  have hi : i < 13 := lt_of_getElem?_some _ _ _ hcol
  obtain ⟨hlen, _, _, s, hs1, hs2, hsep, _, _, _⟩ := assocOfLeaves_ok leaves ln r h
  have hbH := assoc_head_values leaves ln r h
  have hbT := assoc_tail_values leaves ln r h
  have haH := accepted_of_values assocHeadColumns leaves 0 (assocHeadValues r) rfl hbH
  have haT := accepted_of_values assocTailColumns leaves (leaves.length - 11)
    (assocTailValues r) rfl hbT
  have hlen2 : (leaves.set i tok).length = leaves.length := List.length_set _ _ _
  have hset0 : leaves.set i tok = leaves.set (0 + i) tok := by rw [Nat.zero_add]
  have hokH : ∀ j, j < 13 → j ≠ i →
      accepted assocHeadColumns (leaves.set i tok) 0 j = true := fun j hj hne => by
    rw [accepted_set_ne _ _ _ _ _ _ (by omega)]
    exact haH j hj
  have hself : accepted assocHeadColumns (leaves.set i tok) 0 i = c.accepts tok := by
    rw [hset0]
    exact accepted_set_eq _ _ 0 i tok name c hcol (by omega)
  constructor
  · intro hrej k
    exact head_first_failure (leaves.set i tok) k i name c (by rw [hlen2]; exact hlen) hcol
      (fun j hj => hokH j (by omega) (by omega)) (by rw [hself]; exact hrej)
  · intro v hv
    have hacc : c.accepts tok = true := (accepts_iff_value c tok).mpr ⟨v, hv⟩
    have hallH : ∀ j, j < 13 → accepted assocHeadColumns (leaves.set i tok) 0 j = true := by
      intro j hj
      by_cases hji : j = i
      · subst hji
        rw [hself]
        exact hacc
      · exact hokH j hj hji
    have hallT : ∀ j, j < 11 → accepted assocTailColumns (leaves.set i tok)
        ((leaves.set i tok).length - 11) j = true := by
      intro j hj
      rw [hlen2, accepted_set_ne _ _ _ _ _ _ (by omega)]
      exact haT j hj
    have hsep2 : (leaves.set i tok)[s]? = some "<->" := by
      rw [List.getElem?_set_ne (by omega)]
      exact hsep
    obtain ⟨r2, hr2⟩ := assocOfLeaves_of_accepted (leaves.set i tok) ln
      (by rw [hlen2]; exact hlen) hallH ⟨s, hs1, hsep2⟩ hallT
    obtain ⟨hA1, hA2⟩ := assoc_addrs_replaced leaves ln ln i tok r r2 h hr2 (Or.inl hi)
    refine ⟨r2, fun k => assocOfLeaves_any_line _ ln k r2 hr2, ?_, ?_, hA1, hA2⟩
    · exact values_set assocHeadColumns leaves 0 i tok name c v (assocHeadValues r)
        (assocHeadValues r2) rfl rfl hcol hv (by omega) hbH
        (by rw [← hset0]; exact assoc_head_values _ ln r2 hr2)
    · have hn := assoc_tail_values _ ln r2 hr2
      rw [hlen2] at hn
      exact values_same assocTailColumns leaves (leaves.set i tok) (leaves.length - 11) _ _
        rfl rfl (fun j hj => List.getElem?_set_ne (by simp [assocTailColumns] at hj; omega))
        hbT hn

/-- One trailing column of a decoded assocs line given another token: the decoder fails at
that column when the conversion rejects the token, and stores the converted value, changing
nothing else, when it accepts it. -/
theorem assocs_tail_replaced (leaves : List String) (ln i : Nat) (r : Assoc)
    (tok name : String) (c : Conv)
    (h : assocOfLeaves leaves ln = Except.ok r)
    (hcol : assocTailColumns[i]? = some (name, c)) :
    (c.accepts tok = false → ∀ k, assocOfLeaves (leaves.set (leaves.length - 11 + i) tok) k
      = Except.error (Fault.err (errorfAtLine (name ++ " ") k ErrInvalidAssocsFormat))) ∧
    (∀ v, c.value tok = some v →
      ∃ r2, (∀ k, assocOfLeaves (leaves.set (leaves.length - 11 + i) tok) k = Except.ok r2) ∧
        AssocTailSet r r2 i v) := by
  have hi : i < 11 := lt_of_getElem?_some _ _ _ hcol
  obtain ⟨hlen, _, _, s, hs1, hs2, hsep, _, _, _⟩ := assocOfLeaves_ok leaves ln r h
  have hbH := assoc_head_values leaves ln r h
  have hbT := assoc_tail_values leaves ln r h
  have haH := accepted_of_values assocHeadColumns leaves 0 (assocHeadValues r) rfl hbH
  have haT := accepted_of_values assocTailColumns leaves (leaves.length - 11)
    (assocTailValues r) rfl hbT
  generalize hidx : leaves.length - 11 + i = idx at *
  have hlen2 : (leaves.set idx tok).length = leaves.length := List.length_set _ _ _
  have hallH : ∀ j, j < 13 → accepted assocHeadColumns (leaves.set idx tok) 0 j = true :=
    fun j hj => by
      rw [accepted_set_ne _ _ _ _ _ _ (by omega)]
      exact haH j hj
  have hokT : ∀ j, j < 11 → j ≠ i →
      accepted assocTailColumns (leaves.set idx tok) ((leaves.set idx tok).length - 11) j
        = true := fun j hj hne => by
    rw [hlen2, accepted_set_ne _ _ _ _ _ _ (by omega)]
    exact haT j hj
  have hself : accepted assocTailColumns (leaves.set idx tok)
      ((leaves.set idx tok).length - 11) i = c.accepts tok := by
    rw [hlen2, ← hidx]
    exact accepted_set_eq _ _ _ i tok name c hcol (by omega)
  have hsep2 : (leaves.set idx tok)[s]? = some "<->" := by
    rw [List.getElem?_set_ne (by omega)]
    exact hsep
  constructor
  · intro hrej k
    exact tail_first_failure (leaves.set idx tok) k i name c (by rw [hlen2]; exact hlen) hcol
      hallH ⟨s, hs1, hsep2⟩ (fun j hj => hokT j (by omega) (by omega))
      (by rw [hself]; exact hrej)
  · intro v hv
    have hacc : c.accepts tok = true := (accepts_iff_value c tok).mpr ⟨v, hv⟩
    have hallT : ∀ j, j < 11 → accepted assocTailColumns (leaves.set idx tok)
        ((leaves.set idx tok).length - 11) j = true := by
      intro j hj
      by_cases hji : j = i
      · subst hji
        rw [hself]
        exact hacc
      · exact hokT j hj hji
    obtain ⟨r2, hr2⟩ := assocOfLeaves_of_accepted (leaves.set idx tok) ln
      (by rw [hlen2]; exact hlen) hallH ⟨s, hs1, hsep2⟩ hallT
    obtain ⟨hA1, hA2⟩ := assoc_addrs_replaced leaves ln ln idx tok r r2 h hr2
      (Or.inr (by omega))
    refine ⟨r2, fun k => assocOfLeaves_any_line _ ln k r2 hr2, ?_, ?_, hA1, hA2⟩
    · exact values_same assocHeadColumns leaves (leaves.set idx tok) 0 _ _
        rfl rfl (fun j hj => List.getElem?_set_ne (by simp [assocHeadColumns] at hj; omega))
        hbH (assoc_head_values _ ln r2 hr2)
    · have hn := assoc_tail_values _ ln r2 hr2
      rw [hlen2, ← hidx] at hn
      exact values_set assocTailColumns leaves (leaves.length - 11) i tok name c v
        (assocTailValues r) (assocTailValues r2) rfl rfl hcol hv (by omega) hbT hn

/-- One numeric column of a decoded eps line given another token. -/
theorem eps_replaced (leaves : List String) (ln i : Nat) (r : EPS)
    (tok name : String) (c : Conv)
    (h : epsOfLeaves leaves ln = Except.ok r)
    (hcol : epsColumns[i]? = some (name, c)) :
    (c.accepts tok = false → ∀ k, epsOfLeaves (leaves.set i tok) k
      = Except.error (Fault.err (errorfAtLine (name ++ " ") k ErrInvalidEPSFormat))) ∧
    (∀ v, c.value tok = some v →
      ∃ r2, (∀ k, epsOfLeaves (leaves.set i tok) k = Except.ok r2) ∧ EpsSet r r2 i v) := by
  have hi : i < 8 := lt_of_getElem?_some _ _ _ hcol
  obtain ⟨hlen, _, _, _, _, _, _, _, _, hL⟩ := epsOfLeaves_ok leaves ln r h
  have hb := eps_values leaves ln r h
  have ha := accepted_of_values epsColumns leaves 0 (epsValues r) rfl hb
  have hlen2 : (leaves.set i tok).length = leaves.length := List.length_set _ _ _
  have hset0 : leaves.set i tok = leaves.set (0 + i) tok := by rw [Nat.zero_add]
  have hok : ∀ j, j < 8 → j ≠ i → accepted epsColumns (leaves.set i tok) 0 j = true :=
    fun j hj hne => by
      rw [accepted_set_ne _ _ _ _ _ _ (by omega)]
      exact ha j hj
  have hself : accepted epsColumns (leaves.set i tok) 0 i = c.accepts tok := by
    rw [hset0]
    exact accepted_set_eq _ _ 0 i tok name c hcol (by omega)
  constructor
  · intro hrej k
    exact eps_first_failure (leaves.set i tok) k i name c (by rw [hlen2]; exact hlen) hcol
      (fun j hj => hok j (by omega) (by omega)) (by rw [hself]; exact hrej)
  · intro v hv
    have hacc : c.accepts tok = true := (accepts_iff_value c tok).mpr ⟨v, hv⟩
    have hall : ∀ j, j < 8 → accepted epsColumns (leaves.set i tok) 0 j = true := by
      intro j hj
      by_cases hji : j = i
      · subst hji
        rw [hself]
        exact hacc
      · exact hok j hj hji
    obtain ⟨r2, hr2⟩ := epsOfLeaves_of_accepted (leaves.set i tok) ln
      (by rw [hlen2]; exact hlen) hall
    obtain ⟨_, _, _, _, _, _, _, _, _, hL2⟩ := epsOfLeaves_ok _ ln r2 hr2
    refine ⟨r2, fun k => epsOfLeaves_any_line _ ln k r2 hr2, ?_, ?_⟩
    · exact values_set epsColumns leaves 0 i tok name c v (epsValues r)
        (epsValues r2) rfl rfl hcol hv (by omega) hb
        (by rw [← hset0]; exact eps_values _ ln r2 hr2)
    · rw [hL2, hL, List.drop_set_of_lt _ _ hi]

/-- One numeric column of a decoded remaddr line given another token. -/
theorem remaddr_replaced (leaves : List String) (ln i : Nat) (r : Remaddr)
    (tok name : String) (c : Conv)
    (h : remaddrOfLeaves leaves ln = Except.ok r)
    (hcol : remaddrColumns[i]? = some (name, c)) :
    (c.accepts tok = false → ∀ k, remaddrOfLeaves (leaves.set (1 + i) tok) k
      = Except.error (Fault.err (errorfAtLine (name ++ " ") k ErrInvalidRemaddrFormat))) ∧
    (∀ v, c.value tok = some v →
      ∃ r2, (∀ k, remaddrOfLeaves (leaves.set (1 + i) tok) k = Except.ok r2) ∧
        RemaddrSet r r2 i v) := by
  have hi : i < 7 := lt_of_getElem?_some _ _ _ hcol
  obtain ⟨hlen, hA, _⟩ := remaddrOfLeaves_ok leaves ln r h
  have hb := remaddr_values leaves ln r h
  have ha := accepted_of_values remaddrColumns leaves 1 (remaddrValues r) rfl hb
  have hlen2 : (leaves.set (1 + i) tok).length = leaves.length := List.length_set _ _ _
  have hok : ∀ j, j < 7 → j ≠ i →
      accepted remaddrColumns (leaves.set (1 + i) tok) 1 j = true :=
    fun j hj hne => by
      rw [accepted_set_ne _ _ _ _ _ _ (by omega)]
      exact ha j hj
  have hself : accepted remaddrColumns (leaves.set (1 + i) tok) 1 i = c.accepts tok :=
    accepted_set_eq _ _ 1 i tok name c hcol (by omega)
  constructor
  · intro hrej k
    exact remaddr_first_failure (leaves.set (1 + i) tok) k i name c
      (by rw [hlen2]; exact hlen) hcol
      (fun j hj => hok j (by omega) (by omega)) (by rw [hself]; exact hrej)
  · intro v hv
    have hacc : c.accepts tok = true := (accepts_iff_value c tok).mpr ⟨v, hv⟩
    have hall : ∀ j, j < 7 → accepted remaddrColumns (leaves.set (1 + i) tok) 1 j = true := by
      intro j hj
      by_cases hji : j = i
      · subst hji
        rw [hself]
        exact hacc
      · exact hok j hj hji
    obtain ⟨r2, hr2⟩ := remaddrOfLeaves_of_accepted (leaves.set (1 + i) tok) ln
      (by rw [hlen2]; exact hlen) hall
    obtain ⟨_, hA2, _⟩ := remaddrOfLeaves_ok _ ln r2 hr2
    refine ⟨r2, fun k => remaddrOfLeaves_any_line _ ln k r2 hr2, ?_, ?_⟩
    · exact values_set remaddrColumns leaves 1 i tok name c v (remaddrValues r)
        (remaddrValues r2) rfl rfl hcol hv (by omega) hb (remaddr_values _ ln r2 hr2)
    · rw [List.getElem?_set_ne (by omega), hA] at hA2
      exact (Option.some.inj hA2).symm

/-- A line of at least two tokens whose tokens decode, whatever the line number, is decoded
by the call. -/
theorem decodesTo_of_leaves {α : Type} (body : String → Nat → Except Fault α) (text : String)
    (r : α) (h2 : 2 ≤ (leavesOf text).length) (h : ∀ k, body text k = Except.ok r) :
    DecodesTo body text r :=
  ⟨h, fun rest => parseTable_single body text rest r (ne_empty_of_tokens text h2) (h 1)⟩

/-- A line of at least two tokens on which the body fails at a column, whatever the line
number, makes the call fail with that error. -/
theorem rejectsColumn_of_leaves {α : Type} (body : String → Nat → Except Fault α)
    (text name : String) (sentinel : Sentinel) (h2 : 2 ≤ (leavesOf text).length)
    (h : ∀ k, body text k
      = Except.error (Fault.err (errorfAtLine (name ++ " ") k sentinel))) :
    RejectsColumn body text name sentinel :=
  ⟨h, fun noHeader hdr pre post hhdr hpre =>
    parseTable_line_error body noHeader hdr pre post text _ hhdr hpre
      (ne_empty_of_tokens text h2) (h _)⟩

/-- Line-level form of `assocs_head_replaced`. -/
theorem assocs_head_column (text text2 : String) (ln i : Nat) (r : Assoc)
    (tok name : String) (c : Conv)
    (h : assocOfLine text ln = Except.ok r)
    (hcol : assocHeadColumns[i]? = some (name, c))
    (hset : leavesOf text2 = (leavesOf text).set i tok) :
    (c.accepts tok = false → RejectsColumn assocOfLine text2 name ErrInvalidAssocsFormat) ∧
    (∀ v, c.value tok = some v →
      ∃ r2, DecodesTo assocOfLine text2 r2 ∧ AssocHeadSet r r2 i v) := by
  obtain ⟨hlen, _⟩ := assocOfLeaves_ok (leavesOf text) ln r h
  have h2 : 2 ≤ (leavesOf text2).length := by
    rw [hset, List.length_set]
    omega
  obtain ⟨hr, ha⟩ := assocs_head_replaced (leavesOf text) ln i r tok name c h hcol
  rw [← hset] at hr ha
  refine ⟨fun hrej => rejectsColumn_of_leaves _ _ _ _ h2 (hr hrej), fun v hv => ?_⟩
  obtain ⟨r2, hd, hs⟩ := ha v hv
  exact ⟨r2, decodesTo_of_leaves _ _ _ h2 hd, hs⟩

/-- Line-level form of `assocs_tail_replaced`. -/
theorem assocs_tail_column (text text2 : String) (ln i : Nat) (r : Assoc)
    (tok name : String) (c : Conv)
    (h : assocOfLine text ln = Except.ok r)
    (hcol : assocTailColumns[i]? = some (name, c))
    (hset : leavesOf text2 = (leavesOf text).set ((leavesOf text).length - 11 + i) tok) :
    (c.accepts tok = false → RejectsColumn assocOfLine text2 name ErrInvalidAssocsFormat) ∧
    (∀ v, c.value tok = some v →
      ∃ r2, DecodesTo assocOfLine text2 r2 ∧ AssocTailSet r r2 i v) := by
  obtain ⟨hlen, _⟩ := assocOfLeaves_ok (leavesOf text) ln r h
  have h2 : 2 ≤ (leavesOf text2).length := by
    rw [hset, List.length_set]
    omega
  obtain ⟨hr, ha⟩ := assocs_tail_replaced (leavesOf text) ln i r tok name c h hcol
  rw [← hset] at hr ha
  refine ⟨fun hrej => rejectsColumn_of_leaves _ _ _ _ h2 (hr hrej), fun v hv => ?_⟩
  obtain ⟨r2, hd, hs⟩ := ha v hv
  exact ⟨r2, decodesTo_of_leaves _ _ _ h2 hd, hs⟩

/-- Line-level form of `eps_replaced`. -/
theorem eps_column (text text2 : String) (ln i : Nat) (r : EPS)
    (tok name : String) (c : Conv)
    (h : epsOfLine text ln = Except.ok r)
    (hcol : epsColumns[i]? = some (name, c))
    (hset : leavesOf text2 = (leavesOf text).set i tok) :
    (c.accepts tok = false → RejectsColumn epsOfLine text2 name ErrInvalidEPSFormat) ∧
    (∀ v, c.value tok = some v → ∃ r2, DecodesTo epsOfLine text2 r2 ∧ EpsSet r r2 i v) := by
  obtain ⟨hlen, _⟩ := epsOfLeaves_ok (leavesOf text) ln r h
  have h2 : 2 ≤ (leavesOf text2).length := by
    rw [hset, List.length_set]
    omega
  obtain ⟨hr, ha⟩ := eps_replaced (leavesOf text) ln i r tok name c h hcol
  rw [← hset] at hr ha
  refine ⟨fun hrej => rejectsColumn_of_leaves _ _ _ _ h2 (hr hrej), fun v hv => ?_⟩
  obtain ⟨r2, hd, hs⟩ := ha v hv
  exact ⟨r2, decodesTo_of_leaves _ _ _ h2 hd, hs⟩

/-- Line-level form of `remaddr_replaced`. -/
theorem remaddr_column (text text2 : String) (ln i : Nat) (r : Remaddr)
    (tok name : String) (c : Conv)
    (h : remaddrOfLine text ln = Except.ok r)
    (hcol : remaddrColumns[i]? = some (name, c))
    (hset : leavesOf text2 = (leavesOf text).set (1 + i) tok) :
    (c.accepts tok = false →
      RejectsColumn remaddrOfLine text2 name ErrInvalidRemaddrFormat) ∧
    (∀ v, c.value tok = some v →
      ∃ r2, DecodesTo remaddrOfLine text2 r2 ∧ RemaddrSet r r2 i v) := by
  obtain ⟨hlen, _⟩ := remaddrOfLeaves_ok (leavesOf text) ln r h
  have h2 : 2 ≤ (leavesOf text2).length := by
    rw [hset, List.length_set]
    omega
  obtain ⟨hr, ha⟩ := remaddr_replaced (leavesOf text) ln i r tok name c h hcol
  rw [← hset] at hr ha
  refine ⟨fun hrej => rejectsColumn_of_leaves _ _ _ _ h2 (hr hrej), fun v hv => ?_⟩
  obtain ⟨r2, hd, hs⟩ := ha v hv
  exact ⟨r2, decodesTo_of_leaves _ _ _ h2 hd, hs⟩

theorem string_eta (t : String) : String.mk t.data = t := rfl

/-- What `strconv.ParseInt` gives on a `+` followed by a string of digits of the base. -/
theorem ParseInt_plus_digits (base : Nat) (hb : 2 ≤ base) (ds : List Char)
    (h : IsDigits base ds) :
    ParseInt (String.mk ('+' :: ds)) base 64
      = if digitsValue base 0 ds < 2 ^ 63 then Except.ok (digitsValue base 0 ds : Int)
        else Except.error NumError.ErrRange := by
  have hPU := ParseUint_digits base hb (String.mk ds) h
  simp only at hPU
  generalize digitsValue base 0 ds = v at hPU ⊢
  unfold ParseInt
  have hneg : ('+' == '-') = false := by decide
  simp only [beq_self_eq_true, true_or, if_true, hneg, Bool.not_false, Bool.false_eq_true,
    false_and, if_false, true_and]
  rw [hPU]
  by_cases hv : v < 2 ^ 64
  · rw [if_pos hv]
    simp only
    by_cases hv2 : v < 2 ^ 63
    · rw [if_neg (by omega), if_pos hv2]
    · rw [if_pos (by omega), if_neg hv2]
  · rw [if_neg hv]
    simp only
    rw [if_pos (by norm_num)]
    rw [if_neg (by omega)]

theorem accepts_false_of_error (c : Conv) (t : String) (h : c.value t = none) :
    c.accepts t = false := by
  cases hA : c.accepts t with
  | false => rfl
  | true =>
    obtain ⟨v, hv⟩ := (accepts_iff_value c t).mp hA
    rw [h] at hv
    cases hv

/-- A token of hexadecimal digits whose value fits 64 bits converts to that value in a
base-16 column, and is rejected when the value does not fit. -/
theorem hex_value (tok : String) (h : IsDigits 16 tok.data) :
    (digitsValue 16 0 tok.data < 2 ^ 64 →
      (Conv.uint 16).value tok = some (digitsValue 16 0 tok.data : Int)) ∧
    (2 ^ 64 ≤ digitsValue 16 0 tok.data → (Conv.uint 16).accepts tok = false) := by
  have hP := ParseUint_digits 16 (by decide) tok h
  constructor
  · intro hv
    rw [if_pos hv] at hP
    exact uint_value tok 16 _ hP
  · intro hv
    rw [if_neg (by omega)] at hP
    simp only [Conv.accepts, hP]
    rfl

/-- The token `ff` is rejected by both base-10 conversions and `10` is converted to 10. -/
theorem base10_examples (c : Conv) (h : c = Conv.uint 10 ∨ c = Conv.int 10) :
    c.accepts "ff" = false ∧ c.value "10" = some 10 := by
  rcases h with rfl | rfl
  · exact ⟨by decide, by decide⟩
  · exact ⟨by decide, by decide⟩

theorem digitsValue_mono (b1 b2 : Nat) (hb : b1 ≤ b2) :
    ∀ (ds : List Char) (a1 a2 : Nat), a1 ≤ a2 →
      digitsValue b1 a1 ds ≤ digitsValue b2 a2 ds := by
  intro ds
  induction ds with
  | nil => intro a1 a2 h; exact h
  | cons c cs ih =>
    intro a1 a2 h
    rw [digitsValue_cons, digitsValue_cons]
    apply ih
    have := Nat.mul_le_mul h hb
    omega

theorem isDigits_mono (b1 b2 : Nat) (hb : b1 ≤ b2) (ds : List Char) (h : IsDigits b1 ds) :
    IsDigits b2 ds :=
  ⟨h.1, fun c hc => by
    obtain ⟨d, hd, hlt⟩ := h.2 c hc
    exact ⟨d, hd, by omega⟩⟩

/-- A token starting with `-` is rejected by every unsigned conversion. -/
theorem uint_rejects_minus (b : Nat) (cs : List Char) :
    (Conv.uint b).accepts (String.mk ('-' :: cs)) = false := by
  simp only [Conv.accepts, ParseUint_minus]
  rfl

/-- A string of decimal digits whose value is at least `2 ^ 64` is rejected by the unsigned
conversions of base 10 and of base 16. -/
theorem uint_rejects_wide (b : Nat) (hb : b = 10 ∨ b = 16) (ds : List Char)
    (h : IsDigits 10 ds) (hv : 2 ^ 64 ≤ digitsValue 10 0 ds) :
    (Conv.uint b).accepts (String.mk ds) = false := by
  have hb10 : 10 ≤ b := by omega
  have h2 : IsDigits b (String.mk ds).data := isDigits_mono 10 b hb10 ds h
  have hP := ParseUint_digits b (by omega) (String.mk ds) h2
  have hm := digitsValue_mono 10 b hb10 ds 0 0 (le_refl 0)
  simp only at hP
  rw [if_neg (by omega)] at hP
  simp only [Conv.accepts, hP]
  rfl

/-- The signed base-10 conversion on a decimal token: a negative token within the range is
converted to its negative value; a token outside `[-2^63, 2^63 - 1]` is rejected. -/
theorem int_decimal (ds : List Char) (h : IsDigits 10 ds) :
    (digitsValue 10 0 ds ≤ 2 ^ 63 →
      (Conv.int 10).value (String.mk ('-' :: ds)) = some (-(digitsValue 10 0 ds : Int))) ∧
    (2 ^ 63 < digitsValue 10 0 ds → (Conv.int 10).accepts (String.mk ('-' :: ds)) = false) ∧
    (2 ^ 63 ≤ digitsValue 10 0 ds → (Conv.int 10).accepts (String.mk ds) = false) ∧
    (2 ^ 63 ≤ digitsValue 10 0 ds → (Conv.int 10).accepts (String.mk ('+' :: ds)) = false) := by
  have hN := ParseInt_neg_digits 10 (by decide) ds h
  have hD := ParseInt_digits 10 (by decide) (String.mk ds) h
  have hPl := ParseInt_plus_digits 10 (by decide) ds h
  simp only at hD
  refine ⟨?_, ?_, ?_, ?_⟩
  · intro hv
    rw [if_pos hv] at hN
    exact int_value _ 10 _ hN
  · intro hv
    rw [if_neg (by omega)] at hN
    simp only [Conv.accepts, hN]
    rfl
  · intro hv
    rw [if_neg (by omega)] at hD
    simp only [Conv.accepts, hD]
    rfl
  · intro hv
    rw [if_neg (by omega)] at hPl
    simp only [Conv.accepts, hPl]
    rfl

/-- A checkable form of `IsDigits`. -/
theorem isDigits_of_all (base : Nat) (ds : List Char) (hne : ds ≠ [])
    (h : ds.all (fun c => match digitVal c.toNat with
      | some d => decide (d < base)
      | none => false) = true) : IsDigits base ds := by
  refine ⟨hne, fun c hc => ?_⟩
  have := List.all_eq_true.mp h c hc
  cases hd : digitVal c.toNat with
  | none => rw [hd] at this; cases this
  | some d =>
    rw [hd] at this
    exact ⟨d, rfl, by simpa using this⟩

/-- One numeric column of a decoded line of any of the three tables given another token: the
parse fails at that column with the table's invalid-format error when the conversion of the
column rejects the token, and stores the converted value, changing no other field, when the
conversion accepts it. -/
theorem column_replaced (g : Group) (text text2 : String) (ln i : Nat) (r : g.Record)
    (tok name : String) (c : Conv)
    (h : g.body text ln = Except.ok r) (hcol : g.columns[i]? = some (name, c))
    (hset : leavesOf text2
      = (leavesOf text).set (g.offset (leavesOf text).length + i) tok) :
    (c.accepts tok = false → g.Rejects text2 name) ∧
    (∀ v, c.value tok = some v → g.Stores text2 r i v) := by
  cases g with
  | assocHead =>
    simp only [Group.offset, Nat.zero_add] at hset
    exact assocs_head_column text text2 ln i r tok name c h hcol hset
  | assocTail => exact assocs_tail_column text text2 ln i r tok name c h hcol hset
  | eps =>
    simp only [Group.offset, Nat.zero_add] at hset
    exact eps_column text text2 ln i r tok name c h hcol hset
  | remaddr => exact remaddr_column text text2 ln i r tok name c h hcol hset

set_option maxHeartbeats 4000000 in
/-- The conversion of each column: base 16 and unsigned for the two handle columns of the
assocs and eps tables, base 10 for every other column; the unsigned columns are the handles,
UID, INODE, HBINT and RTO. -/
theorem column_kinds (g : Group) (i : Nat) (name : String) (c : Conv)
    (hcol : g.columns[i]? = some (name, c)) :
    (c = Conv.uint 16 ∨ c = Conv.uint 10 ∨ c = Conv.int 10) ∧
    (c = Conv.uint 16 ↔ (g = Group.assocHead ∨ g = Group.eps) ∧ i < 2) ∧
    (c = Conv.uint 16 ↔ (g, name) ∈ [(Group.assocHead, "ASSOC"), (Group.assocHead, "SOCK"),
      (Group.eps, "ENDPT"), (Group.eps, "SOCK")]) ∧
    ((∃ b, c = Conv.uint b) ↔ (g, name) ∈ [(Group.assocHead, "ASSOC"),
      (Group.assocHead, "SOCK"), (Group.assocHead, "UID"), (Group.assocHead, "INODE"),
      (Group.assocTail, "HBINT"), (Group.eps, "ENDPT"), (Group.eps, "SOCK"),
      (Group.eps, "UID"), (Group.eps, "INODE"), (Group.remaddr, "RTO")]) := by
  have hi : i < 13 := by
    have := lt_of_getElem?_some _ _ _ hcol
    cases g <;> simp [Group.columns, assocHeadColumns, assocTailColumns, epsColumns,
      remaddrColumns] at this <;> omega
  cases g <;> interval_cases i <;>
    simp [Group.columns, assocHeadColumns, assocTailColumns, epsColumns, remaddrColumns]
      at hcol <;>
    obtain ⟨rfl, rfl⟩ := hcol <;> simp

/-! ## Bases, signedness and range -/

set_option maxRecDepth 20000 in
/-- Claim C18, as stated, fails on a handle token of hexadecimal digits whose value does not
fit 64 bits. The token `10000000000000000` is made of 17 hexadecimal digits and has the
base-16 value `2 ^ 64`; put in the place of ASSOC in the first data line of
`Test_ParseAssocs`, which decodes, it is not accepted: the call fails with
`ASSOC at line #1: invalid assocs format`. -/
theorem wide_hex_handle_rejected :
    IsDigits 16 "10000000000000000".data ∧
    digitsValue 16 0 "10000000000000000".data = 2 ^ 64 ∧
    leavesOf assocsLineWideHandle = (leavesOf assocsLine1).set 0 "10000000000000000" ∧
    ParseAssocs [assocsLine1] [true] = Outcome.returned (some [assocsRecord1]) none ∧
    ParseAssocs [assocsLineWideHandle] [true]
      = Outcome.returned none
          (some { msg := "ASSOC at line #1: invalid assocs format",
                  wrapped := ErrInvalidAssocsFormat }) :=
  ⟨isDigits_of_all 16 _ (by decide) (by decide), by decide, by decide, by rfl, by rfl⟩

/-- Claim C18, amended. In a line of any of the three tables that decodes, give one numeric
column the token `tok`. The base-16 columns are exactly the two handle columns of the assocs
and eps tables (ASSOC, SOCK; ENDPT, SOCK); every other numeric column is read in base 10. In
a handle column a token of hexadecimal digits whose base-16 value is below `2 ^ 64` is
accepted and stored as that value, every other field unchanged; `ff` is stored as 255 and
`10` as 16. In a base-10 column `ff` makes the parse fail with the table's invalid-format
error naming the column, and `10` is stored as 10. -/
theorem columns_base (g : Group) (text text2 : String) (ln i : Nat) (r : g.Record)
    (tok name : String) (c : Conv)
    (h : g.body text ln = Except.ok r) (hcol : g.columns[i]? = some (name, c))
    (hset : leavesOf text2
      = (leavesOf text).set (g.offset (leavesOf text).length + i) tok) :
    (c = Conv.uint 16 ↔ (g, name) ∈ [(Group.assocHead, "ASSOC"), (Group.assocHead, "SOCK"),
      (Group.eps, "ENDPT"), (Group.eps, "SOCK")]) ∧
    (c ≠ Conv.uint 16 → c = Conv.uint 10 ∨ c = Conv.int 10) ∧
    (c = Conv.uint 16 → IsDigits 16 tok.data → digitsValue 16 0 tok.data < 2 ^ 64 →
      g.Stores text2 r i (digitsValue 16 0 tok.data)) ∧
    (c = Conv.uint 16 → tok = "ff" → g.Stores text2 r i 255) ∧
    (c = Conv.uint 16 → tok = "10" → g.Stores text2 r i 16) ∧
    (c ≠ Conv.uint 16 → tok = "ff" → g.Rejects text2 name) ∧
    (c ≠ Conv.uint 16 → tok = "10" → g.Stores text2 r i 10) := by
  obtain ⟨hk1, _, hk3, _⟩ := column_kinds g i name c hcol
  obtain ⟨hrej, hacc⟩ := column_replaced g text text2 ln i r tok name c h hcol hset
  have h10 : c ≠ Conv.uint 16 → c = Conv.uint 10 ∨ c = Conv.int 10 := by
    intro hne
    rcases hk1 with h1 | h1 | h1
    · exact absurd h1 hne
    · exact Or.inl h1
    · exact Or.inr h1
  refine ⟨hk3, h10, ?_, ?_, ?_, ?_, ?_⟩
  · intro hc hd hv
    subst hc
    exact hacc _ ((hex_value tok hd).1 hv)
  · intro hc ht
    subst hc ht
    exact hacc 255 (by decide)
  · intro hc ht
    subst hc ht
    exact hacc 16 (by decide)
  · intro hc ht
    subst ht
    exact hrej (base10_examples c (h10 hc)).1
  · intro hc ht
    subst ht
    exact hacc 10 (base10_examples c (h10 hc)).2

set_option maxRecDepth 20000 in
/-- Witness for C18: in the first data line of `Test_ParseAssocs` the token `ff` as ASSOC is
stored as 255, and in the line of `TestParseEPS_MultipleLAddress` the token `ff` as STY makes
`ParseEPS` fail with `STY at line #1: invalid EPS format`. -/
theorem columns_base_witness :
    Group.assocHead.Stores assocsLineHexHandle assocsRecord1 0 255 ∧
    Group.eps.Rejects epsLineHexSty "STY" ∧
    ParseEPS [epsLineHexSty] [true]
      = Outcome.returned none
          (some { msg := "STY at line #1: invalid EPS format",
                  wrapped := ErrInvalidEPSFormat }) :=
  ⟨(columns_base Group.assocHead assocsLine1 assocsLineHexHandle 2 0 assocsRecord1 "ff"
      "ASSOC" (Conv.uint 16) (by rfl) (by rfl) (by decide)).2.2.2.1 rfl rfl,
   (columns_base Group.eps epsLineMultiple epsLineHexSty 2 2 epsRecordMultiple "ff"
      "STY" (Conv.int 10) (by rfl) (by rfl) (by decide)).2.2.2.2.2.1 (by decide) rfl,
   by rfl⟩

/-- Claim C19. In a line of any of the three tables that decodes, give one numeric column
the token `tok`. The unsigned columns are ASSOC, SOCK, UID, INODE and HBINT of assocs, ENDPT,
SOCK, UID and INODE of eps, and RTO of remaddr; every other numeric column is signed and read
in base 10. A token with a leading `-` in an unsigned column makes the parse fail with the
table's invalid-format error naming the column. In a signed column a `-` followed by decimal
digits of value at most `2 ^ 63` is accepted and stored as the negative value, every other
field unchanged; a decimal token below `-2 ^ 63` or, with or without a `+`, of value at
least `2 ^ 63` makes the parse fail at that column. In an unsigned column a string of
decimal digits of value at least `2 ^ 64` makes the parse fail at that column. -/
theorem signedness_and_range (g : Group) (text text2 : String) (ln i : Nat) (r : g.Record)
    (tok name : String) (c : Conv) (ds : List Char)
    (h : g.body text ln = Except.ok r) (hcol : g.columns[i]? = some (name, c))
    (hset : leavesOf text2
      = (leavesOf text).set (g.offset (leavesOf text).length + i) tok) :
    ((∃ b, c = Conv.uint b) ↔ (g, name) ∈ [(Group.assocHead, "ASSOC"),
      (Group.assocHead, "SOCK"), (Group.assocHead, "UID"), (Group.assocHead, "INODE"),
      (Group.assocTail, "HBINT"), (Group.eps, "ENDPT"), (Group.eps, "SOCK"),
      (Group.eps, "UID"), (Group.eps, "INODE"), (Group.remaddr, "RTO")]) ∧
    ((¬ ∃ b, c = Conv.uint b) → c = Conv.int 10) ∧
    ((∃ b, c = Conv.uint b) → tok = String.mk ('-' :: ds) → g.Rejects text2 name) ∧
    (c = Conv.int 10 → IsDigits 10 ds → tok = String.mk ('-' :: ds) →
      digitsValue 10 0 ds ≤ 2 ^ 63 → g.Stores text2 r i (-(digitsValue 10 0 ds : Int))) ∧
    (c = Conv.int 10 → IsDigits 10 ds → tok = String.mk ('-' :: ds) →
      2 ^ 63 < digitsValue 10 0 ds → g.Rejects text2 name) ∧
    (c = Conv.int 10 → IsDigits 10 ds → tok = String.mk ds ∨ tok = String.mk ('+' :: ds) →
      2 ^ 63 ≤ digitsValue 10 0 ds → g.Rejects text2 name) ∧
    ((∃ b, c = Conv.uint b) → IsDigits 10 ds → tok = String.mk ds →
      2 ^ 64 ≤ digitsValue 10 0 ds → g.Rejects text2 name) := by
  obtain ⟨hk1, _, _, hk4⟩ := column_kinds g i name c hcol
  obtain ⟨hrej, hacc⟩ := column_replaced g text text2 ln i r tok name c h hcol hset
  refine ⟨hk4, ?_, ?_, ?_, ?_, ?_, ?_⟩
  · intro hne
    rcases hk1 with h1 | h1 | h1
    · exact absurd ⟨16, h1⟩ hne
    · exact absurd ⟨10, h1⟩ hne
    · exact h1
  · rintro ⟨b, rfl⟩ ht
    subst ht
    exact hrej (uint_rejects_minus b ds)
  · intro hc hd ht hv
    subst hc ht
    exact hacc _ ((int_decimal ds hd).1 hv)
  · intro hc hd ht hv
    subst hc ht
    exact hrej ((int_decimal ds hd).2.1 hv)
  · intro hc hd ht hv
    subst hc
    rcases ht with ht | ht
    · subst ht
      exact hrej ((int_decimal ds hd).2.2.1 hv)
    · subst ht
      exact hrej ((int_decimal ds hd).2.2.2 hv)
  · rintro ⟨b, rfl⟩ hd ht hv
    subst ht
    have hb : b = 10 ∨ b = 16 := by
      rcases hk1 with h1 | h1 | h1
      · exact Or.inr (Conv.uint.inj h1)
      · exact Or.inl (Conv.uint.inj h1)
      · cases h1
    exact hrej (uint_rejects_wide b hb ds hd hv)

set_option maxRecDepth 20000 in
/-- Witness for C19: in the second data line of `TestParseRemaddr` the token `-3000` as RTO
makes `ParseRemaddr` fail with `RTO at line #1: invalid Remaddr format`; in the first data
line of `Test_ParseAssocs` the token `-12345` as LPORT is stored as -12345. -/
theorem signedness_and_range_witness :
    Group.remaddr.Rejects remaddrLineNegativeRto "RTO" ∧
    ParseRemaddr [remaddrLineNegativeRto] [true]
      = Outcome.returned none
          (some { msg := "RTO at line #1: invalid Remaddr format",
                  wrapped := ErrInvalidRemaddrFormat }) ∧
    Group.assocHead.Stores assocsLineNegativePort assocsRecord1 11 (-12345) :=
  ⟨(signedness_and_range Group.remaddr "127.0.0.20  69 1 3000 5 0 0 3"
      remaddrLineNegativeRto 3 2
      ({ Addr := "127.0.0.20", AssocID := 69, HbAct := 1, RTO := 3000, MaxPathRtx := 5,
         RemAddrRtx := 0, Start := 0, State := 3 } : Remaddr)
      "-3000" "RTO" (Conv.uint 10) "3000".data (by rfl) (by rfl) (by decide)).2.2.1
      ⟨10, rfl⟩ rfl,
   by rfl,
   (signedness_and_range Group.assocHead assocsLine1 assocsLineNegativePort 2 11
      assocsRecord1 "-12345" "LPORT" (Conv.int 10) "12345".data (by rfl) (by rfl)
      (by decide)).2.2.2.1 rfl (isDigits_of_all 10 _ (by decide) (by decide)) rfl (by decide)⟩

/-! ## Totality of the decoders and of the loops -/

/-- The decoding of an assocs line has one of three forms, whatever the line number: a
record, an error that names the line, or the missing-separator error, which names none. -/
theorem assocOfLeaves_shape (leaves : List String) :
    (∃ r, ∀ k, assocOfLeaves leaves k = Except.ok r) ∨
    (∃ col s, ∀ k, assocOfLeaves leaves k = Except.error (Fault.err (errorfAtLine col k s))) ∨
    (∀ k, assocOfLeaves leaves k
      = Except.error (Fault.err (errorfPlain
          "there is no separater ('<->') for laddr and raddr" ErrInvalidAssocsFormat))) := by
  by_cases hlen : leaves.length < 27
  · right; left
    exact ⟨"", ErrInsufficientNumberOfAssocItems, fun k => by
      simp only [assocOfLeaves, if_pos hlen]⟩
  · have h27 : 27 ≤ leaves.length := by omega
    by_cases hhead : ∀ j, j < 13 → accepted assocHeadColumns leaves 0 j = true
    · by_cases hsep : ∃ s, 13 ≤ s ∧ leaves[s]? = some "<->"
      · by_cases htail : ∀ j, j < 11 →
            accepted assocTailColumns leaves (leaves.length - 11) j = true
        · left
          obtain ⟨r, hr⟩ := assocOfLeaves_of_accepted leaves 0 h27 hhead hsep htail
          exact ⟨r, fun k => assocOfLeaves_any_line leaves 0 k r hr⟩
        · right; left
          obtain ⟨i, hi, hok, hfail⟩ := exists_first_rejected _ _ _ _ htail
          have hlt : i < assocTailColumns.length := by
            simp only [assocTailColumns, List.length_cons, List.length_nil]; omega
          exact ⟨_, ErrInvalidAssocsFormat, fun k =>
            tail_first_failure leaves k i _ _ h27 (List.getElem?_eq_getElem hlt)
              hhead hsep hok hfail⟩
      · right; right
        intro k
        refine no_separator_error leaves k h27 hhead ?_
        intro j hj hsome
        exact hsep ⟨j, hj, hsome⟩
    · right; left
      obtain ⟨i, hi, hok, hfail⟩ := exists_first_rejected _ _ _ _ hhead
      have hlt : i < assocHeadColumns.length := by
        simp only [assocHeadColumns, List.length_cons, List.length_nil]; omega
      exact ⟨_, ErrInvalidAssocsFormat, fun k =>
        head_first_failure leaves k i _ _ h27 (List.getElem?_eq_getElem hlt) hok hfail⟩

/-- The decoding of an eps line is a record or an error that names the line, whatever the
line number. -/
theorem epsOfLeaves_shape (leaves : List String) :
    (∃ r, ∀ k, epsOfLeaves leaves k = Except.ok r) ∨
    (∃ col s, ∀ k, epsOfLeaves leaves k = Except.error (Fault.err (errorfAtLine col k s))) := by
  by_cases hlen : leaves.length < 9
  · right
    exact ⟨"", ErrInsufficientNumberOfEPSItems, fun k => by
      simp only [epsOfLeaves, if_pos hlen]⟩
  · have h9 : 9 ≤ leaves.length := by omega
    by_cases hall : ∀ j, j < 8 → accepted epsColumns leaves 0 j = true
    · left
      obtain ⟨r, hr⟩ := epsOfLeaves_of_accepted leaves 0 h9 hall
      exact ⟨r, fun k => epsOfLeaves_any_line leaves 0 k r hr⟩
    · right
      obtain ⟨i, hi, hok, hfail⟩ := exists_first_rejected _ _ _ _ hall
      have hlt : i < epsColumns.length := by
        simp only [epsColumns, List.length_cons, List.length_nil]; omega
      exact ⟨_, ErrInvalidEPSFormat, fun k =>
        eps_first_failure leaves k i _ _ h9 (List.getElem?_eq_getElem hlt) hok hfail⟩

/-- The decoding of a remaddr line is a record or an error that names the line, whatever the
line number. -/
theorem remaddrOfLeaves_shape (leaves : List String) :
    (∃ r, ∀ k, remaddrOfLeaves leaves k = Except.ok r) ∨
    (∃ col s, ∀ k,
      remaddrOfLeaves leaves k = Except.error (Fault.err (errorfAtLine col k s))) := by
  by_cases hlen : leaves.length < 8
  · right
    exact ⟨"", ErrInsufficientNumberOfRemaddrItems, fun k => by
      simp only [remaddrOfLeaves, if_pos hlen]⟩
  · have h8 : 8 ≤ leaves.length := by omega
    by_cases hall : ∀ j, j < 7 → accepted remaddrColumns leaves 1 j = true
    · left
      obtain ⟨r, hr⟩ := remaddrOfLeaves_of_accepted leaves 0 h8 hall
      exact ⟨r, fun k => remaddrOfLeaves_any_line leaves 0 k r hr⟩
    · right
      obtain ⟨i, hi, hok, hfail⟩ := exists_first_rejected _ _ _ _ hall
      have hlt : i < remaddrColumns.length := by
        simp only [remaddrColumns, List.length_cons, List.length_nil]; omega
      exact ⟨_, ErrInvalidRemaddrFormat, fun k =>
        remaddr_first_failure leaves k i _ _ h8 (List.getElem?_eq_getElem hlt) hok hfail⟩

/-- When the body never panics and never runs out of budget, neither does the loop: it
returns records and no error, or no records and an error. -/
theorem scanLoop_total {α : Type} (body : String → Nat → Except Fault α)
    (htotal : ∀ text k, (∃ r, body text k = Except.ok r) ∨
      (∃ e, body text k = Except.error (Fault.err e))) :
    ∀ (lines : List String) (ln : Nat) (acc : List α),
      (∃ recs, scanLoop body lines ln acc = Outcome.returned (some recs) none) ∨
      (∃ e, scanLoop body lines ln acc = Outcome.returned none (some e)) := by
  intro lines
  induction lines with
  | nil => intro ln acc; exact Or.inl ⟨acc, rfl⟩
  | cons text rest ih =>
    intro ln acc
    by_cases ht : text = ""
    · rw [scanLoop, if_pos ht]
      exact ih _ _
    · rw [scanLoop, if_neg ht]
      rcases htotal text ln with ⟨r, hr⟩ | ⟨e, he⟩
      · rw [hr]
        exact ih _ _
      · rw [he]
        exact Or.inr ⟨e, rfl⟩

theorem parseTable_total {α : Type} (body : String → Nat → Except Fault α)
    (htotal : ∀ text k, (∃ r, body text k = Except.ok r) ∨
      (∃ e, body text k = Except.error (Fault.err e)))
    (input : List String) (noHeader : List Bool) :
    (∃ recs, parseTable body input noHeader = Outcome.returned (some recs) none) ∨
    (∃ e, parseTable body input noHeader = Outcome.returned none (some e)) := by
  unfold parseTable
  split
  · exact scanLoop_total body htotal _ _ _
  · exact scanLoop_total body htotal _ _ _

/-- The first address loop ends within its budget from any cursor: it finds the separator at
a cursor that has moved forward and is within the tokens, or it reaches the end of the
tokens and returns the missing-separator error. -/
theorem scanLaddrs_terminates (leaves : List String) (fuel cur : Nat) (acc : List String)
    (hfuel : leaves.length - cur < fuel) :
    (∃ c la, scanLaddrs leaves leaves.length fuel cur acc = Except.ok (c, la) ∧
      cur < c ∧ c ≤ leaves.length) ∨
    scanLaddrs leaves leaves.length fuel cur acc
      = Except.error (Fault.err (errorfPlain
          "there is no separater ('<->') for laddr and raddr" ErrInvalidAssocsFormat)) := by
  classical
  by_cases hex : ∃ s, cur ≤ s ∧ leaves[s]? = some "<->"
  · left
    have h1 := (Nat.find_spec hex).1
    have h2 := (Nat.find_spec hex).2
    have hlt : Nat.find hex < leaves.length := by
      by_contra hcon
      rw [List.getElem?_eq_none (by omega)] at h2
      cases h2
    refine ⟨Nat.find hex + 1, _, scanLaddrs_found leaves (Nat.find hex) hlt h2 fuel cur acc h1
      (by omega) ?_, by omega, by omega⟩
    intro j hj1 hj2 hsome
    exact Nat.find_min hex hj2 ⟨hj1, hsome⟩
  · right
    exact scanLaddrs_none leaves fuel cur acc hfuel (fun j hj hsome => hex ⟨j, hj, hsome⟩)

/-- The second address loop ends within its budget from any cursor and reads only tokens
before the last 11. -/
theorem scanRaddrs_terminates (leaves : List String) (fuel cur : Nat) (acc : List String)
    (hfuel : leaves.length - 11 - cur < fuel) :
    ∃ ra, scanRaddrs leaves (leaves.length - 11) fuel cur acc = Except.ok ra :=
  ⟨_, scanRaddrs_eq leaves (leaves.length - 11) (by omega) fuel cur acc hfuel⟩

/-! ## Index safety -/

/-- Claim C21. Token indexing is always in bounds and the address loops end. For every input
and header flag each of the three parsers returns records and no error, or no records and an
error: it neither panics on an index out of range nor runs out of the iteration budget of
the model. For the tokens of a line: the decoders never stop at an index out of range or for
lack of budget; after the length checks (27, 9, 8) the reads `leaves[0..12]`,
`leaves[n-11..n-1]`, `leaves[0..7]` and `leaves[8:]` succeed; from any cursor the first
address loop ends at a cursor that moved forward within the tokens or with the
missing-separator error, and the second address loop ends. -/
theorem index_in_bounds (input : List String) (noHeader : List Bool) (leaves : List String)
    (k fuel cur : Nat) (acc : List String) :
    ((∃ recs, ParseAssocs input noHeader = Outcome.returned (some recs) none) ∨
      (∃ e, ParseAssocs input noHeader = Outcome.returned none (some e))) ∧
    ((∃ recs, ParseEPS input noHeader = Outcome.returned (some recs) none) ∨
      (∃ e, ParseEPS input noHeader = Outcome.returned none (some e))) ∧
    ((∃ recs, ParseRemaddr input noHeader = Outcome.returned (some recs) none) ∨
      (∃ e, ParseRemaddr input noHeader = Outcome.returned none (some e))) ∧
    (assocOfLeaves leaves k ≠ Except.error Fault.indexOutOfRange ∧
      assocOfLeaves leaves k ≠ Except.error Fault.outOfFuel ∧
      epsOfLeaves leaves k ≠ Except.error Fault.indexOutOfRange ∧
      epsOfLeaves leaves k ≠ Except.error Fault.outOfFuel ∧
      remaddrOfLeaves leaves k ≠ Except.error Fault.indexOutOfRange ∧
      remaddrOfLeaves leaves k ≠ Except.error Fault.outOfFuel) ∧
    (27 ≤ leaves.length →
      (∀ i, i < 13 → ∃ t, index leaves i = Except.ok t) ∧
      (∀ j, 1 ≤ j → j ≤ 11 → ∃ t, index leaves (leaves.length - j) = Except.ok t)) ∧
    (9 ≤ leaves.length →
      (∀ i, i < 8 → ∃ t, index leaves i = Except.ok t) ∧
      sliceFrom leaves 8 = Except.ok (leaves.drop 8)) ∧
    (8 ≤ leaves.length → ∀ i, i < 8 → ∃ t, index leaves i = Except.ok t) ∧
    (leaves.length - cur < fuel →
      (∃ c la, scanLaddrs leaves leaves.length fuel cur acc = Except.ok (c, la) ∧
        cur < c ∧ c ≤ leaves.length) ∨
      scanLaddrs leaves leaves.length fuel cur acc
        = Except.error (Fault.err (errorfPlain
            "there is no separater ('<->') for laddr and raddr" ErrInvalidAssocsFormat))) ∧
    (leaves.length - 11 - cur < fuel →
      ∃ ra, scanRaddrs leaves (leaves.length - 11) fuel cur acc = Except.ok ra) := by
  have hA : ∀ f, f = Fault.indexOutOfRange ∨ f = Fault.outOfFuel →
      assocOfLeaves leaves k ≠ Except.error f := by
    intro f hf hcon
    rcases assocOfLeaves_total leaves k with ⟨r, hr⟩ | ⟨e, he, _⟩
    · rw [hr] at hcon; cases hcon
    · rw [he] at hcon
      rcases hf with rfl | rfl <;> cases hcon
  have hE : ∀ f, f = Fault.indexOutOfRange ∨ f = Fault.outOfFuel →
      epsOfLeaves leaves k ≠ Except.error f := by
    intro f hf hcon
    rcases epsOfLeaves_total leaves k with ⟨r, hr⟩ | ⟨e, he, _⟩
    · rw [hr] at hcon; cases hcon
    · rw [he] at hcon
      rcases hf with rfl | rfl <;> cases hcon
  have hR : ∀ f, f = Fault.indexOutOfRange ∨ f = Fault.outOfFuel →
      remaddrOfLeaves leaves k ≠ Except.error f := by
    intro f hf hcon
    rcases remaddrOfLeaves_total leaves k with ⟨r, hr⟩ | ⟨e, he, _⟩
    · rw [hr] at hcon; cases hcon
    · rw [he] at hcon
      rcases hf with rfl | rfl <;> cases hcon
  refine ⟨parseTable_total assocOfLine assocOfLine_total input noHeader,
    parseTable_total epsOfLine epsOfLine_total input noHeader,
    parseTable_total remaddrOfLine remaddrOfLine_total input noHeader,
    ⟨hA _ (Or.inl rfl), hA _ (Or.inr rfl), hE _ (Or.inl rfl), hE _ (Or.inr rfl),
      hR _ (Or.inl rfl), hR _ (Or.inr rfl)⟩, ?_, ?_, ?_,
    scanLaddrs_terminates leaves fuel cur acc, scanRaddrs_terminates leaves fuel cur acc⟩
  · intro hlen
    exact ⟨fun i hi => ⟨_, index_of_lt leaves i (by omega)⟩,
      fun j h1 h2 => ⟨_, index_of_lt leaves (leaves.length - j) (by omega)⟩⟩
  · intro hlen
    refine ⟨fun i hi => ⟨_, index_of_lt leaves i (by omega)⟩, ?_⟩
    unfold sliceFrom
    rw [if_neg (by omega)]
  · intro hlen i hi
    exact ⟨_, index_of_lt leaves i (by omega)⟩

/-- Witness for C21: on the first data line of `Test_ParseAssocs` (27 tokens) the reads of
the fixed positions succeed, and the first address loop, started at cursor 13 with the
budget the decoder gives it, ends after the separator at cursor 15. -/
theorem index_in_bounds_witness :
    ((∀ i, i < 13 → ∃ t, index (leavesOf assocsLine1) i = Except.ok t) ∧
      (∀ j, 1 ≤ j → j ≤ 11 →
        ∃ t, index (leavesOf assocsLine1) ((leavesOf assocsLine1).length - j) = Except.ok t)) ∧
    scanLaddrs (leavesOf assocsLine1) (leavesOf assocsLine1).length 28 13 []
      = Except.ok (15, ["127.0.0.1"]) ∧
    ((∃ c la, scanLaddrs (leavesOf assocsLine1) (leavesOf assocsLine1).length 28 13 []
        = Except.ok (c, la) ∧ 13 < c ∧ c ≤ (leavesOf assocsLine1).length) ∨
      scanLaddrs (leavesOf assocsLine1) (leavesOf assocsLine1).length 28 13 []
        = Except.error (Fault.err (errorfPlain
            "there is no separater ('<->') for laddr and raddr" ErrInvalidAssocsFormat))) :=
  ⟨(index_in_bounds [assocsHeader, assocsLine1] [] (leavesOf assocsLine1) 2 28 13
      []).2.2.2.2.1 (by decide),
   by rfl,
   (index_in_bounds [assocsHeader, assocsLine1] [] (leavesOf assocsLine1) 2 28 13
      []).2.2.2.2.2.2.2.1 (by decide)⟩

/-! ## The header line -/

/-- The loop started one line number later, for a body whose result has one of three forms
whatever the line number: a record, an error naming the line, or an error of the set `P`
that names no line. -/
theorem scanLoop_shift {α : Type} (body : String → Nat → Except Fault α)
    (P : WrapError → Prop)
    (hshape : ∀ text, (∃ r, ∀ k, body text k = Except.ok r) ∨
      (∃ col s, ∀ k, body text k = Except.error (Fault.err (errorfAtLine col k s))) ∨
      (∃ e, P e ∧ ∀ k, body text k = Except.error (Fault.err e))) :
    ∀ (lines : List String) (k : Nat) (acc : List α),
      ShiftedByOne (scanLoop body lines k acc) (scanLoop body lines (k + 1) acc) ∨
      (∃ e, P e ∧ scanLoop body lines k acc = Outcome.returned none (some e) ∧
        scanLoop body lines (k + 1) acc = Outcome.returned none (some e)) := by
  intro lines
  induction lines with
  | nil =>
    intro k acc
    exact Or.inl (Or.inl ⟨acc, rfl, rfl⟩)
  | cons text rest ih =>
    intro k acc
    by_cases ht : text = ""
    · rw [scanLoop, scanLoop, if_pos ht, if_pos ht]
      exact ih _ _
    · rw [scanLoop, scanLoop, if_neg ht, if_neg ht]
      rcases hshape text with ⟨r, hr⟩ | ⟨col, s, he⟩ | ⟨e, hP, he⟩
      · rw [hr k, hr (k + 1)]
        exact ih _ _
      · rw [he k, he (k + 1)]
        exact Or.inl (Or.inr ⟨col, k, s, rfl, rfl⟩)
      · rw [he k, he (k + 1)]
        exact Or.inr ⟨e, hP, rfl, rfl⟩

/-- A call that skips a header line `h` against the call on the same lines without header. -/
theorem parseTable_header {α : Type} (body : String → Nat → Except Fault α)
    (P : WrapError → Prop)
    (hshape : ∀ text, (∃ r, ∀ k, body text k = Except.ok r) ∨
      (∃ col s, ∀ k, body text k = Except.error (Fault.err (errorfAtLine col k s))) ∨
      (∃ e, P e ∧ ∀ k, body text k = Except.error (Fault.err e)))
    (h : String) (L : List String) (noHeader rest : List Bool)
    (hsk : skipsHeader noHeader = true) :
    ShiftedByOne (parseTable body L (true :: rest)) (parseTable body (h :: L) noHeader) ∨
    (∃ e, P e ∧ parseTable body L (true :: rest) = Outcome.returned none (some e) ∧
      parseTable body (h :: L) noHeader = Outcome.returned none (some e)) := by
  have h1 : parseTable body L (true :: rest) = scanLoop body L 1 [] := by
    simp [parseTable, skipsHeader]
  have h2 : parseTable body (h :: L) noHeader = scanLoop body L (1 + 1) [] := by
    simp [parseTable, hsk]
  rw [h1, h2]
  exact scanLoop_shift body P hshape L 1 []

/-- Two outcomes related by the shift return the same records when either returns
records. -/
theorem shifted_records {α : Type} (a b : Outcome α) (P : WrapError → Prop)
    (h : ShiftedByOne a b ∨
      (∃ e, P e ∧ a = Outcome.returned none (some e) ∧ b = Outcome.returned none (some e)))
    (recs : List α) :
    a = Outcome.returned (some recs) none ↔ b = Outcome.returned (some recs) none := by
  rcases h with (⟨rs, ha, hb⟩ | ⟨col, j, s, ha, hb⟩) | ⟨e, _, ha, hb⟩
  · rw [ha, hb]
  · rw [ha, hb]
    constructor <;> intro hc <;> cases hc
  · rw [ha, hb]

/-- Only the first element of the variadic argument is consulted. -/
theorem parseTable_first_flag {α : Type} (body : String → Nat → Except Fault α)
    (input : List String) (b : Bool) (rest rest2 : List Bool) :
    parseTable body input (b :: rest) = parseTable body input (b :: rest2) := rfl

theorem assocOfLine_shape (text : String) :
    (∃ r, ∀ k, assocOfLine text k = Except.ok r) ∨
    (∃ col s, ∀ k, assocOfLine text k = Except.error (Fault.err (errorfAtLine col k s))) ∨
    (∃ e, e = missingSeparatorError ∧ ∀ k, assocOfLine text k = Except.error (Fault.err e)) := by
  rcases assocOfLeaves_shape (leavesOf text) with h | h | h
  · exact Or.inl h
  · exact Or.inr (Or.inl h)
  · exact Or.inr (Or.inr ⟨_, rfl, h⟩)

theorem epsOfLine_shape (text : String) :
    (∃ r, ∀ k, epsOfLine text k = Except.ok r) ∨
    (∃ col s, ∀ k, epsOfLine text k = Except.error (Fault.err (errorfAtLine col k s))) ∨
    (∃ e, False ∧ ∀ k, epsOfLine text k = Except.error (Fault.err e)) := by
  rcases epsOfLeaves_shape (leavesOf text) with h | h
  · exact Or.inl h
  · exact Or.inr (Or.inl h)

theorem remaddrOfLine_shape (text : String) :
    (∃ r, ∀ k, remaddrOfLine text k = Except.ok r) ∨
    (∃ col s, ∀ k, remaddrOfLine text k = Except.error (Fault.err (errorfAtLine col k s))) ∨
    (∃ e, False ∧ ∀ k, remaddrOfLine text k = Except.error (Fault.err e)) := by
  rcases remaddrOfLeaves_shape (leavesOf text) with h | h
  · exact Or.inl h
  · exact Or.inr (Or.inl h)

/-- No error that names a line is the missing-separator error. -/
theorem errorfAtLine_ne_missing (col : String) (j : Nat) (s : Sentinel) :
    errorfAtLine col j s ≠ missingSeparatorError := by
  intro h
  have hc := errorfAtLine_contains col j s
  rw [h] at hc
  have hpre : Contains missingSeparatorError.msg "at line #" := by
    unfold Contains at hc ⊢
    rw [String.data_append] at hc
    exact List.IsInfix.trans ⟨[], (toString j).data, by simp⟩ hc
  revert hpre
  set_option maxRecDepth 20000 in decide

/-- Two calls that both return the missing-separator error are not related by a shift of
the line number. -/
theorem not_shifted_of_missing {α : Type} (a b : Outcome α)
    (ha : a = Outcome.returned none (some missingSeparatorError)) : ¬ ShiftedByOne a b := by
  rintro (⟨recs, h1, _⟩ | ⟨col, j, s, h1, _⟩)
  · rw [ha] at h1
    cases h1
  · rw [ha] at h1
    injection h1 with _ h2
    injection h2 with h3
    exact errorfAtLine_ne_missing col j s h3.symm

/-- Claim C22, as far as the code follows it. The content of the header line is never
inspected: for every line `h`, every list of lines `L` and every flag that asks for the
header to be skipped (no flag, or `false` first), the call on `h` followed by `L` and the
call on `L` with `noHeader = true` return the same records when either returns records; for
`ParseEPS` and `ParseRemaddr` a failure of one is a failure of the other with the same
column, the same kind and a line number larger by one. For `ParseAssocs` the same holds but
for the missing-separator error, which carries no line number and is returned unchanged by
both calls. Only the first element of the flag list is consulted. -/
theorem header_not_inspected (h : String) (L : List String) (noHeader rest rest2 : List Bool)
    (b : Bool) (hsk : skipsHeader noHeader = true) :
    (skipsHeader [] = true ∧ skipsHeader (false :: rest) = true ∧
      skipsHeader (true :: rest) = false) ∧
    ((ShiftedByOne (ParseAssocs L (true :: rest)) (ParseAssocs (h :: L) noHeader) ∨
        (ParseAssocs L (true :: rest) = Outcome.returned none (some missingSeparatorError) ∧
          ParseAssocs (h :: L) noHeader
            = Outcome.returned none (some missingSeparatorError))) ∧
      ∀ recs, ParseAssocs L (true :: rest) = Outcome.returned (some recs) none ↔
        ParseAssocs (h :: L) noHeader = Outcome.returned (some recs) none) ∧
    (ShiftedByOne (ParseEPS L (true :: rest)) (ParseEPS (h :: L) noHeader) ∧
      ∀ recs, ParseEPS L (true :: rest) = Outcome.returned (some recs) none ↔
        ParseEPS (h :: L) noHeader = Outcome.returned (some recs) none) ∧
    (ShiftedByOne (ParseRemaddr L (true :: rest)) (ParseRemaddr (h :: L) noHeader) ∧
      ∀ recs, ParseRemaddr L (true :: rest) = Outcome.returned (some recs) none ↔
        ParseRemaddr (h :: L) noHeader = Outcome.returned (some recs) none) ∧
    (ParseAssocs L (b :: rest) = ParseAssocs L (b :: rest2) ∧
      ParseEPS L (b :: rest) = ParseEPS L (b :: rest2) ∧
      ParseRemaddr L (b :: rest) = ParseRemaddr L (b :: rest2)) := by
  have hA := parseTable_header assocOfLine _ assocOfLine_shape h L noHeader rest hsk
  have hE := parseTable_header epsOfLine _ epsOfLine_shape h L noHeader rest hsk
  have hR := parseTable_header remaddrOfLine _ remaddrOfLine_shape h L noHeader rest hsk
  refine ⟨⟨rfl, rfl, rfl⟩, ⟨?_, shifted_records _ _ _ hA⟩, ⟨?_, shifted_records _ _ _ hE⟩,
    ⟨?_, shifted_records _ _ _ hR⟩, ⟨rfl, rfl, rfl⟩⟩
  · rcases hA with hA | ⟨e, rfl, h1, h2⟩
    · exact Or.inl hA
    · exact Or.inr ⟨h1, h2⟩
  · rcases hE with hE | ⟨e, hF, _⟩
    · exact hE
    · exact absurd hF id
  · rcases hR with hR | ⟨e, hF, _⟩
    · exact hR
    · exact absurd hF id

set_option maxRecDepth 20000 in
/-- Witness for C22, which also shows where `ParseAssocs` departs from it. A short line
after the header of `Test_ParseAssocs` fails at line 2 with the header and at line 1 without
it. A line without separator makes both calls return the very same error, whose message is
`there is no separater ('<->') for laddr and raddr: invalid assocs format` and has no line
number. -/
theorem header_not_inspected_witness :
    ShiftedByOne (ParseEPS [epsLineShort] [true]) (ParseEPS [epsHeader, epsLineShort] []) ∧
    ParseEPS [epsLineShort] [true]
      = Outcome.returned none (some (errorfAtLine "" 1 ErrInsufficientNumberOfEPSItems)) ∧
    ParseEPS [epsHeader, epsLineShort] []
      = Outcome.returned none (some (errorfAtLine "" 2 ErrInsufficientNumberOfEPSItems)) ∧
    ParseAssocs [assocsLineNoSeparator] [true]
      = Outcome.returned none (some missingSeparatorError) ∧
    ParseAssocs [assocsHeader, assocsLineNoSeparator] []
      = Outcome.returned none (some missingSeparatorError) ∧
    missingSeparatorError.msg
      = "there is no separater ('<->') for laddr and raddr: invalid assocs format" ∧
    ¬ Contains missingSeparatorError.msg "at line #" ∧
    ¬ ShiftedByOne (ParseAssocs [assocsLineNoSeparator] [true])
        (ParseAssocs [assocsHeader, assocsLineNoSeparator] []) :=
  ⟨(header_not_inspected epsHeader [epsLineShort] [] [] [] true rfl).2.2.1.1,
   by rfl, by rfl, by rfl, by rfl, by rfl, by decide,
   not_shifted_of_missing _ _ (by rfl)⟩

/-! ## Tokens after the eighth of a remaddr line -/

/-- The decoding of a remaddr line reads only its first 8 tokens. -/
theorem remaddrOfLeaves_take (leaves : List String) (k : Nat) (hlen : 8 ≤ leaves.length) :
    remaddrOfLeaves (leaves.take 8) k = remaddrOfLeaves leaves k := by
  have hi : ∀ i, i < 8 → index (leaves.take 8) i = index leaves i := by
    intro i hi
    unfold index
    rw [List.getElem?_take, if_pos hi]
  have hl : (leaves.take 8).length = 8 := by
    rw [List.length_take]
    omega
  unfold remaddrOfLeaves
  rw [if_neg (by omega), if_neg (by omega)]
  simp only [hi 0 (by decide), hi 1 (by decide), hi 2 (by decide), hi 3 (by decide),
    hi 4 (by decide), hi 5 (by decide), hi 6 (by decide), hi 7 (by decide)]

/-- The loop gives the same outcome when one line is replaced by a line on which the body
gives the same result, both lines being non-empty. -/
theorem scanLoop_congr_line {α : Type} (body : String → Nat → Except Fault α)
    (text text2 : String) (post : List String) (hne : text ≠ "") (hne2 : text2 ≠ "")
    (hb : ∀ k, body text k = body text2 k) :
    ∀ (pre : List String) (k : Nat) (acc : List α),
      scanLoop body (pre ++ text :: post) k acc = scanLoop body (pre ++ text2 :: post) k acc := by
  intro pre
  induction pre with
  | nil =>
    intro k acc
    simp only [List.nil_append, scanLoop, if_neg hne, if_neg hne2, hb k]
  | cons t pre ih =>
    intro k acc
    simp only [List.cons_append, scanLoop]
    split
    · exact ih _ _
    · cases body t k with
      | error f => cases f <;> rfl
      | ok r => exact ih _ _

/-- The call gives the same outcome when one line is replaced by a line on which the body
gives the same result, both lines being non-empty. -/
theorem parseTable_congr_line {α : Type} (body : String → Nat → Except Fault α)
    (text text2 : String) (pre post : List String) (noHeader : List Bool)
    (hne : text ≠ "") (hne2 : text2 ≠ "") (hb : ∀ k, body text k = body text2 k) :
    parseTable body (pre ++ text :: post) noHeader
      = parseTable body (pre ++ text2 :: post) noHeader := by
  unfold parseTable
  split
  · cases pre with
    | nil => rfl
    | cons t pre =>
      simp only [List.cons_append, List.drop_succ_cons, List.drop_zero]
      exact scanLoop_congr_line body text text2 post hne hne2 hb pre 2 []
  · exact scanLoop_congr_line body text text2 post hne hne2 hb pre 1 []

/-- Claim C23. `ParseRemaddr` ignores every token after the eighth. For a line `text` of
more than 8 tokens and a line `text8` whose tokens are the first 8 tokens of `text`: read as
any line `k` the two lines give the same result, a record or an error; a call gives the same
outcome whichever of the two lines stands at a given place of the input; and `text` is not
rejected for its number of tokens: its result is never the insufficient-items error, and it
is a record as soon as the tokens 1..7 convert. -/
theorem remaddr_ignores_extra_tokens (text text8 : String) (pre post : List String)
    (noHeader : List Bool) (k : Nat)
    (hlen : 8 < (leavesOf text).length)
    (h8 : leavesOf text8 = (leavesOf text).take 8) :
    remaddrOfLine text k = remaddrOfLine text8 k ∧
    ParseRemaddr (pre ++ text :: post) noHeader
      = ParseRemaddr (pre ++ text8 :: post) noHeader ∧
    remaddrOfLine text k
      ≠ Except.error (Fault.err (errorfAtLine "" k ErrInsufficientNumberOfRemaddrItems)) ∧
    ((∀ j, j < 7 → accepted remaddrColumns (leavesOf text) 1 j = true) →
      ∃ r, remaddrOfLine text k = Except.ok r ∧ remaddrOfLine text8 k = Except.ok r) := by
  have hb : ∀ j, remaddrOfLine text j = remaddrOfLine text8 j := by
    intro j
    unfold remaddrOfLine
    rw [h8, remaddrOfLeaves_take _ _ (by omega)]
  have hl8 : (leavesOf text8).length = 8 := by
    rw [h8, List.length_take]
    omega
  refine ⟨hb k, parseTable_congr_line remaddrOfLine text text8 pre post noHeader
    (ne_empty_of_tokens text (by omega)) (ne_empty_of_tokens text8 (by omega)) hb, ?_, ?_⟩
  · intro hcon
    rcases remaddrOfLeaves_total (leavesOf text) k with ⟨r, hr⟩ | ⟨e, he, hkind⟩
    · unfold remaddrOfLine at hcon
      rw [hr] at hcon
      cases hcon
    · unfold remaddrOfLine at hcon
      rw [he] at hcon
      rcases hkind with ⟨hshort, _⟩ | ⟨_, hw⟩
      · omega
      · injection hcon with h1
        injection h1 with h2
        rw [h2] at hw
        cases hw
  · intro hall
    obtain ⟨r, hr⟩ := remaddrOfLeaves_of_accepted (leavesOf text) k (by omega) hall
    exact ⟨r, hr, by rw [← hb k]; exact hr⟩

set_option maxRecDepth 20000 in
/-- Witness for C23: the second data line of `TestParseRemaddr` followed by the tokens
`extra` and `99` gives the record of the line itself, and a line of 10 tokens whose START is
malformed gives the error of its first 8 tokens. -/
theorem remaddr_ignores_extra_tokens_witness :
    remaddrOfLine remaddrLineLong 3 = remaddrOfLine "127.0.0.20  69 1 3000 5 0 0 3" 3 ∧
    ParseRemaddr ([remaddrHeader] ++ remaddrLineLong :: []) []
      = ParseRemaddr ([remaddrHeader] ++ "127.0.0.20  69 1 3000 5 0 0 3" :: []) [] ∧
    ParseRemaddr [remaddrHeader, remaddrLineLong] []
      = Outcome.returned (some
          [{ Addr := "127.0.0.20", AssocID := 69, HbAct := 1, RTO := 3000, MaxPathRtx := 5,
             RemAddrRtx := 0, Start := 0, State := 3 }]) none ∧
    ParseRemaddr [remaddrHeader, remaddrLineLongBadStart] []
      = Outcome.returned none (some (errorfAtLine "START " 2 ErrInvalidRemaddrFormat)) ∧
    ParseRemaddr [remaddrHeader, "127.0.0.20 69 1 3000 5 0 x 3"] []
      = Outcome.returned none (some (errorfAtLine "START " 2 ErrInvalidRemaddrFormat)) :=
  ⟨(remaddr_ignores_extra_tokens remaddrLineLong "127.0.0.20  69 1 3000 5 0 0 3"
      [remaddrHeader] [] [] 3 (by decide) (by decide)).1,
   (remaddr_ignores_extra_tokens remaddrLineLong "127.0.0.20  69 1 3000 5 0 0 3"
      [remaddrHeader] [] [] 3 (by decide) (by decide)).2.1,
   by rfl, by rfl, by rfl⟩

end SctpProc
